import Mathlib

/-!
CanteenAI kitchen-capacity admission scheduler.

A shallow embedding of `src/services/aiScheduler.js` (class `AIScheduler`) and
theorems about it.

Modelling conventions.

* A JavaScript `Date` is its `getTime()` value: an integer number of
  milliseconds since the epoch (`Instant`).  `new Date(x)` of such a value is
  the identity.
* The wall-clock fields `getHours()` / `getMinutes()` and the wall-clock step
  `setMinutes()` depend on the host time zone; they are supplied by a `Zone`.
* The clock reads `new Date()` and `Date.now()` inside `checkSlotFeasibility`
  are one explicit argument `now`.
* Quantities, prep times and capacities are integers.  Integer arithmetic on
  them is exact in JavaScript (below `2 ^ 53`), so it is done in `ℤ`.
* The non-integer arithmetic (`hour + minute / 60` and
  `capacity * (1 - rushIntensity * 0.3)`) is IEEE-754 binary64.  A double is
  modelled by the rational number it denotes and every operation rounds its
  exact result with `fl` (round to nearest, ties to even, 53 significant bits;
  the exponent range is not bounded, overflow does not arise for the values
  the scheduler handles).
-/

namespace CanteenAI

/-! ## Binary64 rounding -/

/-- Round a rational to the nearest integer, ties to the even one. -/
def roundNE (x : ℚ) : ℤ :=
  let f := ⌊x⌋
  if x - f < 1 / 2 then f
  else if 1 / 2 < x - f then f + 1
  else if f % 2 = 0 then f else f + 1

/-- Round a rational to the nearest binary64 value: the significand is scaled
into `[2^52, 2^53)`, rounded to an integer with ties to even, and scaled back. -/
def fl (x : ℚ) : ℚ :=
  let u : ℚ := 2 ^ (Int.log 2 |x| - 52)
  roundNE (x / u) * u

/-- The double denoted by a decimal literal of the source, such as `0.3`. -/
def dbl (q : ℚ) : ℚ := fl q

/-! ## Data model -/

/-- Milliseconds since the epoch: the `getTime()` value of a `Date`. -/
abbrev Instant := ℤ

/-- An order item snapshot (`orderItemSchema`): `prepTime` may be absent. -/
structure Item where
  quantity : ℤ
  prepTime : Option ℤ
deriving DecidableEq, Repr

/-- A time window `{ start, end }`. -/
structure Slot where
  start : Instant
  end_ : Instant
deriving DecidableEq, Repr

/-- An order document (`orderSchema`), restricted to the fields the scheduler
and the order workflow read.  `scheduledPrepTime` is not required by the schema. -/
structure Order where
  canteenId : String
  items : List Item
  status : String
  pickupSlot : Slot
  scheduledPrepTime : Option Instant
deriving DecidableEq, Repr

/-- The overlap rule of the specification: an order occupies the window `[startTime, endTime)`
when its `scheduledPrepTime` is before the window end and its `pickupSlot.end` is after the
window start. -/
def Order.occupies (o : Order) (startTime endTime : Instant) : Prop :=
  ∃ p, o.scheduledPrepTime = some p ∧ p < endTime ∧ startTime < o.pickupSlot.end_

instance Order.decidableOccupies (o : Order) (startTime endTime : Instant) :
    Decidable (o.occupies startTime endTime) :=
  match h : o.scheduledPrepTime with
  | some p =>
    if hp : p < endTime ∧ startTime < o.pickupSlot.end_ then isTrue ⟨p, h, hp.1, hp.2⟩
    else isFalse (by
      rintro ⟨q, hq, h1, h2⟩
      rw [h] at hq
      cases hq
      exact hp ⟨h1, h2⟩)
  | none => isFalse (by
      rintro ⟨q, hq, _⟩
      rw [h] at hq
      cases hq)

/-- The host time zone: the local hour and minute of an instant, as returned by
`Date.prototype.getHours` and `Date.prototype.getMinutes`, and the wall-clock step
`Date.prototype.setMinutes`: `setMinutes t m` is the instant whose local clock shows the date,
hour and seconds of `t` with the minute field `m` (minutes from 60 on carry into the hour).
It lies `m - getMinutes t` minutes from `t` when the UTC offset of the zone is the same at both
instants, and is displaced from there by the change of the offset otherwise.  The field
`setMinutes_shift` records that the UTC offsets of one zone differ by whole multiples of
10 minutes, as daylight-saving shifts do (they are 30, 60 or 120 minutes). -/
structure Zone where
  getHours : Instant → ℕ
  getMinutes : Instant → ℕ
  getHours_lt : ∀ t, getHours t < 24
  getMinutes_lt : ∀ t, getMinutes t < 60
  setMinutes : Instant → ℤ → Instant
  setMinutes_shift : ∀ t m,
    (10 * 60000 : ℤ) ∣ setMinutes t m - (t + (m - (getMinutes t : ℤ)) * 60000)

/-- The UTC zone. -/
def utc : Zone where
  getHours t := (t / 3600000 % 24).toNat
  getMinutes t := (t / 60000 % 60).toNat
  getHours_lt t := by
    show (t / 3600000 % 24).toNat < 24
    omega
  getMinutes_lt t := by
    show (t / 60000 % 60).toNat < 60
    omega
  setMinutes t m := t - t / 60000 % 60 * 60000 + m * 60000
  setMinutes_shift t m := by
    show (10 * 60000 : ℤ) ∣ t - t / 60000 % 60 * 60000 + m * 60000
      - (t + (m - ((t / 60000 % 60).toNat : ℤ)) * 60000)
    rw [Int.toNat_of_nonneg (Int.emod_nonneg _ (by norm_num))]
    exact ⟨0, by ring⟩

/-- The zone with the UTC offsets `offsetAt` (the offset in force at an instant,
`LocalTZA(t, true)`) and `offsetOfLocal` (the offset a local time value is read with,
`LocalTZA(tlocal, false)`), in milliseconds.  The local fields are computed as ECMAScript
does: `getHours` and `getMinutes` from the local time value `t + offsetAt t`, and `setMinutes`
by replacing the minute field of the local time value and reading the result back with
`offsetOfLocal`. -/
def Zone.ofOffsets (offsetAt : Instant → ℤ) (offsetOfLocal : ℤ → ℤ)
    (h : ∀ t l, (10 * 60000 : ℤ) ∣ offsetAt t - offsetOfLocal l) : Zone where
  getHours t := ((t + offsetAt t) / 3600000 % 24).toNat
  getMinutes t := ((t + offsetAt t) / 60000 % 60).toNat
  getHours_lt t := by
    show ((t + offsetAt t) / 3600000 % 24).toNat < 24
    omega
  getMinutes_lt t := by
    show ((t + offsetAt t) / 60000 % 60).toNat < 60
    omega
  setMinutes t m :=
    t + offsetAt t - (t + offsetAt t) / 60000 % 60 * 60000 + m * 60000
      - offsetOfLocal (t + offsetAt t - (t + offsetAt t) / 60000 % 60 * 60000 + m * 60000)
  setMinutes_shift t m := by
    show (10 * 60000 : ℤ) ∣ t + offsetAt t - (t + offsetAt t) / 60000 % 60 * 60000 + m * 60000
      - offsetOfLocal (t + offsetAt t - (t + offsetAt t) / 60000 % 60 * 60000 + m * 60000)
      - (t + (m - (((t + offsetAt t) / 60000 % 60).toNat : ℤ)) * 60000)
    rw [Int.toNat_of_nonneg (Int.emod_nonneg _ (by norm_num))]
    obtain ⟨k, hk⟩ := h t (t + offsetAt t - (t + offsetAt t) / 60000 % 60 * 60000 + m * 60000)
    exact ⟨k, by linarith⟩

/-- The UTC offset of America/New_York in force at an instant between March 2024 and March
2025: daylight time (4 hours behind UTC) before 2024-11-03T06:00Z, standard time (5 hours
behind) from then on. -/
def newYorkOffsetAt (t : Instant) : ℤ :=
  if t < 1730613600000 then -4 * 3600000 else -5 * 3600000

/-- The UTC offset a local time value of America/New_York is read with in the same period.
The local hour from 01:00 to 02:00 of 3 November 2024 occurs twice and is read as its first
occurrence, in daylight time, the offset before the transition. -/
def newYorkOffsetOfLocal (l : ℤ) : ℤ :=
  if l < 1730613600000 - 4 * 3600000 then -4 * 3600000 else -5 * 3600000

/-- The zone America/New_York around the end of daylight time 2024. -/
def newYork : Zone :=
  Zone.ofOffsets newYorkOffsetAt newYorkOffsetOfLocal (fun t l => by
    unfold newYorkOffsetAt newYorkOffsetOfLocal
    split_ifs <;> norm_num)

/-- The scheduler object: `this.kitchenCapacity` and `this.bufferTime`. -/
structure AIScheduler where
  kitchenCapacity : ℤ
  bufferTime : ℤ
deriving DecidableEq, Repr

/-- The class constructor: `constructor(kitchenCapacity = 5)`; an absent
argument takes the default 5, and `bufferTime` is always 2. -/
def AIScheduler.constructor (kitchenCapacity : Option ℤ) : AIScheduler :=
  ⟨kitchenCapacity.getD 5, 2⟩

/-- One entry of the `rushWindows` table. -/
structure RushWindow where
  start : ℚ
  end_ : ℚ
  intensity : ℚ

/-- The result object of `checkSlotFeasibility`; a field the returned object
literal does not have is `none`. -/
structure FeasibilityResult where
  feasible : Bool
  reason : String
  scheduledPrepTime : Option Instant
  estimatedWait : Option ℤ
  suggestedSlot : Option Slot
  currentLoad : Option ℤ
  effectiveCapacity : Option ℤ
  rushIntensity : Option ℚ
deriving DecidableEq

namespace AIScheduler

/-- The peak hours configuration of `calculateRushIntensity`. -/
def rushWindows : List RushWindow :=
  [⟨9, 10, dbl 0.9⟩, ⟨12, dbl 13.5, dbl 1.0⟩, ⟨dbl 15.5, 17, dbl 0.7⟩]

/-- The value `hour + minute / 60` computed in binary64. -/
def timeValue (hour minute : ℕ) : ℚ := fl (hour + fl (minute / 60))

/-- The body of `calculateRushIntensity` on the two fields it reads. -/
def rushIntensityAt (hour minute : ℕ) : ℚ :=
  match rushWindows.find?
      (fun w => decide (timeValue hour minute ≥ w.start ∧ timeValue hour minute < w.end_)) with
  | some w => w.intensity
  | none => dbl 0.2

/-- Source: `calculateRushIntensity(time)`. -/
def calculateRushIntensity (z : Zone) (time : Instant) : ℚ :=
  rushIntensityAt (z.getHours time) (z.getMinutes time)

/-- Source: `getOrdersInWindow(activeOrders, startTime, endTime)`.  An absent
`scheduledPrepTime` gives an invalid date, every comparison with which is false. -/
def getOrdersInWindow (activeOrders : List Order) (startTime endTime : Instant) : List Order :=
  activeOrders.filter fun order =>
    match order.scheduledPrepTime with
    | some orderPrepTime =>
      decide (orderPrepTime < endTime) && decide (order.pickupSlot.end_ > startTime)
    | none => false

/-- Source: `calculateKitchenLoad(orders)`. -/
def calculateKitchenLoad (orders : List Order) : ℤ :=
  orders.foldl
    (fun sum order => sum + order.items.foldl (fun itemSum item => itemSum + item.quantity) 0) 0

/-- The expression `item.prepTime || 10`: absent and zero are falsy. -/
def prepTimeOr10 (item : Item) : ℤ :=
  match item.prepTime with
  | some p => if p = 0 then 10 else p
  | none => 10

/-- Source: `getMaxPrepTime(items)`. -/
def getMaxPrepTime (items : List Item) : ℤ :=
  match items.map prepTimeOr10 with
  | [] => 0
  | p :: ps => ps.foldl max p

/-- Source: `calculatePrepStartTime(pickupTime, maxPrepTime)`. -/
def calculatePrepStartTime (this : AIScheduler) (pickupTime : Instant) (maxPrepTime : ℤ) :
    Instant :=
  pickupTime - (maxPrepTime + this.bufferTime) * 60000

/-- The `for` loop of `findNextAvailableSlot` with `attempts` iterations left,
entered with the current value of `checkTime`; `none` when the loop runs out. -/
def findSlotLoop (itemCount : ℤ) (activeOrders : List Order) (capacity : ℤ) :
    ℕ → Instant → Option Slot
  | 0, _ => none
  | attempts + 1, checkTime0 =>
    let checkTime := checkTime0 + 10 * 60000
    let windowOrders := getOrdersInWindow activeOrders (checkTime - 15 * 60000) checkTime
    let load := calculateKitchenLoad windowOrders
    if load + itemCount ≤ capacity then
      some ⟨checkTime, checkTime + 10 * 60000⟩
    else
      findSlotLoop itemCount activeOrders capacity attempts checkTime

/-- Source: `findNextAvailableSlot(requestedTime, itemCount, activeOrders, capacity)`. -/
def findNextAvailableSlot (requestedTime : Instant) (itemCount : ℤ) (activeOrders : List Order)
    (capacity : ℤ) : Slot :=
  match findSlotLoop itemCount activeOrders capacity 12 requestedTime with
  | some slot => slot
  | none => ⟨requestedTime + 120 * 60000, requestedTime + 130 * 60000⟩

/-- The expression `customCapacity || this.kitchenCapacity`. -/
def resolveCapacity (this : AIScheduler) (customCapacity : Option ℤ) : ℤ :=
  match customCapacity with
  | some c => if c = 0 then this.kitchenCapacity else c
  | none => this.kitchenCapacity

/-- The reduction `items.reduce((sum, i) => sum + (i.quantity || 1), 0)`. -/
def totalItemCount (items : List Item) : ℤ :=
  items.foldl (fun sum i => sum + (if i.quantity = 0 then 1 else i.quantity)) 0

/-- The expression `Math.floor(capacity * (1 - rushIntensity * 0.3))`. -/
def effectiveCapacity (capacity : ℤ) (rushIntensity : ℚ) : ℤ :=
  ⌊fl (capacity * fl (1 - fl (rushIntensity * dbl 0.3)))⌋

/-- Source: `checkSlotFeasibility(pickupTime, items, activeOrders, customCapacity = null)`,
with the clock reading `now` and the host zone made explicit. -/
def checkSlotFeasibility (this : AIScheduler) (z : Zone) (now : Instant) (pickupTime : Instant)
    (items : List Item) (activeOrders : List Order) (customCapacity : Option ℤ) :
    FeasibilityResult :=
  let capacity := resolveCapacity this customCapacity
  let maxPrepTime := getMaxPrepTime items
  let totalItemCount := totalItemCount items
  let requiredStartTime := calculatePrepStartTime this pickupTime maxPrepTime
  if requiredStartTime < now then
    let minimumPickup := now + (maxPrepTime + this.bufferTime) * 60000
    { feasible := false
      reason := "Pickup time too soon. Kitchen needs more preparation time."
      suggestedSlot := some ⟨minimumPickup, minimumPickup + 10 * 60000⟩
      scheduledPrepTime := none
      estimatedWait := none
      currentLoad := none
      effectiveCapacity := none
      rushIntensity := none }
  else
    let concurrentOrders := getOrdersInWindow activeOrders requiredStartTime pickupTime
    let currentLoad := calculateKitchenLoad concurrentOrders
    let rushIntensity := calculateRushIntensity z pickupTime
    let effectiveCapacity := effectiveCapacity capacity rushIntensity
    if currentLoad + totalItemCount ≤ max effectiveCapacity 2 then
      { feasible := true
        scheduledPrepTime := some requiredStartTime
        estimatedWait := some 0
        currentLoad := some currentLoad
        effectiveCapacity := some effectiveCapacity
        rushIntensity := some rushIntensity
        reason := "Slot available"
        suggestedSlot := none }
    else
      let suggestedSlot :=
        findNextAvailableSlot pickupTime totalItemCount activeOrders effectiveCapacity
      { feasible := false
        suggestedSlot := some suggestedSlot
        currentLoad := some currentLoad
        effectiveCapacity := some effectiveCapacity
        rushIntensity := some rushIntensity
        reason := s!"Slot busy ({currentLoad}/{effectiveCapacity} capacity). Try suggested time."
        scheduledPrepTime := none
        estimatedWait := none }

end AIScheduler

/-- The `k`-th candidate instant of the slot search: `k` ten-minute steps after the
requested time. -/
def candidateTime (requestedTime : Instant) (k : ℕ) : Instant :=
  requestedTime + k * (10 * 60000)

/-- The acceptance test of the slot search at its `k`-th candidate `t`: the load of the
orders overlapping the trailing window `[t - 15 min, t)` plus the item count is within the
capacity. -/
def candidateFits (requestedTime : Instant) (itemCount : ℤ) (activeOrders : List Order)
    (capacity : ℤ) (k : ℕ) : Prop :=
  AIScheduler.calculateKitchenLoad
      (AIScheduler.getOrdersInWindow activeOrders
        (candidateTime requestedTime k - 15 * 60000) (candidateTime requestedTime k))
    + itemCount ≤ capacity

instance candidateFits.decidable (requestedTime : Instant) (itemCount : ℤ)
    (activeOrders : List Order) (capacity : ℤ) (k : ℕ) :
    Decidable (candidateFits requestedTime itemCount activeOrders capacity k) := by
  unfold candidateFits
  infer_instance

/-- Four confirmed or preparing orders of one item each, all cooking in the twelve minutes
before noon UTC of the first day of the epoch. -/
def busyNoonOrders : List Order :=
  [⟨"a", [⟨1, some 10⟩], "confirmed", ⟨43200000, 43800000⟩, some 42480000⟩,
    ⟨"a", [⟨1, some 10⟩], "confirmed", ⟨43200000, 43800000⟩, some 42480000⟩,
    ⟨"a", [⟨1, some 10⟩], "preparing", ⟨43200000, 43800000⟩, some 42480000⟩,
    ⟨"a", [⟨1, some 10⟩], "preparing", ⟨43200000, 43800000⟩, some 42480000⟩]

/-! ## Time slots, queue delay and tokens -/

/-- A JavaScript number that may be non-finite: the quotient of a division whose divisor can
be zero.  A finite value is the rational it denotes. -/
inductive JSNumber where
  | finite (v : ℚ)
  | infinity
  | negInfinity
  | nan
deriving DecidableEq

/-- The binary64 division `a / b` of two finite doubles, the divisor being an integer double
(so a zero divisor is `+0`): a non-zero value over zero is infinite, zero over zero is `NaN`. -/
def jsDiv (a b : ℚ) : JSNumber :=
  if b = 0 then
    if 0 < a then JSNumber.infinity else if a < 0 then JSNumber.negInfinity else JSNumber.nan
  else JSNumber.finite (fl (a / b))

/-- The function `Math.ceil`: the non-finite values are returned unchanged. -/
def jsCeil : JSNumber → JSNumber
  | JSNumber.finite v => JSNumber.finite ⌈v⌉
  | x => x

/-- One entry of the array returned by `generateTimeSlots`.  The `label` field, a rendering
of `start` and `end` by `toLocaleTimeString`, is left out. -/
structure TimeSlot where
  start : Instant
  end_ : Instant
  rushIntensity : ℚ
deriving DecidableEq

/-- The result object of `QRService.validateToken`; `type` is `none` for `null`. -/
structure TokenCheck where
  valid : Bool
  type : Option String
deriving DecidableEq, Repr

namespace AIScheduler

/-- Source: `getMaxPrepTime(items)` for an `items` argument that may be absent (`null` or
`undefined`): the guard `!items` returns 0. -/
def getMaxPrepTimeOf (items : Option (List Item)) : ℤ :=
  match items with
  | none => 0
  | some l => getMaxPrepTime l

/-- Source: `predictQueueDelay(activeOrders, canteenId)`.  The mean and the quotient by
`this.kitchenCapacity` are binary64 divisions; the second divisor can be zero. -/
def predictQueueDelay (this : AIScheduler) (activeOrders : List Order) (canteenId : String) :
    JSNumber :=
  let canteenOrders := activeOrders.filter fun order =>
    decide (order.canteenId = canteenId) && ["preparing", "confirmed"].contains order.status
  if canteenOrders.length = 0 then JSNumber.finite 0
  else
    let avgPrepTime : ℚ :=
      fl (((canteenOrders.foldl (fun sum order => sum + getMaxPrepTime order.items) 0 : ℤ) : ℚ)
        / (canteenOrders.length : ℚ))
    jsCeil (jsDiv avgPrepTime (this.kitchenCapacity : ℚ))

/-- Source: `generateTimeSlots(hours = 4, intervalMinutes = 10)`, with the clock reading `now`
and the host zone made explicit.  The quotients `now.getTime() / (intervalMinutes * 60000)` and
`(hours * 60) / intervalMinutes` are binary64 divisions.  The step
`startTime.setMinutes(startTime.getMinutes() + 15)` moves the local wall clock of the zone
15 minutes forward; the later slots are reached by adding milliseconds.  With
`intervalMinutes = 0` and `hours > 0` the loop bound is infinite and the call does not return:
the result is `none`. -/
def generateTimeSlots (z : Zone) (now : Instant) (hours intervalMinutes : ℤ) :
    Option (List TimeSlot) :=
  if intervalMinutes = 0 then
    if 0 < hours then none else some []
  else
    let startTime0 : Instant :=
      ⌈fl ((now : ℚ) / ((intervalMinutes * 60000 : ℤ) : ℚ))⌉ * (intervalMinutes * 60000)
    let startTime : Instant := z.setMinutes startTime0 ((z.getMinutes startTime0 : ℤ) + 15)
    let count : ℕ := ⌈fl (((hours * 60 : ℤ) : ℚ) / (intervalMinutes : ℚ))⌉.toNat
    some ((List.range count).map fun (i : ℕ) =>
      let slotStart : Instant := startTime + (i : ℤ) * intervalMinutes * 60000
      let slotEnd : Instant := slotStart + intervalMinutes * 60000
      ⟨slotStart, slotEnd, calculateRushIntensity z slotStart⟩)

end AIScheduler

namespace QRService

/-- The method `String.prototype.startsWith(searchString)` from position 0. -/
def startsWith (s searchString : String) : Bool :=
  searchString.toList.isPrefixOf s.toList

/-- Source: `QRService.validateToken(token)`.  The argument is `some s` for a string `s` and
`none` for a value of any other type; the empty string is falsy. -/
def validateToken (token : Option String) : TokenCheck :=
  match token with
  | none => ⟨false, none⟩
  | some s =>
    if s = "" then ⟨false, none⟩
    else if startsWith s "ORD-" then ⟨true, some "order"⟩
    else if startsWith s "CLM-" then ⟨true, some "claim"⟩
    else ⟨false, none⟩

end QRService

/-- The orders a queue delay is computed from, in the words of the specification: the orders
of the canteen `canteenId` whose status is `preparing` or `confirmed`. -/
def queueOrders (activeOrders : List Order) (canteenId : String) : List Order :=
  activeOrders.filter fun o =>
    decide (o.canteenId = canteenId ∧ (o.status = "preparing" ∨ o.status = "confirmed"))

namespace AIScheduler

/-- The expression `Math.floor(capacity * (1 - rushIntensity * 0.3))` of `checkSlotFeasibility`
read over exact rational arithmetic: the same operations without binary64 rounding. -/
def effectiveCapacityExact (capacity : ℤ) (rushIntensity : ℚ) : ℤ :=
  ⌊(capacity : ℚ) * (1 - rushIntensity * (3 / 10))⌋

end AIScheduler

/-! ## The vendor order workflow -/

/-- An order as stored (`orderSchema`): the fields above and the two time stamps written by the
status update. -/
structure OrderDocument where
  order : Order
  preparedAt : Option Instant
  collectedAt : Option Instant
deriving DecidableEq, Repr

/-- What a request handler answers: a JSON body sent with an HTTP status code (the `message`
text is left out), or an exception handed to `next`. -/
inductive StatusResponse where
  | json (code : ℕ) (success : Bool)
  | error
deriving DecidableEq, Repr

/-- The value of a property lookup `validTransitions[key]` on the object literal: an own
property holding an array, a property inherited from `Object.prototype` (a function or an
object, neither of which has an `includes` method), or `undefined`. -/
inductive TransitionLookup where
  | own (allowed : List String)
  | inherited
  | undefined
deriving DecidableEq, Repr

namespace VendorController

/-- The property names every object literal inherits from `Object.prototype`. -/
def objectPrototypeKeys : List String :=
  ["constructor", "__defineGetter__", "__defineSetter__", "hasOwnProperty",
    "__lookupGetter__", "__lookupSetter__", "isPrototypeOf", "propertyIsEnumerable",
    "toString", "valueOf", "__proto__", "toLocaleString"]

/-- The table `validTransitions` of `updateOrderStatus`, as the lookup
`validTransitions[current]`. -/
def validTransitions (current : String) : TransitionLookup :=
  if current = "confirmed" then TransitionLookup.own ["preparing", "cancelled"]
  else if current = "preparing" then TransitionLookup.own ["ready", "cancelled"]
  else if current = "ready" then TransitionLookup.own ["collected"]
  else if current ∈ objectPrototypeKeys then TransitionLookup.inherited
  else TransitionLookup.undefined

/-- Source: `updateOrderStatus(req, res, next)` of `vendorController.js`, as a function of the
document `Order.findById` returns (`none` for `null`), the `status` of the request body
(`some s` for a string, `none` for a value of any other type, which `includes` never finds)
and the clock reading `now`; it gives the response and the stored document afterwards.  An
exception of `findById` or `save` is outside the model. -/
def updateOrderStatus (found : Option OrderDocument) (status : Option String) (now : Instant) :
    StatusResponse × Option OrderDocument :=
  match found with
  | none => (StatusResponse.json 404 false, none)
  | some doc =>
    match validTransitions doc.order.status, status with
    | TransitionLookup.inherited, _ => (StatusResponse.error, some doc)
    | TransitionLookup.undefined, _ => (StatusResponse.json 400 false, some doc)
    | TransitionLookup.own _, none => (StatusResponse.json 400 false, some doc)
    | TransitionLookup.own allowed, some s =>
      if s ∈ allowed then
        (StatusResponse.json 200 true,
          some ⟨⟨doc.order.canteenId, doc.order.items, s, doc.order.pickupSlot,
              doc.order.scheduledPrepTime⟩,
            if s = "preparing" then some now else doc.preparedAt,
            if s = "preparing" then doc.collectedAt
            else if s = "collected" then some now else doc.collectedAt⟩)
      else (StatusResponse.json 400 false, some doc)

/-- Successive status updates of one stored order: each request, a requested status and the
clock reading at its arrival, is handled on the document the previous one left. -/
def applyUpdates (doc : OrderDocument) : List (Option String × Instant) → OrderDocument
  | [] => doc
  | request :: rest =>
    applyUpdates ((updateOrderStatus (some doc) request.1 request.2).2.getD doc) rest

end VendorController

/-- The transition table in the words of the specification: confirmed -> {preparing,
cancelled}, preparing -> {ready, cancelled}, ready -> {collected}. -/
def specTransition (current requested : String) : Prop :=
  (current = "confirmed" ∧ (requested = "preparing" ∨ requested = "cancelled"))
    ∨ (current = "preparing" ∧ (requested = "ready" ∨ requested = "cancelled"))
    ∨ (current = "ready" ∧ requested = "collected")

/-! ## Properties of binary64 rounding -/

section Rounding

theorem roundNE_cases (x : ℚ) : roundNE x = ⌊x⌋ ∨ roundNE x = ⌊x⌋ + 1 := by
  unfold roundNE
  simp only
  split_ifs <;> simp

theorem roundNE_eq_of_lt (x : ℚ) (k : ℤ) (h1 : (k : ℚ) - 1 / 2 < x) (h2 : x < k + 1 / 2) :
    roundNE x = k := by
  unfold roundNE
  simp only
  by_cases hk : (k : ℚ) ≤ x
  · have hf : ⌊x⌋ = k := by
      rw [Int.floor_eq_iff]; constructor <;> linarith
    rw [hf, if_pos (by linarith)]
  · have hf : ⌊x⌋ = k - 1 := by
      rw [Int.floor_eq_iff]; push_cast; constructor <;> linarith
    rw [hf]; push_cast
    rw [if_neg (by linarith), if_pos (by linarith)]; ring

theorem roundNE_intCast (n : ℤ) : roundNE (n : ℚ) = n :=
  roundNE_eq_of_lt _ n (by linarith) (by linarith)

theorem roundNE_mono {x y : ℚ} (h : x ≤ y) : roundNE x ≤ roundNE y := by
  rcases lt_or_eq_of_le (Int.floor_mono h) with hlt | heq
  · have hx : roundNE x ≤ ⌊x⌋ + 1 := by
      rcases roundNE_cases x with h1 | h1 <;> omega
    have hy : ⌊y⌋ ≤ roundNE y := by
      rcases roundNE_cases y with h1 | h1 <;> omega
    omega
  · unfold roundNE
    simp only
    rw [← heq]
    split_ifs <;> first | omega | (exfalso; linarith)

theorem roundNE_neg (x : ℚ) : roundNE (-x) = -roundNE x := by
  by_cases hx : (⌊x⌋ : ℚ) = x
  · rw [← hx, ← Int.cast_neg, roundNE_intCast, roundNE_intCast]
  · have h1 : (⌊x⌋ : ℚ) < x := lt_of_le_of_ne (Int.floor_le x) hx
    have h2 : x < ⌊x⌋ + 1 := Int.lt_floor_add_one x
    have hf : ⌊-x⌋ = -⌊x⌋ - 1 := by
      rw [Int.floor_eq_iff]; push_cast; constructor <;> linarith
    unfold roundNE
    simp only
    rw [hf]; push_cast
    split_ifs <;> first | omega | (exfalso; linarith)

theorem log_eq_of_bounds {x : ℚ} {e : ℤ} (h1 : (2 : ℚ) ^ e ≤ x) (h2 : x < (2 : ℚ) ^ (e + 1)) :
    Int.log 2 x = e := by
  have hx : 0 < x := lt_of_lt_of_le (by positivity) h1
  have a := (Int.zpow_le_iff_le_log (b := 2) (by norm_num) (x := e) hx).1 (by simpa using h1)
  have b := (Int.lt_zpow_iff_log_lt (b := 2) (by norm_num) (x := e + 1) hx).1 (by simpa using h2)
  omega

theorem log_bounds {x : ℚ} (hx : 0 < x) :
    (2 : ℚ) ^ Int.log 2 x ≤ x ∧ x < (2 : ℚ) ^ (Int.log 2 x + 1) := by
  have a := Int.zpow_log_le_self (b := 2) (by norm_num) hx
  have b := Int.lt_zpow_succ_log_self (b := 2) (by norm_num) x
  exact ⟨by simpa using a, by simpa using b⟩

theorem fl_neg (x : ℚ) : fl (-x) = -fl x := by
  unfold fl
  simp only [abs_neg, neg_div, roundNE_neg, Int.cast_neg, neg_mul]

theorem fl_eq {x : ℚ} (e k : ℤ) (h1 : (2 : ℚ) ^ e ≤ |x|) (h2 : |x| < (2 : ℚ) ^ (e + 1))
    (hk : roundNE (x / 2 ^ (e - 52)) = k) : fl x = k * 2 ^ (e - 52) := by
  unfold fl
  simp only [log_eq_of_bounds h1 h2, hk]

theorem fl_zero : fl 0 = 0 := by
  unfold fl; simp [roundNE_intCast 0, roundNE]

/-- Scaled significand of a positive rational lies in `[2^52, 2^53)`. -/
theorem scaled_bounds {x : ℚ} (hx : 0 < x) :
    (2 : ℚ) ^ (52 : ℤ) ≤ x / 2 ^ (Int.log 2 x - 52) ∧ x / 2 ^ (Int.log 2 x - 52) < (2 : ℚ) ^ (53 : ℤ) := by
  obtain ⟨a, b⟩ := log_bounds hx
  have hu : (0 : ℚ) < 2 ^ (Int.log 2 x - 52) := by positivity
  constructor
  · rw [le_div_iff₀ hu, ← zpow_add₀ (by norm_num)]; simpa using a
  · rw [div_lt_iff₀ hu, ← zpow_add₀ (by norm_num)]
    have : (53 : ℤ) + (Int.log 2 x - 52) = Int.log 2 x + 1 := by ring
    rw [this]; exact b

theorem fl_pos_bounds {x : ℚ} (hx : 0 < x) :
    (2 : ℚ) ^ Int.log 2 x ≤ fl x ∧ fl x ≤ (2 : ℚ) ^ (Int.log 2 x + 1) := by
  obtain ⟨a, b⟩ := scaled_bounds hx
  have hu : (0 : ℚ) < 2 ^ (Int.log 2 x - 52) := by positivity
  have ha : ((2 : ℤ) ^ (52 : ℕ) : ℤ) ≤ roundNE (x / 2 ^ (Int.log 2 x - 52)) := by
    have := roundNE_mono a
    have h2 : ((2 : ℚ) ^ (52 : ℤ)) = (((2 : ℤ) ^ (52 : ℕ) : ℤ) : ℚ) := by norm_num
    rw [h2, roundNE_intCast] at this
    exact this
  have hb : roundNE (x / 2 ^ (Int.log 2 x - 52)) ≤ ((2 : ℤ) ^ (53 : ℕ) : ℤ) := by
    have := roundNE_mono (le_of_lt b)
    have h2 : ((2 : ℚ) ^ (53 : ℤ)) = (((2 : ℤ) ^ (53 : ℕ) : ℤ) : ℚ) := by norm_num
    rw [h2, roundNE_intCast] at this
    exact this
  unfold fl
  simp only [abs_of_pos hx]
  constructor
  · have h : (2 : ℚ) ^ Int.log 2 x = ((2 : ℤ) ^ (52 : ℕ) : ℤ) * 2 ^ (Int.log 2 x - 52) := by
      have : ((((2 : ℤ) ^ (52 : ℕ) : ℤ)) : ℚ) = (2 : ℚ) ^ (52 : ℤ) := by norm_num
      rw [this, ← zpow_add₀ (by norm_num)]; congr 1; ring
    rw [h]
    exact mul_le_mul_of_nonneg_right (by exact_mod_cast ha) hu.le
  · have h : (2 : ℚ) ^ (Int.log 2 x + 1) = ((2 : ℤ) ^ (53 : ℕ) : ℤ) * 2 ^ (Int.log 2 x - 52) := by
      have : ((((2 : ℤ) ^ (53 : ℕ) : ℤ)) : ℚ) = (2 : ℚ) ^ (53 : ℤ) := by norm_num
      rw [this, ← zpow_add₀ (by norm_num)]; congr 1; ring
    rw [h]
    exact mul_le_mul_of_nonneg_right (by exact_mod_cast hb) hu.le

theorem fl_nonneg {x : ℚ} (hx : 0 ≤ x) : 0 ≤ fl x := by
  rcases eq_or_lt_of_le hx with h | h
  · rw [← h, fl_zero]
  · exact le_trans (by positivity) (fl_pos_bounds h).1

theorem fl_mono_pos {x y : ℚ} (hx : 0 < x) (h : x ≤ y) : fl x ≤ fl y := by
  have hy : 0 < y := lt_of_lt_of_le hx h
  rcases lt_or_eq_of_le (Int.log_mono_right (b := 2) hx h) with hlt | heq
  · calc fl x ≤ (2 : ℚ) ^ (Int.log 2 x + 1) := (fl_pos_bounds hx).2
      _ ≤ (2 : ℚ) ^ Int.log 2 y := zpow_le_zpow_right₀ (by norm_num) (by omega)
      _ ≤ fl y := (fl_pos_bounds hy).1
  · unfold fl
    simp only [abs_of_pos hx, abs_of_pos hy, heq]
    have hu : (0 : ℚ) < 2 ^ (Int.log 2 y - 52) := by positivity
    apply mul_le_mul_of_nonneg_right _ hu.le
    exact_mod_cast roundNE_mono (div_le_div_of_nonneg_right h hu.le)

theorem fl_mono {x y : ℚ} (h : x ≤ y) : fl x ≤ fl y := by
  rcases lt_trichotomy 0 x with hx | hx | hx
  · exact fl_mono_pos hx h
  · rw [← hx, fl_zero]; exact fl_nonneg (hx ▸ h)
  · rcases le_or_lt 0 y with hy | hy
    · have : fl x ≤ 0 := by
        have := fl_nonneg (x := -x) (by linarith)
        rw [fl_neg] at this; linarith
      exact le_trans this (fl_nonneg hy)
    · have := fl_mono_pos (x := -y) (y := -x) (by linarith) (by linarith)
      rw [fl_neg, fl_neg] at this; linarith

theorem fl_repr_pos (k j : ℤ) (hk0 : 0 < k) (hk : k < 2 ^ 53) :
    fl ((k : ℚ) * 2 ^ j) = (k : ℚ) * 2 ^ j := by
  have hx : (0 : ℚ) < (k : ℚ) * 2 ^ j := by positivity
  have hlt : (k : ℚ) * 2 ^ j < (2 : ℚ) ^ (53 + j) := by
    rw [zpow_add₀ (by norm_num)]
    apply mul_lt_mul_of_pos_right _ (by positivity)
    have : ((k : ℤ) : ℚ) < ((2 ^ 53 : ℤ) : ℚ) := by exact_mod_cast hk
    calc (k : ℚ) < ((2 ^ 53 : ℤ) : ℚ) := this
      _ = (2 : ℚ) ^ (53 : ℤ) := by norm_num
  have he : Int.log 2 ((k : ℚ) * 2 ^ j) < 53 + j :=
    (Int.lt_zpow_iff_log_lt (b := 2) (by norm_num) hx).1 (by simpa using hlt)
  obtain ⟨n, hn⟩ : ∃ n : ℕ, (n : ℤ) = j - Int.log 2 ((k : ℚ) * 2 ^ j) + 52 :=
    ⟨(j - Int.log 2 ((k : ℚ) * 2 ^ j) + 52).toNat, by omega⟩
  have hdiv : (k : ℚ) * 2 ^ j / 2 ^ (Int.log 2 ((k : ℚ) * 2 ^ j) - 52) = ((k * 2 ^ n : ℤ) : ℚ) := by
    rw [mul_div_assoc, ← zpow_sub₀ (by norm_num)]
    have : j - (Int.log 2 ((k : ℚ) * 2 ^ j) - 52) = (n : ℤ) := by omega
    rw [this]; push_cast; simp
  unfold fl
  simp only [abs_of_pos hx]
  rw [hdiv, roundNE_intCast]
  push_cast
  rw [mul_assoc, ← zpow_natCast, ← zpow_add₀ (by norm_num)]
  congr 2; omega

theorem fl_repr (k j : ℤ) (hk : |k| < 2 ^ 53) : fl ((k : ℚ) * 2 ^ j) = (k : ℚ) * 2 ^ j := by
  rcases lt_trichotomy 0 k with h | h | h
  · exact fl_repr_pos k j h (by rw [abs_of_pos h] at hk; exact hk)
  · rw [← h]; simp [fl_zero]
  · have := fl_repr_pos (-k) j (by omega) (by rw [abs_of_neg h] at hk; exact hk)
    push_cast at this
    rw [neg_mul, fl_neg] at this
    linarith

theorem fl_intCast (n : ℤ) (hn : |n| < 2 ^ 53) : fl (n : ℚ) = n := by
  simpa using fl_repr n 0 hn

end Rounding

/-! ## Load calculation -/

section Load

open AIScheduler

theorem foldl_add_eq_sum {α : Type} (f : α → ℤ) (l : List α) (a : ℤ) :
    l.foldl (fun s x => s + f x) a = a + (l.map f).sum := by
  induction l generalizing a with
  | nil => simp
  | cons x xs ih => simp only [List.foldl_cons, List.map_cons, List.sum_cons, ih]; ring

theorem calculateKitchenLoad_eq_sum (orders : List Order) :
    calculateKitchenLoad orders = (orders.map fun o => (o.items.map Item.quantity).sum).sum := by
  unfold calculateKitchenLoad
  have h : (fun (sum : ℤ) (order : Order) =>
      sum + order.items.foldl (fun itemSum item => itemSum + item.quantity) 0)
      = fun sum order => sum + (order.items.map Item.quantity).sum := by
    funext s o
    rw [foldl_add_eq_sum Item.quantity o.items 0]; ring
  rw [h, foldl_add_eq_sum]; ring

theorem totalItemCount_eq_sum (items : List Item) :
    totalItemCount items = (items.map fun i => if i.quantity = 0 then 1 else i.quantity).sum := by
  unfold totalItemCount
  rw [foldl_add_eq_sum]; ring

theorem totalItemCount_of_pos (items : List Item) (hq : ∀ i ∈ items, 1 ≤ i.quantity) :
    totalItemCount items = (items.map Item.quantity).sum := by
  rw [totalItemCount_eq_sum]
  congr 1
  apply List.map_congr_left
  intro i hi
  have := hq i hi
  rw [if_neg (by omega)]

theorem getOrdersInWindow_eq_filter (activeOrders : List Order) (startTime endTime : Instant) :
    getOrdersInWindow activeOrders startTime endTime
      = activeOrders.filter fun o => decide (o.occupies startTime endTime) := by
  unfold getOrdersInWindow
  apply List.filter_congr
  intro o _
  rw [Bool.eq_iff_iff, decide_eq_true_iff]
  unfold Order.occupies
  cases h : o.scheduledPrepTime with
  | none => simp
  | some p => simp [gt_iff_lt]

end Load

/-! ## Claims on the load calculation -/

/-- C9: `getOrdersInWindow` keeps exactly the orders whose `scheduledPrepTime` is before the
window end and whose `pickupSlot.end` is after the window start, in their original relative
order; the result is a sublist of the input, and it is empty for an empty input. -/
theorem getOrdersInWindow_spec (activeOrders : List Order) (startTime endTime : Instant) :
    AIScheduler.getOrdersInWindow activeOrders startTime endTime
        = activeOrders.filter (fun o => decide (o.occupies startTime endTime))
      ∧ (∀ o, o ∈ AIScheduler.getOrdersInWindow activeOrders startTime endTime ↔
          o ∈ activeOrders ∧ ∃ p, o.scheduledPrepTime = some p ∧ p < endTime
            ∧ startTime < o.pickupSlot.end_)
      ∧ (AIScheduler.getOrdersInWindow activeOrders startTime endTime).Sublist activeOrders
      ∧ AIScheduler.getOrdersInWindow [] startTime endTime = [] := by
  refine ⟨getOrdersInWindow_eq_filter _ _ _, ?_, ?_, rfl⟩
  · intro o
    rw [getOrdersInWindow_eq_filter, List.mem_filter]
    simp [Order.occupies]
  · rw [getOrdersInWindow_eq_filter]
    exact List.filter_sublist _

/-- C10: `calculateKitchenLoad` is the sum of `quantity` over all items of all orders, it is 0
for no orders, it does not change when the orders are permuted or when the items inside each
order are permuted, and the load of `getOrdersInWindow` is the same for every permutation of
the orders. -/
theorem calculateKitchenLoad_spec (orders : List Order) :
    AIScheduler.calculateKitchenLoad orders
        = (orders.map fun o => (o.items.map Item.quantity).sum).sum
      ∧ AIScheduler.calculateKitchenLoad [] = 0
      ∧ (∀ orders2 : List Order, orders.Perm orders2 →
          AIScheduler.calculateKitchenLoad orders2 = AIScheduler.calculateKitchenLoad orders)
      ∧ (∀ orders2 : List Order, List.Forall₂ (fun o o2 => o.items.Perm o2.items) orders orders2 →
          AIScheduler.calculateKitchenLoad orders2 = AIScheduler.calculateKitchenLoad orders)
      ∧ (∀ (orders2 : List Order) (startTime endTime : Instant), orders.Perm orders2 →
          AIScheduler.calculateKitchenLoad
              (AIScheduler.getOrdersInWindow orders2 startTime endTime)
            = AIScheduler.calculateKitchenLoad
              (AIScheduler.getOrdersInWindow orders startTime endTime)) := by
  refine ⟨calculateKitchenLoad_eq_sum _, rfl, ?_, ?_, ?_⟩
  · intro orders2 hp
    rw [calculateKitchenLoad_eq_sum, calculateKitchenLoad_eq_sum]
    exact ((hp.map _).sum_eq).symm
  · intro orders2 h
    rw [calculateKitchenLoad_eq_sum, calculateKitchenLoad_eq_sum]
    induction h with
    | nil => rfl
    | cons hab _ ih =>
      simp only [List.map_cons, List.sum_cons, ih]
      rw [(hab.map Item.quantity).sum_eq]
  · intro orders2 startTime endTime hp
    rw [calculateKitchenLoad_eq_sum, calculateKitchenLoad_eq_sum,
      getOrdersInWindow_eq_filter, getOrdersInWindow_eq_filter]
    exact (((hp.filter _).map _).sum_eq).symm

/-- Swapping two orders, or the two items of an order, keeps the load, also inside a window. -/
theorem calculateKitchenLoad_spec_witness :
    AIScheduler.calculateKitchenLoad
        [⟨"a", [⟨2, some 5⟩, ⟨1, none⟩], "confirmed", ⟨10, 20⟩, some 0⟩,
          ⟨"a", [⟨4, some 7⟩], "preparing", ⟨30, 40⟩, some 5⟩]
        = AIScheduler.calculateKitchenLoad
          [⟨"a", [⟨4, some 7⟩], "preparing", ⟨30, 40⟩, some 5⟩,
            ⟨"a", [⟨2, some 5⟩, ⟨1, none⟩], "confirmed", ⟨10, 20⟩, some 0⟩]
      ∧ AIScheduler.calculateKitchenLoad
          [⟨"a", [⟨4, some 7⟩], "preparing", ⟨30, 40⟩, some 5⟩,
            ⟨"a", [⟨1, none⟩, ⟨2, some 5⟩], "confirmed", ⟨10, 20⟩, some 0⟩]
        = AIScheduler.calculateKitchenLoad
          [⟨"a", [⟨4, some 7⟩], "preparing", ⟨30, 40⟩, some 5⟩,
            ⟨"a", [⟨2, some 5⟩, ⟨1, none⟩], "confirmed", ⟨10, 20⟩, some 0⟩]
      ∧ AIScheduler.calculateKitchenLoad (AIScheduler.getOrdersInWindow
          [⟨"a", [⟨2, some 5⟩, ⟨1, none⟩], "confirmed", ⟨10, 20⟩, some 0⟩,
            ⟨"a", [⟨4, some 7⟩], "preparing", ⟨30, 40⟩, some 5⟩] 25 35)
        = AIScheduler.calculateKitchenLoad (AIScheduler.getOrdersInWindow
          [⟨"a", [⟨4, some 7⟩], "preparing", ⟨30, 40⟩, some 5⟩,
            ⟨"a", [⟨2, some 5⟩, ⟨1, none⟩], "confirmed", ⟨10, 20⟩, some 0⟩] 25 35) :=
  ⟨(calculateKitchenLoad_spec
      [⟨"a", [⟨4, some 7⟩], "preparing", ⟨30, 40⟩, some 5⟩,
        ⟨"a", [⟨2, some 5⟩, ⟨1, none⟩], "confirmed", ⟨10, 20⟩, some 0⟩]).2.2.1 _
    (List.Perm.swap _ _ _),
   (calculateKitchenLoad_spec
      [⟨"a", [⟨4, some 7⟩], "preparing", ⟨30, 40⟩, some 5⟩,
        ⟨"a", [⟨2, some 5⟩, ⟨1, none⟩], "confirmed", ⟨10, 20⟩, some 0⟩]).2.2.2.1 _
    (List.Forall₂.cons (List.Perm.refl _)
      (List.Forall₂.cons (List.Perm.swap _ _ _) List.Forall₂.nil)),
   (calculateKitchenLoad_spec
      [⟨"a", [⟨4, some 7⟩], "preparing", ⟨30, 40⟩, some 5⟩,
        ⟨"a", [⟨2, some 5⟩, ⟨1, none⟩], "confirmed", ⟨10, 20⟩, some 0⟩]).2.2.2.2 _ 25 35
    (List.Perm.swap _ _ _)⟩

/-! ## The slot finder -/

section SlotFinder

open AIScheduler

theorem candidateFits_shift (requestedTime : Instant) (itemCount : ℤ) (activeOrders : List Order)
    (capacity : ℤ) (k : ℕ) :
    candidateFits (requestedTime + 10 * 60000) itemCount activeOrders capacity k
      ↔ candidateFits requestedTime itemCount activeOrders capacity (k + 1) := by
  unfold candidateFits candidateTime
  have h : requestedTime + 10 * 60000 + (k : ℤ) * (10 * 60000)
      = requestedTime + ((k + 1 : ℕ) : ℤ) * (10 * 60000) := by push_cast; ring
  rw [h]

theorem findSlotLoop_none (itemCount : ℤ) (activeOrders : List Order) (capacity : ℤ) (n : ℕ)
    (t0 : Instant)
    (h : ∀ j : ℕ, 1 ≤ j → j ≤ n → ¬ candidateFits t0 itemCount activeOrders capacity j) :
    findSlotLoop itemCount activeOrders capacity n t0 = none := by
  induction n generalizing t0 with
  | zero => rfl
  | succ n ih =>
    have h1 := h 1 (le_refl 1) (by omega)
    have hstep : ¬ (calculateKitchenLoad
        (getOrdersInWindow activeOrders (t0 + 10 * 60000 - 15 * 60000) (t0 + 10 * 60000))
          + itemCount ≤ capacity) := by
      simpa [candidateFits, candidateTime] using h1
    simp only [findSlotLoop, if_neg hstep]
    apply ih
    intro j hj1 hjn
    rw [candidateFits_shift]
    exact h (j + 1) (by omega) (by omega)

theorem findSlotLoop_first (itemCount : ℤ) (activeOrders : List Order) (capacity : ℤ) (n : ℕ)
    (t0 : Instant) (k : ℕ) (hk1 : 1 ≤ k) (hkn : k ≤ n)
    (hfit : candidateFits t0 itemCount activeOrders capacity k)
    (hmin : ∀ j : ℕ, 1 ≤ j → j < k → ¬ candidateFits t0 itemCount activeOrders capacity j) :
    findSlotLoop itemCount activeOrders capacity n t0
      = some ⟨candidateTime t0 k, candidateTime t0 k + 10 * 60000⟩ := by
  induction n generalizing t0 k with
  | zero => omega
  | succ n ih =>
    by_cases hk : k = 1
    · subst hk
      have hstep : calculateKitchenLoad
          (getOrdersInWindow activeOrders (t0 + 10 * 60000 - 15 * 60000) (t0 + 10 * 60000))
            + itemCount ≤ capacity := by
        simpa [candidateFits, candidateTime] using hfit
      simp only [findSlotLoop, if_pos hstep]
      simp [candidateTime]
    · have h1 := hmin 1 (le_refl 1) (by omega)
      have hstep : ¬ (calculateKitchenLoad
          (getOrdersInWindow activeOrders (t0 + 10 * 60000 - 15 * 60000) (t0 + 10 * 60000))
            + itemCount ≤ capacity) := by
        simpa [candidateFits, candidateTime] using h1
      simp only [findSlotLoop, if_neg hstep]
      obtain ⟨m, rfl⟩ : ∃ m, k = m + 1 := ⟨k - 1, by omega⟩
      have := ih (t0 + 10 * 60000) m (by omega) (by omega)
        ((candidateFits_shift t0 itemCount activeOrders capacity m).2 hfit)
        (fun j hj1 hjm => by
          rw [candidateFits_shift]
          exact hmin (j + 1) (by omega) (by omega))
      rw [this]
      have e : candidateTime (t0 + 10 * 60000) m = candidateTime t0 (m + 1) := by
        unfold candidateTime; push_cast; ring
      rw [e]

end SlotFinder

/-- C6: `findNextAvailableSlot` is first-fit.  If one of the 12 ten-minute candidates
`t = requestedTime + 10 k min` (`1 ≤ k ≤ 12`) passes the test
`load(orders overlapping [t - 15 min, t)) + itemCount ≤ capacity`, then the function returns
`[t, t + 10 min)` for the earliest such candidate, and every earlier candidate fails the test. -/
theorem findNextAvailableSlot_first_fit (requestedTime : Instant) (itemCount : ℤ)
    (activeOrders : List Order) (capacity : ℤ)
    (h : ∃ k : ℕ, 1 ≤ k ∧ k ≤ 12 ∧ candidateFits requestedTime itemCount activeOrders capacity k) :
    ∃ k : ℕ, 1 ≤ k ∧ k ≤ 12
      ∧ candidateFits requestedTime itemCount activeOrders capacity k
      ∧ (∀ j : ℕ, 1 ≤ j → j < k →
          ¬ candidateFits requestedTime itemCount activeOrders capacity j)
      ∧ AIScheduler.findNextAvailableSlot requestedTime itemCount activeOrders capacity
          = ⟨requestedTime + k * (10 * 60000), requestedTime + k * (10 * 60000) + 10 * 60000⟩ := by
  classical
  have hex : ∃ k : ℕ, 1 ≤ k ∧ candidateFits requestedTime itemCount activeOrders capacity k := by
    obtain ⟨k, h1, _, h3⟩ := h
    exact ⟨k, h1, h3⟩
  obtain ⟨k0, _, hk12, hk0⟩ := h
  refine ⟨Nat.find hex, (Nat.find_spec hex).1, ?_, (Nat.find_spec hex).2, ?_, ?_⟩
  · exact le_trans (Nat.find_min' hex ⟨by assumption, hk0⟩) hk12
  · intro j hj1 hjk hfit
    exact Nat.find_min hex hjk ⟨hj1, hfit⟩
  · have hle : Nat.find hex ≤ 12 := le_trans (Nat.find_min' hex ⟨by assumption, hk0⟩) hk12
    unfold AIScheduler.findNextAvailableSlot
    rw [findSlotLoop_first itemCount activeOrders capacity 12 requestedTime (Nat.find hex)
      (Nat.find_spec hex).1 hle (Nat.find_spec hex).2
      (fun j hj1 hjk hfit => Nat.find_min hex hjk ⟨hj1, hfit⟩)]
    rfl

/-- With one order occupying minutes 0 to 25 and capacity 1, the candidate at minute 40
passes the test, so the slot found starts at the earliest passing candidate. -/
theorem findNextAvailableSlot_first_fit_witness :
    ∃ k : ℕ, 1 ≤ k ∧ k ≤ 12
      ∧ candidateFits 0 1 [⟨"a", [⟨1, some 10⟩], "confirmed", ⟨600000, 1500000⟩, some 0⟩] 1 k
      ∧ (∀ j : ℕ, 1 ≤ j → j < k →
          ¬ candidateFits 0 1 [⟨"a", [⟨1, some 10⟩], "confirmed", ⟨600000, 1500000⟩, some 0⟩] 1 j)
      ∧ AIScheduler.findNextAvailableSlot 0 1
          [⟨"a", [⟨1, some 10⟩], "confirmed", ⟨600000, 1500000⟩, some 0⟩] 1
          = ⟨0 + k * (10 * 60000), 0 + k * (10 * 60000) + 10 * 60000⟩ :=
  findNextAvailableSlot_first_fit 0 1
    [⟨"a", [⟨1, some 10⟩], "confirmed", ⟨600000, 1500000⟩, some 0⟩] 1
    ⟨4, by decide, by decide, by decide⟩

/-- C7: `findNextAvailableSlot` always returns a slot, after at most 12 iterations of its
loop: when none of the 12 candidates passes the load test the result is exactly
`[requestedTime + 120 min, requestedTime + 130 min)`, a slot that is not tested (it starts at
the 12th candidate, which has just failed). -/
theorem findNextAvailableSlot_fallback (requestedTime : Instant) (itemCount : ℤ)
    (activeOrders : List Order) (capacity : ℤ)
    (h : ∀ k : ℕ, 1 ≤ k → k ≤ 12 →
      ¬ candidateFits requestedTime itemCount activeOrders capacity k) :
    AIScheduler.findNextAvailableSlot requestedTime itemCount activeOrders capacity
        = ⟨requestedTime + 120 * 60000, requestedTime + 130 * 60000⟩
      ∧ AIScheduler.findSlotLoop itemCount activeOrders capacity 12 requestedTime = none := by
  have hnone := findSlotLoop_none itemCount activeOrders capacity 12 requestedTime h
  refine ⟨?_, hnone⟩
  unfold AIScheduler.findNextAvailableSlot
  rw [hnone]

/-- An order of three items does not fit a capacity of two at any candidate. -/
theorem findNextAvailableSlot_fallback_witness :
    AIScheduler.findNextAvailableSlot 0 3 [] 2 = ⟨120 * 60000, 130 * 60000⟩ :=
  (findNextAvailableSlot_fallback 0 3 [] 2 (fun k _ _ => by
    simp [candidateFits, AIScheduler.getOrdersInWindow, AIScheduler.calculateKitchenLoad])).1

/-! ## The rush intensity model -/

section Rush

open AIScheduler

theorem fl_dyadic (k : ℤ) (n : ℕ) (hk : |k| < 2 ^ 53) :
    fl ((k : ℚ) / 2 ^ n) = (k : ℚ) / 2 ^ n := by
  have h := fl_repr k (-(n : ℤ)) hk
  rw [zpow_neg, zpow_natCast] at h
  exact h

theorem fl_between {x lo hi : ℚ} (hlo : fl lo = lo) (hhi : fl hi = hi) (h1 : lo ≤ x)
    (h2 : x ≤ hi) : lo ≤ fl x ∧ fl x ≤ hi :=
  ⟨hlo ▸ fl_mono h1, hhi ▸ fl_mono h2⟩

theorem dbl_one : dbl 1.0 = 1 := by
  have := fl_intCast 1 (by norm_num)
  norm_num [dbl] at this ⊢
  exact this

theorem dbl_13_5 : dbl 13.5 = 27 / 2 := by
  have := fl_dyadic 27 1 (by norm_num)
  norm_num [dbl] at this ⊢
  exact this

theorem dbl_15_5 : dbl 15.5 = 31 / 2 := by
  have := fl_dyadic 31 1 (by norm_num)
  norm_num [dbl] at this ⊢
  exact this

theorem fl_natCast_add_dyadic (H : ℕ) (hH : H < 24) (k : ℕ) (hk : k < 64) :
    fl ((H : ℚ) + k / 64) = (H : ℚ) + k / 64 := by
  have := fl_dyadic (64 * (H : ℤ) + k) 6
    (by rw [abs_of_nonneg (by positivity)]; norm_num; omega)
  have e : (((64 * (H : ℤ) + k : ℤ)) : ℚ) / 2 ^ 6 = (H : ℚ) + k / 64 := by
    push_cast; ring
  rw [e] at this
  exact this

/-- The binary64 quotient `minute / 60` stays on its side of one half. -/
theorem fl_minute_bounds (M : ℕ) (hM : M < 60) :
    (M < 30 → 0 ≤ fl ((M : ℚ) / 60) ∧ fl ((M : ℚ) / 60) ≤ 31 / 64)
      ∧ (30 ≤ M → 1 / 2 ≤ fl ((M : ℚ) / 60) ∧ fl ((M : ℚ) / 60) ≤ 63 / 64) := by
  have h0 : fl (0 : ℚ) = 0 := fl_zero
  have h31 : fl ((31 : ℚ) / 64) = 31 / 64 := by
    have := fl_dyadic 31 6 (by norm_num); norm_num at this ⊢; exact this
  have h12 : fl ((1 : ℚ) / 2) = 1 / 2 := by
    have := fl_dyadic 1 1 (by norm_num); norm_num at this ⊢; exact this
  have h63 : fl ((63 : ℚ) / 64) = 63 / 64 := by
    have := fl_dyadic 63 6 (by norm_num); norm_num at this ⊢; exact this
  constructor
  · intro h
    have hm : (M : ℚ) ≤ 29 := by exact_mod_cast (by omega : M ≤ 29)
    exact fl_between h0 h31 (by positivity) (by linarith)
  · intro h
    have hm : (30 : ℚ) ≤ M := by exact_mod_cast h
    have hm2 : (M : ℚ) ≤ 59 := by exact_mod_cast (by omega : M ≤ 59)
    exact fl_between h12 h63 (by linarith) (by linarith)

/-- The binary64 value of `hour + minute / 60` lies in the same half hour as the exact one. -/
theorem timeValue_bounds (H M : ℕ) (hH : H < 24) (hM : M < 60) :
    (M < 30 → (H : ℚ) ≤ timeValue H M ∧ timeValue H M ≤ H + 31 / 64)
      ∧ (30 ≤ M → (H : ℚ) + 1 / 2 ≤ timeValue H M ∧ timeValue H M ≤ H + 63 / 64) := by
  obtain ⟨blo, bhi⟩ := fl_minute_bounds M hM
  have e0 := fl_natCast_add_dyadic H hH 0 (by norm_num)
  have e31 := fl_natCast_add_dyadic H hH 31 (by norm_num)
  have e32 := fl_natCast_add_dyadic H hH 32 (by norm_num)
  have e63 := fl_natCast_add_dyadic H hH 63 (by norm_num)
  norm_num at e0 e31 e32 e63
  unfold timeValue
  constructor
  · intro h
    obtain ⟨a, b⟩ := blo h
    exact fl_between e0 e31 (by linarith) (by linarith)
  · intro h
    obtain ⟨a, b⟩ := bhi h
    have e32b : fl ((H : ℚ) + 1 / 2) = (H : ℚ) + 1 / 2 := by
      norm_num; exact e32
    exact fl_between e32b e63 (by linarith) (by linarith)

theorem timeValue_int_le (n H M : ℕ) (hH : H < 24) (hM : M < 60) :
    (n : ℚ) ≤ timeValue H M ↔ (n : ℚ) ≤ (H : ℚ) + (M : ℚ) / 60 := by
  obtain ⟨blo, bhi⟩ := timeValue_bounds H M hH hM
  have hm0 : (0 : ℚ) ≤ M := by positivity
  have hm2 : (M : ℚ) ≤ 59 := by exact_mod_cast (by omega : M ≤ 59)
  have htv : (H : ℚ) ≤ timeValue H M ∧ timeValue H M < H + 1 := by
    rcases lt_or_le M 30 with h | h
    · obtain ⟨a, b⟩ := blo h; constructor <;> linarith
    · obtain ⟨a, b⟩ := bhi h; constructor <;> linarith
  rcases le_or_lt n H with h | h
  · have : (n : ℚ) ≤ H := by exact_mod_cast h
    constructor <;> intro _ <;> linarith [htv.1]
  · have : (H : ℚ) + 1 ≤ n := by exact_mod_cast h
    constructor <;> intro _ <;> linarith [htv.2]

theorem timeValue_half_le (n H M : ℕ) (hH : H < 24) (hM : M < 60) :
    (n : ℚ) + 1 / 2 ≤ timeValue H M ↔ (n : ℚ) + 1 / 2 ≤ (H : ℚ) + (M : ℚ) / 60 := by
  obtain ⟨blo, bhi⟩ := timeValue_bounds H M hH hM
  have hm0 : (0 : ℚ) ≤ M := by positivity
  rcases lt_or_le M 30 with hM30 | hM30
  · obtain ⟨a, b⟩ := blo hM30
    have hm2 : (M : ℚ) ≤ 29 := by exact_mod_cast (by omega : M ≤ 29)
    rcases lt_or_le n H with h | h
    · have : (n : ℚ) + 1 ≤ H := by exact_mod_cast h
      constructor <;> intro _ <;> linarith
    · have : (H : ℚ) ≤ n := by exact_mod_cast h
      constructor <;> intro _ <;> linarith
  · obtain ⟨a, b⟩ := bhi hM30
    have hm1 : (30 : ℚ) ≤ M := by exact_mod_cast hM30
    have hm2 : (M : ℚ) ≤ 59 := by exact_mod_cast (by omega : M ≤ 59)
    rcases le_or_lt n H with h | h
    · have : (n : ℚ) ≤ H := by exact_mod_cast h
      constructor <;> intro _ <;> linarith
    · have : (H : ℚ) + 1 ≤ n := by exact_mod_cast h
      constructor <;> intro _ <;> linarith

theorem rushIntensityAt_timeValue (H M : ℕ) :
    rushIntensityAt H M =
      if 9 ≤ timeValue H M ∧ timeValue H M < 10 then dbl 0.9
      else if 12 ≤ timeValue H M ∧ timeValue H M < 27 / 2 then 1
      else if 31 / 2 ≤ timeValue H M ∧ timeValue H M < 17 then dbl 0.7
      else dbl 0.2 := by
  unfold rushIntensityAt rushWindows
  simp only [List.find?_cons, List.find?_nil, dbl_one, dbl_13_5, dbl_15_5, ge_iff_le]
  by_cases h1 : 9 ≤ timeValue H M ∧ timeValue H M < 10
  · simp [h1]
  · by_cases h2 : 12 ≤ timeValue H M ∧ timeValue H M < 27 / 2
    · simp [h1, h2]
    · by_cases h3 : 31 / 2 ≤ timeValue H M ∧ timeValue H M < 17
      · simp [h1, h2, h3]
      · simp [h1, h2, h3]

/-- The intensity as a function of the exact fractional hour `hour + minute / 60`. -/
theorem rushIntensityAt_exact (H M : ℕ) (hH : H < 24) (hM : M < 60) :
    rushIntensityAt H M =
      if 9 ≤ (H : ℚ) + (M : ℚ) / 60 ∧ (H : ℚ) + (M : ℚ) / 60 < 10 then dbl 0.9
      else if 12 ≤ (H : ℚ) + (M : ℚ) / 60 ∧ (H : ℚ) + (M : ℚ) / 60 < 13.5 then 1
      else if 15.5 ≤ (H : ℚ) + (M : ℚ) / 60 ∧ (H : ℚ) + (M : ℚ) / 60 < 17 then dbl 0.7
      else dbl 0.2 := by
  have i9 := timeValue_int_le 9 H M hH hM
  have i10 := timeValue_int_le 10 H M hH hM
  have i12 := timeValue_int_le 12 H M hH hM
  have i17 := timeValue_int_le 17 H M hH hM
  have i13 := timeValue_half_le 13 H M hH hM
  have i15 := timeValue_half_le 15 H M hH hM
  norm_num at i9 i10 i12 i17 i13 i15
  have c1 : (9 ≤ timeValue H M ∧ timeValue H M < 10)
      ↔ (9 ≤ (H : ℚ) + (M : ℚ) / 60 ∧ (H : ℚ) + (M : ℚ) / 60 < 10) := by
    rw [i9, ← not_le, ← not_le, i10]
  have c2 : (12 ≤ timeValue H M ∧ timeValue H M < 27 / 2)
      ↔ (12 ≤ (H : ℚ) + (M : ℚ) / 60 ∧ (H : ℚ) + (M : ℚ) / 60 < 13.5) := by
    have e : (13.5 : ℚ) = 27 / 2 := by norm_num
    rw [i12, ← not_le, ← not_le, i13, e]
  have c3 : (31 / 2 ≤ timeValue H M ∧ timeValue H M < 17)
      ↔ (15.5 ≤ (H : ℚ) + (M : ℚ) / 60 ∧ (H : ℚ) + (M : ℚ) / 60 < 17) := by
    have e : (15.5 : ℚ) = 31 / 2 := by norm_num
    rw [i15, ← not_le, ← not_le, i17, e]
  rw [rushIntensityAt_timeValue]
  simp only [c1, c2, c3]

end Rush

/-- C8: `calculateRushIntensity` depends only on the fractional hour `h = H + M / 60` of the
local time (not on the date or the seconds): it is 0.9 for `9 ≤ h < 10`, 1.0 for
`12 ≤ h < 13.5`, 0.7 for `15.5 ≤ h < 17` and 0.2 otherwise, so it is always one of these four
values; at 08:59, 09:00, 09:59, 10:00, 12:00, 13:29 and 13:30 it is 0.2, 0.9, 0.9, 0.2, 1.0,
1.0 and 0.2. -/
theorem calculateRushIntensity_spec (z : Zone) (t : Instant) :
    (AIScheduler.calculateRushIntensity z t =
        if 9 ≤ (z.getHours t : ℚ) + (z.getMinutes t : ℚ) / 60
            ∧ (z.getHours t : ℚ) + (z.getMinutes t : ℚ) / 60 < 10 then dbl 0.9
        else if 12 ≤ (z.getHours t : ℚ) + (z.getMinutes t : ℚ) / 60
            ∧ (z.getHours t : ℚ) + (z.getMinutes t : ℚ) / 60 < 13.5 then 1
        else if 15.5 ≤ (z.getHours t : ℚ) + (z.getMinutes t : ℚ) / 60
            ∧ (z.getHours t : ℚ) + (z.getMinutes t : ℚ) / 60 < 17 then dbl 0.7
        else dbl 0.2)
      ∧ (∀ (z2 : Zone) (t2 : Instant),
          (z2.getHours t2 : ℚ) + (z2.getMinutes t2 : ℚ) / 60
              = (z.getHours t : ℚ) + (z.getMinutes t : ℚ) / 60 →
            AIScheduler.calculateRushIntensity z2 t2 = AIScheduler.calculateRushIntensity z t)
      ∧ (AIScheduler.calculateRushIntensity z t = dbl 0.9
          ∨ AIScheduler.calculateRushIntensity z t = 1
          ∨ AIScheduler.calculateRushIntensity z t = dbl 0.7
          ∨ AIScheduler.calculateRushIntensity z t = dbl 0.2)
      ∧ AIScheduler.rushIntensityAt 8 59 = dbl 0.2
      ∧ AIScheduler.rushIntensityAt 9 0 = dbl 0.9
      ∧ AIScheduler.rushIntensityAt 9 59 = dbl 0.9
      ∧ AIScheduler.rushIntensityAt 10 0 = dbl 0.2
      ∧ AIScheduler.rushIntensityAt 12 0 = 1
      ∧ AIScheduler.rushIntensityAt 13 29 = 1
      ∧ AIScheduler.rushIntensityAt 13 30 = dbl 0.2 := by
  have main : ∀ (z : Zone) (t : Instant), AIScheduler.calculateRushIntensity z t =
      if 9 ≤ (z.getHours t : ℚ) + (z.getMinutes t : ℚ) / 60
          ∧ (z.getHours t : ℚ) + (z.getMinutes t : ℚ) / 60 < 10 then dbl 0.9
      else if 12 ≤ (z.getHours t : ℚ) + (z.getMinutes t : ℚ) / 60
          ∧ (z.getHours t : ℚ) + (z.getMinutes t : ℚ) / 60 < 13.5 then 1
      else if 15.5 ≤ (z.getHours t : ℚ) + (z.getMinutes t : ℚ) / 60
          ∧ (z.getHours t : ℚ) + (z.getMinutes t : ℚ) / 60 < 17 then dbl 0.7
      else dbl 0.2 := fun z t =>
    rushIntensityAt_exact _ _ (z.getHours_lt t) (z.getMinutes_lt t)
  refine ⟨main z t, ?_, ?_, ?_, ?_, ?_, ?_, ?_, ?_, ?_⟩
  · intro z2 t2 h
    rw [main z2 t2, main z t, h]
  · rw [main z t]
    split_ifs <;> simp
  · rw [rushIntensityAt_exact 8 59 (by norm_num) (by norm_num)]; norm_num
  · rw [rushIntensityAt_exact 9 0 (by norm_num) (by norm_num)]; norm_num
  · rw [rushIntensityAt_exact 9 59 (by norm_num) (by norm_num)]; norm_num
  · rw [rushIntensityAt_exact 10 0 (by norm_num) (by norm_num)]; norm_num
  · rw [rushIntensityAt_exact 12 0 (by norm_num) (by norm_num)]; norm_num
  · rw [rushIntensityAt_exact 13 29 (by norm_num) (by norm_num)]; norm_num
  · rw [rushIntensityAt_exact 13 30 (by norm_num) (by norm_num)]; norm_num

/-- Noon of the second day of the epoch has the same intensity as noon of the first. -/
theorem calculateRushIntensity_spec_witness :
    AIScheduler.calculateRushIntensity utc (43200000 + 86400000 + 59000)
      = AIScheduler.calculateRushIntensity utc 43200000 :=
  (calculateRushIntensity_spec utc 43200000).2.1 utc (43200000 + 86400000 + 59000) (by
    simp [utc])

/-! ## The feasibility check -/

section Feasibility

open AIScheduler

theorem fl_one : fl 1 = 1 := by
  have := fl_intCast 1 (by norm_num)
  simpa using this

theorem dbl_unit_range {q : ℚ} (h0 : 0 ≤ q) (h1 : q ≤ 1) : 0 ≤ dbl q ∧ dbl q ≤ 1 :=
  fl_between fl_zero fl_one h0 h1

theorem rushIntensityAt_range (H M : ℕ) :
    0 ≤ rushIntensityAt H M ∧ rushIntensityAt H M ≤ 1 := by
  rw [rushIntensityAt_timeValue]
  split_ifs
  · exact dbl_unit_range (by norm_num) (by norm_num)
  · norm_num
  · exact dbl_unit_range (by norm_num) (by norm_num)
  · exact dbl_unit_range (by norm_num) (by norm_num)

/-- The binary64 factor `1 - rushIntensity * 0.3` is not negative for an intensity in `[0, 1]`. -/
theorem factor_nonneg {r : ℚ} (h0 : 0 ≤ r) (h1 : r ≤ 1) : 0 ≤ fl (1 - fl (r * dbl 0.3)) := by
  obtain ⟨a, b⟩ := dbl_unit_range (q := 0.3) (by norm_num) (by norm_num)
  have h : fl (r * dbl 0.3) ≤ 1 :=
    (fl_between fl_zero fl_one (mul_nonneg h0 a) (by nlinarith)).2
  exact fl_nonneg (by linarith)

theorem effectiveCapacity_mono {c1 c2 : ℤ} {r : ℚ} (hc : c1 ≤ c2) (h0 : 0 ≤ r) (h1 : r ≤ 1) :
    effectiveCapacity c1 r ≤ effectiveCapacity c2 r := by
  unfold effectiveCapacity
  apply Int.floor_mono
  apply fl_mono
  exact mul_le_mul_of_nonneg_right (by exact_mod_cast hc) (factor_nonneg h0 h1)

theorem effectiveCapacity_five_peak : effectiveCapacity 5 1 = 3 := by
  have q14 : fl ((1 : ℚ) / 4) = 1 / 4 := by
    have := fl_dyadic 1 2 (by norm_num); norm_num at this ⊢; exact this
  have q516 : fl ((5 : ℚ) / 16) = 5 / 16 := by
    have := fl_dyadic 5 4 (by norm_num); norm_num at this ⊢; exact this
  have q1116 : fl ((11 : ℚ) / 16) = 11 / 16 := by
    have := fl_dyadic 11 4 (by norm_num); norm_num at this ⊢; exact this
  have q34 : fl ((3 : ℚ) / 4) = 3 / 4 := by
    have := fl_dyadic 3 2 (by norm_num); norm_num at this ⊢; exact this
  have q5516 : fl ((55 : ℚ) / 16) = 55 / 16 := by
    have := fl_dyadic 55 4 (by norm_num); norm_num at this ⊢; exact this
  have q154 : fl ((15 : ℚ) / 4) = 15 / 4 := by
    have := fl_dyadic 15 2 (by norm_num); norm_num at this ⊢; exact this
  obtain ⟨a1, a2⟩ : 1 / 4 ≤ dbl 0.3 ∧ dbl 0.3 ≤ 5 / 16 :=
    fl_between q14 q516 (by norm_num) (by norm_num)
  obtain ⟨b1, b2⟩ := fl_between (x := 1 * dbl 0.3) q14 q516 (by linarith) (by linarith)
  obtain ⟨c1, c2⟩ := fl_between (x := 1 - fl (1 * dbl 0.3)) q1116 q34 (by linarith) (by linarith)
  obtain ⟨d1, d2⟩ := fl_between (x := ((5 : ℤ) : ℚ) * fl (1 - fl (1 * dbl 0.3))) q5516 q154
    (by push_cast; linarith) (by push_cast; linarith)
  unfold effectiveCapacity
  rw [Int.floor_eq_iff]
  constructor
  · push_cast at d1 ⊢; linarith
  · push_cast at d2 ⊢; linarith

/-- The three outcomes of `checkSlotFeasibility` for a scheduler built by the constructor:
too soon, admitted, busy. -/
theorem checkSlotFeasibility_cases_of (k customCapacity : Option ℤ) (z : Zone)
    (now pickupTime : Instant) (items : List Item) (activeOrders : List Order) :
    checkSlotFeasibility (AIScheduler.constructor k) z now pickupTime items activeOrders
        customCapacity =
      if pickupTime - (getMaxPrepTime items + 2) * 60000 < now then
        ⟨false, "Pickup time too soon. Kitchen needs more preparation time.", none, none,
          some ⟨now + (getMaxPrepTime items + 2) * 60000,
            now + (getMaxPrepTime items + 2) * 60000 + 10 * 60000⟩, none, none, none⟩
      else if calculateKitchenLoad (getOrdersInWindow activeOrders
            (pickupTime - (getMaxPrepTime items + 2) * 60000) pickupTime) + totalItemCount items
          ≤ max (effectiveCapacity (resolveCapacity (AIScheduler.constructor k) customCapacity)
            (calculateRushIntensity z pickupTime)) 2 then
        ⟨true, "Slot available", some (pickupTime - (getMaxPrepTime items + 2) * 60000), some 0,
          none,
          some (calculateKitchenLoad (getOrdersInWindow activeOrders
            (pickupTime - (getMaxPrepTime items + 2) * 60000) pickupTime)),
          some (effectiveCapacity (resolveCapacity (AIScheduler.constructor k) customCapacity)
            (calculateRushIntensity z pickupTime)),
          some (calculateRushIntensity z pickupTime)⟩
      else
        ⟨false,
          "Slot busy (" ++ toString (calculateKitchenLoad (getOrdersInWindow activeOrders
            (pickupTime - (getMaxPrepTime items + 2) * 60000) pickupTime)) ++ "/"
            ++ toString (effectiveCapacity
              (resolveCapacity (AIScheduler.constructor k) customCapacity)
              (calculateRushIntensity z pickupTime))
            ++ " capacity). Try suggested time.",
          none, none,
          some (findNextAvailableSlot pickupTime (totalItemCount items) activeOrders
            (effectiveCapacity (resolveCapacity (AIScheduler.constructor k) customCapacity)
              (calculateRushIntensity z pickupTime))),
          some (calculateKitchenLoad (getOrdersInWindow activeOrders
            (pickupTime - (getMaxPrepTime items + 2) * 60000) pickupTime)),
          some (effectiveCapacity (resolveCapacity (AIScheduler.constructor k) customCapacity)
            (calculateRushIntensity z pickupTime)),
          some (calculateRushIntensity z pickupTime)⟩ := by
  unfold checkSlotFeasibility
  simp only [calculatePrepStartTime, show (AIScheduler.constructor k).bufferTime = 2 from rfl]
  split_ifs <;> rfl

/-- The outcomes when the host passes the kitchen capacity to the constructor and no custom
capacity. -/
theorem checkSlotFeasibility_cases (k : ℤ) (z : Zone) (now pickupTime : Instant)
    (items : List Item) (activeOrders : List Order) :
    checkSlotFeasibility (AIScheduler.constructor (some k)) z now pickupTime items activeOrders
        none =
      if pickupTime - (getMaxPrepTime items + 2) * 60000 < now then
        ⟨false, "Pickup time too soon. Kitchen needs more preparation time.", none, none,
          some ⟨now + (getMaxPrepTime items + 2) * 60000,
            now + (getMaxPrepTime items + 2) * 60000 + 10 * 60000⟩, none, none, none⟩
      else if calculateKitchenLoad (getOrdersInWindow activeOrders
            (pickupTime - (getMaxPrepTime items + 2) * 60000) pickupTime) + totalItemCount items
          ≤ max (effectiveCapacity k (calculateRushIntensity z pickupTime)) 2 then
        ⟨true, "Slot available", some (pickupTime - (getMaxPrepTime items + 2) * 60000), some 0,
          none,
          some (calculateKitchenLoad (getOrdersInWindow activeOrders
            (pickupTime - (getMaxPrepTime items + 2) * 60000) pickupTime)),
          some (effectiveCapacity k (calculateRushIntensity z pickupTime)),
          some (calculateRushIntensity z pickupTime)⟩
      else
        ⟨false,
          "Slot busy (" ++ toString (calculateKitchenLoad (getOrdersInWindow activeOrders
            (pickupTime - (getMaxPrepTime items + 2) * 60000) pickupTime)) ++ "/"
            ++ toString (effectiveCapacity k (calculateRushIntensity z pickupTime))
            ++ " capacity). Try suggested time.",
          none, none,
          some (findNextAvailableSlot pickupTime (totalItemCount items) activeOrders
            (effectiveCapacity k (calculateRushIntensity z pickupTime))),
          some (calculateKitchenLoad (getOrdersInWindow activeOrders
            (pickupTime - (getMaxPrepTime items + 2) * 60000) pickupTime)),
          some (effectiveCapacity k (calculateRushIntensity z pickupTime)),
          some (calculateRushIntensity z pickupTime)⟩ :=
  checkSlotFeasibility_cases_of (some k) none z now pickupTime items activeOrders

/-- Feasibility is monotone in the capacity the check resolves to. -/
theorem feasible_mono_resolved (k1 k2 u1 u2 : Option ℤ) (z : Zone) (now pickupTime : Instant)
    (items : List Item) (activeOrders : List Order)
    (hc : resolveCapacity (AIScheduler.constructor k1) u1
      ≤ resolveCapacity (AIScheduler.constructor k2) u2)
    (h : (checkSlotFeasibility (AIScheduler.constructor k1) z now pickupTime items activeOrders
      u1).feasible = true) :
    (checkSlotFeasibility (AIScheduler.constructor k2) z now pickupTime items activeOrders
      u2).feasible = true := by
  rw [checkSlotFeasibility_cases_of] at h ⊢
  obtain ⟨r0, r1⟩ := rushIntensityAt_range (z.getHours pickupTime) (z.getMinutes pickupTime)
  have hmono := effectiveCapacity_mono (r := calculateRushIntensity z pickupTime) hc r0 r1
  by_cases h1 : pickupTime - (getMaxPrepTime items + 2) * 60000 < now
  · rw [if_pos h1] at h; simp at h
  · rw [if_neg h1] at h ⊢
    by_cases h2 : calculateKitchenLoad (getOrdersInWindow activeOrders
          (pickupTime - (getMaxPrepTime items + 2) * 60000) pickupTime) + totalItemCount items
        ≤ max (effectiveCapacity (resolveCapacity (AIScheduler.constructor k1) u1)
          (calculateRushIntensity z pickupTime)) 2
    · rw [if_pos (le_trans h2 (max_le_max hmono (le_refl 2)))]
    · rw [if_neg h2] at h; simp at h

end Feasibility

/-- C1: when the timing check passes (`pickupTime - (maxPrepTime + 2) min ≥ now`) and all
candidate quantities are at least 1, `checkSlotFeasibility` returns `feasible = true` if and
only if `currentLoad + totalItemCount ≤ max(effectiveCapacity, 2)`, where `totalItemCount` is
the sum of the candidate quantities, `currentLoad` is the total item quantity of the active
orders that overlap `[requiredStartTime, pickupTime)`, and `effectiveCapacity` is
`floor(kitchenCapacity * (1 - rushIntensity * 0.3))` evaluated in binary64 for the rush
intensity of the pickup time. -/
theorem checkSlotFeasibility_feasible_iff (k : ℤ) (z : Zone) (now pickupTime : Instant)
    (items : List Item) (activeOrders : List Order)
    (hq : ∀ i ∈ items, 1 ≤ i.quantity)
    (ht : now ≤ pickupTime - (AIScheduler.getMaxPrepTime items + 2) * 60000) :
    (AIScheduler.checkSlotFeasibility (AIScheduler.constructor (some k)) z now pickupTime items
        activeOrders none).feasible = true
      ↔ ((activeOrders.filter fun o => decide (o.occupies
              (pickupTime - (AIScheduler.getMaxPrepTime items + 2) * 60000) pickupTime)).map
            fun o => (o.items.map Item.quantity).sum).sum
          + (items.map Item.quantity).sum
        ≤ max ⌊fl ((k : ℚ)
            * fl (1 - fl (AIScheduler.calculateRushIntensity z pickupTime * dbl 0.3)))⌋ 2 := by
  rw [checkSlotFeasibility_cases, if_neg (not_lt.2 ht), calculateKitchenLoad_eq_sum,
    getOrdersInWindow_eq_filter, totalItemCount_of_pos items hq]
  unfold AIScheduler.effectiveCapacity
  split_ifs with h
  · simpa using h
  · simpa using h

/-- One item on an idle kitchen of capacity 5: the load test `0 + 1 ≤ max(eff, 2)` decides. -/
theorem checkSlotFeasibility_feasible_iff_witness :
    (AIScheduler.checkSlotFeasibility (AIScheduler.constructor (some 5)) utc 0 1200000
        [⟨1, some 10⟩] [] none).feasible = true
      ↔ (([].filter fun o : Order => decide (o.occupies
              (1200000 - (AIScheduler.getMaxPrepTime [⟨1, some 10⟩] + 2) * 60000) 1200000)).map
            fun o => (o.items.map Item.quantity).sum).sum
          + (([⟨1, some 10⟩] : List Item).map Item.quantity).sum
        ≤ max ⌊fl (((5 : ℤ) : ℚ)
            * fl (1 - fl (AIScheduler.calculateRushIntensity utc 1200000 * dbl 0.3)))⌋ 2 :=
  checkSlotFeasibility_feasible_iff 5 utc 0 1200000 [⟨1, some 10⟩] [] (by decide) (by decide)

/-- C2: when `pickupTime - (maxPrepTime + 2) min < now`, `checkSlotFeasibility` returns
`feasible = false` with the suggested slot `[now + (maxPrepTime + 2) min, + 10 min)`, whatever
the active orders and the capacities are, and the result has no `currentLoad`,
`effectiveCapacity` or `rushIntensity` (nor `scheduledPrepTime`, `estimatedWait`); one item
with prep time 10 and `pickupTime = now + 5 min` gives the suggested start `now + 12 min`. -/
theorem checkSlotFeasibility_too_soon (k : Option ℤ) (z : Zone) (now pickupTime : Instant)
    (items : List Item) (activeOrders : List Order) (customCapacity : Option ℤ) (q : ℤ) :
    (pickupTime - (AIScheduler.getMaxPrepTime items + 2) * 60000 < now →
        AIScheduler.checkSlotFeasibility (AIScheduler.constructor k) z now pickupTime items
            activeOrders customCapacity
          = ⟨false, "Pickup time too soon. Kitchen needs more preparation time.", none, none,
              some ⟨now + (AIScheduler.getMaxPrepTime items + 2) * 60000,
                now + (AIScheduler.getMaxPrepTime items + 2) * 60000 + 10 * 60000⟩,
              none, none, none⟩)
      ∧ (AIScheduler.checkSlotFeasibility (AIScheduler.constructor k) z now (now + 5 * 60000)
            [⟨q, some 10⟩] activeOrders customCapacity).feasible = false
      ∧ (AIScheduler.checkSlotFeasibility (AIScheduler.constructor k) z now (now + 5 * 60000)
            [⟨q, some 10⟩] activeOrders customCapacity).suggestedSlot
          = some ⟨now + 12 * 60000, now + 12 * 60000 + 10 * 60000⟩ := by
  have main : ∀ (pickupTime : Instant) (items : List Item),
      pickupTime - (AIScheduler.getMaxPrepTime items + 2) * 60000 < now →
        AIScheduler.checkSlotFeasibility (AIScheduler.constructor k) z now pickupTime items
            activeOrders customCapacity
          = ⟨false, "Pickup time too soon. Kitchen needs more preparation time.", none, none,
              some ⟨now + (AIScheduler.getMaxPrepTime items + 2) * 60000,
                now + (AIScheduler.getMaxPrepTime items + 2) * 60000 + 10 * 60000⟩,
              none, none, none⟩ := by
    intro pickupTime items h
    unfold AIScheduler.checkSlotFeasibility
    simp only [AIScheduler.constructor, AIScheduler.calculatePrepStartTime]
    rw [if_pos h]
  have hmax : AIScheduler.getMaxPrepTime [⟨q, some 10⟩] = 10 := by
    simp [AIScheduler.getMaxPrepTime, AIScheduler.prepTimeOr10]
  have hex := main (now + 5 * 60000) [⟨q, some 10⟩] (by rw [hmax]; linarith)
  refine ⟨main pickupTime items, ?_, ?_⟩
  · rw [hex]
  · rw [hex, hmax]; norm_num

/-- A pickup five minutes from now for a ten-minute dish is rejected without a capacity check. -/
theorem checkSlotFeasibility_too_soon_witness :
    AIScheduler.checkSlotFeasibility (AIScheduler.constructor (some 5)) utc 0 300000
        [⟨1, some 10⟩] [] none
      = ⟨false, "Pickup time too soon. Kitchen needs more preparation time.", none, none,
          some ⟨0 + (AIScheduler.getMaxPrepTime [⟨1, some 10⟩] + 2) * 60000,
            0 + (AIScheduler.getMaxPrepTime [⟨1, some 10⟩] + 2) * 60000 + 10 * 60000⟩,
          none, none, none⟩ :=
  (checkSlotFeasibility_too_soon (some 5) utc 0 300000 [⟨1, some 10⟩] [] none 1).1 (by decide)

/-- C3: whenever `checkSlotFeasibility` returns `feasible = true`, the result has
`scheduledPrepTime = pickupTime - (maxPrepTime + 2) min` and `estimatedWait = 0`, together with
the `currentLoad`, `effectiveCapacity` and `rushIntensity` of the capacity check; with capacity
5, no active orders, one item of quantity 1 and prep time 10 and `pickupTime = now + 20 min`
the result is feasible with `scheduledPrepTime = pickupTime - 12 min` at every time of day. -/
theorem checkSlotFeasibility_feasible_fields (k : ℤ) (z : Zone) (now pickupTime : Instant)
    (items : List Item) (activeOrders : List Order) :
    ((AIScheduler.checkSlotFeasibility (AIScheduler.constructor (some k)) z now pickupTime items
          activeOrders none).feasible = true →
        (AIScheduler.checkSlotFeasibility (AIScheduler.constructor (some k)) z now pickupTime
            items activeOrders none).scheduledPrepTime
          = some (pickupTime - (AIScheduler.getMaxPrepTime items + 2) * 60000)
        ∧ (AIScheduler.checkSlotFeasibility (AIScheduler.constructor (some k)) z now pickupTime
            items activeOrders none).estimatedWait = some 0
        ∧ (AIScheduler.checkSlotFeasibility (AIScheduler.constructor (some k)) z now pickupTime
            items activeOrders none).currentLoad
          = some ((activeOrders.filter fun o => decide (o.occupies
              (pickupTime - (AIScheduler.getMaxPrepTime items + 2) * 60000) pickupTime)).map
            fun o => (o.items.map Item.quantity).sum).sum
        ∧ (AIScheduler.checkSlotFeasibility (AIScheduler.constructor (some k)) z now pickupTime
            items activeOrders none).effectiveCapacity
          = some ⌊fl ((k : ℚ)
              * fl (1 - fl (AIScheduler.calculateRushIntensity z pickupTime * dbl 0.3)))⌋
        ∧ (AIScheduler.checkSlotFeasibility (AIScheduler.constructor (some k)) z now pickupTime
            items activeOrders none).rushIntensity
          = some (AIScheduler.calculateRushIntensity z pickupTime))
      ∧ (AIScheduler.checkSlotFeasibility (AIScheduler.constructor (some 5)) z now
            (now + 20 * 60000) [⟨1, some 10⟩] [] none).feasible = true
      ∧ (AIScheduler.checkSlotFeasibility (AIScheduler.constructor (some 5)) z now
            (now + 20 * 60000) [⟨1, some 10⟩] [] none).scheduledPrepTime
          = some (now + 20 * 60000 - 12 * 60000)
      ∧ (AIScheduler.checkSlotFeasibility (AIScheduler.constructor (some 5)) z now
            (now + 20 * 60000) [⟨1, some 10⟩] [] none).estimatedWait = some 0 := by
  have hmax : AIScheduler.getMaxPrepTime [⟨1, some 10⟩] = 10 := by decide
  have hex : AIScheduler.checkSlotFeasibility (AIScheduler.constructor (some 5)) z now
      (now + 20 * 60000) [⟨1, some 10⟩] [] none
      = ⟨true, "Slot available", some (now + 20 * 60000 - 12 * 60000), some 0, none, some 0,
        some (AIScheduler.effectiveCapacity 5 (AIScheduler.calculateRushIntensity z
          (now + 20 * 60000))),
        some (AIScheduler.calculateRushIntensity z (now + 20 * 60000))⟩ := by
    rw [checkSlotFeasibility_cases, hmax, if_neg (by linarith)]
    have hload : AIScheduler.calculateKitchenLoad (AIScheduler.getOrdersInWindow []
        (now + 20 * 60000 - (10 + 2) * 60000) (now + 20 * 60000)) = 0 := rfl
    have hcount : AIScheduler.totalItemCount [⟨1, some 10⟩] = 1 := by decide
    rw [hload, hcount, if_pos (le_trans (by norm_num) (le_max_right _ _))]
    norm_num
  refine ⟨?_, by rw [hex], by rw [hex], by rw [hex]⟩
  rw [checkSlotFeasibility_cases]
  split_ifs with h1 h2
  · intro h; simp at h
  · intro _
    refine ⟨rfl, rfl, ?_, rfl, rfl⟩
    simp only [calculateKitchenLoad_eq_sum, getOrdersInWindow_eq_filter]
  · intro h; simp at h

/-- The admitted order of scenario A, evaluated at the epoch in the UTC zone. -/
theorem checkSlotFeasibility_feasible_fields_witness :
    (AIScheduler.checkSlotFeasibility (AIScheduler.constructor (some 5)) utc 0 1200000
        [⟨1, some 10⟩] [] none).scheduledPrepTime
      = some (1200000 - (AIScheduler.getMaxPrepTime [⟨1, some 10⟩] + 2) * 60000) :=
  ((checkSlotFeasibility_feasible_fields 5 utc 0 1200000 [⟨1, some 10⟩] []).1
    (checkSlotFeasibility_feasible_fields 5 utc 0 0 [⟨1, some 10⟩] []).2.1).1

section Examples

open AIScheduler

theorem rushIntensityAt_noon : rushIntensityAt 12 0 = 1 := by
  rw [rushIntensityAt_exact 12 0 (by norm_num) (by norm_num)]; norm_num

theorem calculateRushIntensity_of_noon (z : Zone) (t : Instant) (hH : z.getHours t = 12)
    (hM : z.getMinutes t = 0) : calculateRushIntensity z t = 1 := by
  unfold calculateRushIntensity
  rw [hH, hM, rushIntensityAt_noon]

end Examples

/-- C4: admission is monotone in the kitchen capacity: for fixed `pickupTime`, `items`,
`activeOrders` and `now` and capacities `c1 ≤ c2`, if `checkSlotFeasibility` is feasible with
capacity `c1` then it is feasible with capacity `c2`; this holds for the capacity given to the
constructor and for a non-zero capacity given as `customCapacity`. -/
theorem checkSlotFeasibility_mono_capacity (c1 c2 : ℤ) (z : Zone) (now pickupTime : Instant)
    (items : List Item) (activeOrders : List Order) (hc : c1 ≤ c2) :
    ((AIScheduler.checkSlotFeasibility (AIScheduler.constructor (some c1)) z now pickupTime
          items activeOrders none).feasible = true →
        (AIScheduler.checkSlotFeasibility (AIScheduler.constructor (some c2)) z now pickupTime
          items activeOrders none).feasible = true)
      ∧ (∀ k : Option ℤ, c1 ≠ 0 → c2 ≠ 0 →
          (AIScheduler.checkSlotFeasibility (AIScheduler.constructor k) z now pickupTime
            items activeOrders (some c1)).feasible = true →
          (AIScheduler.checkSlotFeasibility (AIScheduler.constructor k) z now pickupTime
            items activeOrders (some c2)).feasible = true) := by
  constructor
  · exact feasible_mono_resolved (some c1) (some c2) none none z now pickupTime items
      activeOrders hc
  · intro k h1 h2
    apply feasible_mono_resolved k k (some c1) (some c2) z now pickupTime items activeOrders
    simp only [AIScheduler.resolveCapacity, if_neg h1, if_neg h2]
    exact hc

/-- An order admitted at capacity 1 is admitted at capacity 20, given either way. -/
theorem checkSlotFeasibility_mono_capacity_witness :
    (AIScheduler.checkSlotFeasibility (AIScheduler.constructor (some 20)) utc 0 1200000
        [⟨1, some 10⟩] [] none).feasible = true
      ∧ (AIScheduler.checkSlotFeasibility (AIScheduler.constructor none) utc 0 1200000
        [⟨1, some 10⟩] [] (some 20)).feasible = true := by
  have hload : AIScheduler.calculateKitchenLoad (AIScheduler.getOrdersInWindow []
      (1200000 - (AIScheduler.getMaxPrepTime [⟨1, some 10⟩] + 2) * 60000) 1200000) = 0 := rfl
  have hcount : AIScheduler.totalItemCount [⟨1, some 10⟩] = 1 := by decide
  have h := checkSlotFeasibility_mono_capacity 1 20 utc 0 1200000 [⟨1, some 10⟩] []
    (by decide)
  refine ⟨h.1 ?_, h.2 none (by decide) (by decide) ?_⟩
  · rw [checkSlotFeasibility_cases_of, if_neg (by decide), hload, hcount,
      if_pos (le_trans (by norm_num) (le_max_right _ _))]
  · rw [checkSlotFeasibility_cases_of, if_neg (by decide), hload, hcount,
      if_pos (le_trans (by norm_num) (le_max_right _ _))]

/-- C5: when the timing check passes and `currentLoad + totalItemCount > max(effectiveCapacity,
2)`, `checkSlotFeasibility` returns `feasible = false` with `suggestedSlot =
findNextAvailableSlot(pickupTime, totalItemCount, activeOrders, effectiveCapacity)`, the
capacity being the effective capacity for the rush intensity of the original pickup time (not
the threshold with its floor of 2), and with the `currentLoad`, `effectiveCapacity` and
`rushIntensity` of the capacity check; with capacity 5, four active orders of load 1 inside the
cook window, candidate count 2 and pickup at noon, `effectiveCapacity = 3`, `currentLoad = 4`
and `feasible = false`. -/
theorem checkSlotFeasibility_reject (k : ℤ) (z : Zone) (now pickupTime : Instant)
    (items : List Item) (activeOrders : List Order)
    (ht : now ≤ pickupTime - (AIScheduler.getMaxPrepTime items + 2) * 60000) :
    (max ⌊fl ((k : ℚ)
          * fl (1 - fl (AIScheduler.calculateRushIntensity z pickupTime * dbl 0.3)))⌋ 2
        < ((activeOrders.filter fun o => decide (o.occupies
              (pickupTime - (AIScheduler.getMaxPrepTime items + 2) * 60000) pickupTime)).map
            fun o => (o.items.map Item.quantity).sum).sum
          + AIScheduler.totalItemCount items →
      AIScheduler.checkSlotFeasibility (AIScheduler.constructor (some k)) z now pickupTime items
          activeOrders none
        = ⟨false,
            "Slot busy (" ++ toString (((activeOrders.filter fun o => decide (o.occupies
                (pickupTime - (AIScheduler.getMaxPrepTime items + 2) * 60000) pickupTime)).map
              fun o => (o.items.map Item.quantity).sum).sum) ++ "/"
              ++ toString ⌊fl ((k : ℚ)
                * fl (1 - fl (AIScheduler.calculateRushIntensity z pickupTime * dbl 0.3)))⌋
              ++ " capacity). Try suggested time.",
            none, none,
            some (AIScheduler.findNextAvailableSlot pickupTime (AIScheduler.totalItemCount items)
              activeOrders ⌊fl ((k : ℚ)
                * fl (1 - fl (AIScheduler.calculateRushIntensity z pickupTime * dbl 0.3)))⌋),
            some (((activeOrders.filter fun o => decide (o.occupies
                (pickupTime - (AIScheduler.getMaxPrepTime items + 2) * 60000) pickupTime)).map
              fun o => (o.items.map Item.quantity).sum).sum),
            some ⌊fl ((k : ℚ)
              * fl (1 - fl (AIScheduler.calculateRushIntensity z pickupTime * dbl 0.3)))⌋,
            some (AIScheduler.calculateRushIntensity z pickupTime)⟩)
      ∧ (k = 5 → z.getHours pickupTime = 12 → z.getMinutes pickupTime = 0 →
          AIScheduler.totalItemCount items = 2 → activeOrders.length = 4 →
          (∀ o ∈ activeOrders, o.occupies
              (pickupTime - (AIScheduler.getMaxPrepTime items + 2) * 60000) pickupTime
            ∧ (o.items.map Item.quantity).sum = 1) →
          (AIScheduler.checkSlotFeasibility (AIScheduler.constructor (some k)) z now pickupTime
              items activeOrders none).feasible = false
            ∧ (AIScheduler.checkSlotFeasibility (AIScheduler.constructor (some k)) z now
              pickupTime items activeOrders none).effectiveCapacity = some 3
            ∧ (AIScheduler.checkSlotFeasibility (AIScheduler.constructor (some k)) z now
              pickupTime items activeOrders none).currentLoad = some 4) := by
  have hcases := checkSlotFeasibility_cases k z now pickupTime items activeOrders
  rw [if_neg (not_lt.2 ht), calculateKitchenLoad_eq_sum, getOrdersInWindow_eq_filter] at hcases
  unfold AIScheduler.effectiveCapacity at hcases
  constructor
  · intro hbusy
    rw [hcases, if_neg (not_le.2 hbusy)]
  · intro hk hH hM hcount hlen hall
    have hfilter : (activeOrders.filter fun o => decide (o.occupies
        (pickupTime - (AIScheduler.getMaxPrepTime items + 2) * 60000) pickupTime))
        = activeOrders :=
      List.filter_eq_self.2 (fun o ho => by simpa using (hall o ho).1)
    have hload : (activeOrders.map fun o => (o.items.map Item.quantity).sum).sum = 4 := by
      have : (activeOrders.map fun o => (o.items.map Item.quantity).sum)
          = List.replicate activeOrders.length 1 := by
        rw [List.eq_replicate_iff]
        refine ⟨by simp, ?_⟩
        intro b hb
        obtain ⟨o, ho, rfl⟩ := List.mem_map.1 hb
        exact (hall o ho).2
      rw [this, hlen]; rfl
    have heff : ⌊fl ((k : ℚ)
        * fl (1 - fl (AIScheduler.calculateRushIntensity z pickupTime * dbl 0.3)))⌋ = 3 := by
      rw [calculateRushIntensity_of_noon z pickupTime hH hM, hk]
      exact effectiveCapacity_five_peak
    rw [hcases, hfilter, hload, heff, hcount, if_neg (by decide)]
    exact ⟨rfl, rfl, rfl⟩

/-- Scenario C at noon UTC of the first day of the epoch: four one-item orders in the cook
window, two items requested, capacity 5; the slot finder is called with the effective
capacity 3. -/
theorem checkSlotFeasibility_reject_witness :
    (AIScheduler.checkSlotFeasibility (AIScheduler.constructor (some 5)) utc 0 43200000
        [⟨2, some 10⟩] busyNoonOrders none).suggestedSlot
        = some (AIScheduler.findNextAvailableSlot 43200000 2 busyNoonOrders 3)
      ∧ (AIScheduler.checkSlotFeasibility (AIScheduler.constructor (some 5)) utc 0 43200000
        [⟨2, some 10⟩] busyNoonOrders none).feasible = false
      ∧ (AIScheduler.checkSlotFeasibility (AIScheduler.constructor (some 5)) utc 0 43200000
        [⟨2, some 10⟩] busyNoonOrders none).effectiveCapacity = some 3
      ∧ (AIScheduler.checkSlotFeasibility (AIScheduler.constructor (some 5)) utc 0 43200000
        [⟨2, some 10⟩] busyNoonOrders none).currentLoad = some 4 := by
  have hnoon := calculateRushIntensity_of_noon utc 43200000 (by decide) (by decide)
  have heff := effectiveCapacity_five_peak
  unfold AIScheduler.effectiveCapacity at heff
  have h1 := (checkSlotFeasibility_reject 5 utc 0 43200000 [⟨2, some 10⟩] busyNoonOrders
    (by decide)).1 (by rw [hnoon, heff]; decide)
  have h2 := (checkSlotFeasibility_reject 5 utc 0 43200000 [⟨2, some 10⟩] busyNoonOrders
    (by decide)).2 rfl (by decide) (by decide) (by decide) (by decide) (by decide)
  refine ⟨?_, h2⟩
  rw [h1, hnoon, heff]
  rfl

/-! ## Binary64 against exact arithmetic -/

section Exact

open AIScheduler

theorem roundNE_tie_even (k : ℤ) (hk : k % 2 = 0) : roundNE ((k : ℚ) + 1 / 2) = k := by
  have hf : ⌊(k : ℚ) + 1 / 2⌋ = k := by
    rw [Int.floor_eq_iff]; constructor <;> linarith
  unfold roundNE
  simp only [hf]
  rw [if_neg (by norm_num), if_neg (by norm_num), if_pos hk]

/-- The double written `0.3`. -/
theorem dbl_0_3_eq : dbl 0.3 = 5404319552844595 / 2 ^ 54 := by
  have := fl_eq (x := 0.3) (-2) 5404319552844595 (by norm_num [abs_of_pos])
    (by norm_num [abs_of_pos]) (roundNE_eq_of_lt _ _ (by norm_num) (by norm_num))
  rw [dbl, this]; norm_num

/-- The binary64 factor `1 - 1.0 * 0.3` of the lunch rush: the subtraction is a tie and rounds
to the even significand, below the exact `7 / 10`. -/
theorem factor_peak_eq : fl (1 - fl (1 * dbl 0.3)) = 6305039478318694 / 2 ^ 53 := by
  have h1 : fl (1 * dbl 0.3) = 5404319552844595 / 2 ^ 54 := by
    rw [one_mul, dbl_0_3_eq]
    exact fl_dyadic 5404319552844595 54 (by norm_num)
  rw [h1]
  have := fl_eq (x := 1 - 5404319552844595 / 2 ^ 54) (-1) 6305039478318694
    (by norm_num [abs_of_pos]) (by norm_num [abs_of_pos])
    (by
      have e : ((1 : ℚ) - 5404319552844595 / 2 ^ 54) / 2 ^ ((-1 : ℤ) - 52)
          = ((6305039478318694 : ℤ) : ℚ) + 1 / 2 := by norm_num
      rw [e]
      exact roundNE_tie_even _ (by norm_num))
  rw [this]; norm_num

/-- At kitchen capacity 90 and intensity 1.0 the code computes the effective capacity 62,
one less than the exact `floor(90 * 0.7) = 63`. -/
theorem effectiveCapacity_ninety_peak :
    effectiveCapacity 90 1 = 62 ∧ ⌊((90 : ℤ) : ℚ) * (1 - 1 * (3 / 10))⌋ = 63 := by
  constructor
  · unfold effectiveCapacity
    rw [factor_peak_eq]
    have := fl_eq (x := ((90 : ℤ) : ℚ) * (6305039478318694 / 2 ^ 53)) 5 8866461766385663
      (by norm_num [abs_of_pos]) (by norm_num [abs_of_pos])
      (roundNE_eq_of_lt _ _ (by norm_num) (by norm_num))
    rw [this, Int.floor_eq_iff]
    constructor <;> norm_num
  · rw [Int.floor_eq_iff]
    constructor <;> norm_num

end Exact

/-! ## Rounding error and exact ceilings -/

section RoundingError

theorem roundNE_abs_sub_le (x : ℚ) : |(roundNE x : ℚ) - x| ≤ 1 / 2 := by
  have h1 : (⌊x⌋ : ℚ) ≤ x := Int.floor_le x
  have h2 : x < ⌊x⌋ + 1 := Int.lt_floor_add_one x
  unfold roundNE
  simp only
  rw [abs_le]
  split_ifs <;> push_cast <;> constructor <;> linarith

/-- The relative error of one binary64 rounding is at most `2 ^ (-53)`. -/
theorem fl_abs_sub_le (x : ℚ) : |fl x - x| ≤ |x| / 2 ^ 53 := by
  rcases eq_or_ne x 0 with h | h
  · rw [h, fl_zero]; simp
  · have hx : 0 < |x| := abs_pos.2 h
    have hu : (0 : ℚ) < 2 ^ (Int.log 2 |x| - 52) := by positivity
    have hlog := (log_bounds hx).1
    have e1 : fl x - x
        = ((roundNE (x / 2 ^ (Int.log 2 |x| - 52)) : ℚ) - x / 2 ^ (Int.log 2 |x| - 52))
          * 2 ^ (Int.log 2 |x| - 52) := by
      unfold fl
      field_simp
    have e2 : (2 : ℚ) ^ (Int.log 2 |x| - 52) = 2 ^ Int.log 2 |x| / 2 ^ 52 := by
      rw [zpow_sub₀ (by norm_num)]; norm_num
    rw [e1, abs_mul, abs_of_pos hu]
    calc |(roundNE (x / 2 ^ (Int.log 2 |x| - 52)) : ℚ) - x / 2 ^ (Int.log 2 |x| - 52)|
          * 2 ^ (Int.log 2 |x| - 52)
        ≤ 1 / 2 * 2 ^ (Int.log 2 |x| - 52) :=
          mul_le_mul_of_nonneg_right (roundNE_abs_sub_le _) hu.le
      _ = 2 ^ Int.log 2 |x| / 2 ^ 53 := by rw [e2]; ring
      _ ≤ |x| / 2 ^ 53 := div_le_div_of_nonneg_right hlog (by positivity)

/-- The ceiling of the binary64 quotient of a safe integer by a positive integer is the
ceiling of the exact quotient. -/
theorem ceil_fl_div (n d : ℤ) (hd : 0 < d) (hn : |n| < 2 ^ 53) :
    ⌈fl ((n : ℚ) / (d : ℚ))⌉ = ⌈(n : ℚ) / (d : ℚ)⌉ := by
  have hdq : (0 : ℚ) < d := by exact_mod_cast hd
  have hd1 : (1 : ℚ) ≤ d := by exact_mod_cast hd
  have hnq : |(n : ℚ)| < 2 ^ 53 := by
    have : ((|n| : ℤ) : ℚ) < ((2 ^ 53 : ℤ) : ℚ) := by exact_mod_cast hn
    simpa using this
  have habs : |(n : ℚ) / d| ≤ |(n : ℚ)| := by
    rw [abs_div, abs_of_pos hdq]
    exact div_le_self (abs_nonneg _) hd1
  have hq1 : (n : ℚ) / d ≤ ⌈(n : ℚ) / (d : ℚ)⌉ := Int.le_ceil _
  have hq2 : (⌈(n : ℚ) / (d : ℚ)⌉ : ℚ) < (n : ℚ) / d + 1 := Int.ceil_lt_add_one _
  -- the exact ceiling is a safe integer
  have hqabs : |⌈(n : ℚ) / (d : ℚ)⌉| < 2 ^ 53 := by
    have hup : ⌈(n : ℚ) / (d : ℚ)⌉ ≤ |n| := by
      rw [Int.ceil_le]
      calc (n : ℚ) / d ≤ |(n : ℚ) / d| := le_abs_self _
        _ ≤ |(n : ℚ)| := habs
        _ = ((|n| : ℤ) : ℚ) := by push_cast; rfl
    have hlo : -|n| ≤ ⌈(n : ℚ) / (d : ℚ)⌉ := by
      have : ((-|n| : ℤ) : ℚ) ≤ ⌈(n : ℚ) / (d : ℚ)⌉ := by
        calc ((-|n| : ℤ) : ℚ) = -|(n : ℚ)| := by push_cast; rfl
          _ ≤ -|(n : ℚ) / d| := by linarith
          _ ≤ (n : ℚ) / d := neg_abs_le _
          _ ≤ _ := hq1
      exact_mod_cast this
    rw [abs_lt]
    constructor <;> omega
  rw [Int.ceil_eq_iff]
  constructor
  · -- one rounding cannot cross the gap of `1 / d` above `q - 1`
    have hint : (⌈(n : ℚ) / (d : ℚ)⌉ - 1) * d + 1 ≤ n := by
      have : ((⌈(n : ℚ) / (d : ℚ)⌉ - 1) * d : ℚ) < n := by
        have := (lt_div_iff₀ hdq).1 (by linarith : (⌈(n : ℚ) / (d : ℚ)⌉ : ℚ) - 1 < (n : ℚ) / d)
        exact this
      have h2 : (⌈(n : ℚ) / (d : ℚ)⌉ - 1) * d < n := by exact_mod_cast this
      omega
    have hgap : (⌈(n : ℚ) / (d : ℚ)⌉ : ℚ) - 1 + 1 / d ≤ (n : ℚ) / d := by
      have : (((⌈(n : ℚ) / (d : ℚ)⌉ - 1) * d + 1 : ℤ) : ℚ) ≤ n := by exact_mod_cast hint
      push_cast at this
      rw [le_div_iff₀ hdq]
      have e : ((⌈(n : ℚ) / (d : ℚ)⌉ : ℚ) - 1 + 1 / d) * d
          = ((⌈(n : ℚ) / (d : ℚ)⌉ : ℚ) - 1) * d + 1 := by
        field_simp
      rw [e]; exact this
    have herr := fl_abs_sub_le ((n : ℚ) / d)
    have herr2 : |(n : ℚ) / d| / 2 ^ 53 < 1 / d := by
      rw [abs_div, abs_of_pos hdq, div_div, div_lt_div_iff₀ (by positivity) hdq]
      calc |(n : ℚ)| * d < 2 ^ 53 * d := mul_lt_mul_of_pos_right hnq hdq
        _ = 1 * (d * 2 ^ 53) := by ring
    have := (abs_le.1 herr).1
    linarith
  · have hfix : fl (⌈(n : ℚ) / (d : ℚ)⌉ : ℚ) = ⌈(n : ℚ) / (d : ℚ)⌉ := fl_intCast _ hqabs
    calc fl ((n : ℚ) / d) ≤ fl (⌈(n : ℚ) / (d : ℚ)⌉ : ℚ) := fl_mono hq1
      _ = _ := hfix

/-- Rounding an integer up to a multiple of a positive step, through the exact quotient. -/
theorem ceil_mul_bounds (n d : ℤ) (hd : 0 < d) :
    n ≤ ⌈(n : ℚ) / (d : ℚ)⌉ * d ∧ ⌈(n : ℚ) / (d : ℚ)⌉ * d < n + d := by
  have hdq : (0 : ℚ) < d := by exact_mod_cast hd
  have hq1 : (n : ℚ) / d ≤ ⌈(n : ℚ) / (d : ℚ)⌉ := Int.le_ceil _
  have hq2 : (⌈(n : ℚ) / (d : ℚ)⌉ : ℚ) < (n : ℚ) / d + 1 := Int.ceil_lt_add_one _
  constructor
  · have : (n : ℚ) ≤ ⌈(n : ℚ) / (d : ℚ)⌉ * d := (div_le_iff₀ hdq).1 hq1
    exact_mod_cast this
  · have : (⌈(n : ℚ) / (d : ℚ)⌉ : ℚ) * d < n + d := by
      have := mul_lt_mul_of_pos_right hq2 hdq
      have e : ((n : ℚ) / d + 1) * d = n + d := by field_simp
      rw [e] at this; exact this
    exact_mod_cast this

end RoundingError

/-! ## The time slot generator -/

section TimeSlots

open AIScheduler

theorem generateTimeSlots_of_ne_zero (z : Zone) (now : Instant) (hours intervalMinutes : ℤ)
    (h0 : intervalMinutes ≠ 0) :
    generateTimeSlots z now hours intervalMinutes =
      some ((List.range ⌈fl (((hours * 60 : ℤ) : ℚ) / (intervalMinutes : ℚ))⌉.toNat).map
        fun (i : ℕ) =>
        ⟨z.setMinutes
              (⌈fl ((now : ℚ) / ((intervalMinutes * 60000 : ℤ) : ℚ))⌉ * (intervalMinutes * 60000))
              ((z.getMinutes (⌈fl ((now : ℚ) / ((intervalMinutes * 60000 : ℤ) : ℚ))⌉
                * (intervalMinutes * 60000)) : ℤ) + 15)
            + (i : ℤ) * intervalMinutes * 60000,
          z.setMinutes
              (⌈fl ((now : ℚ) / ((intervalMinutes * 60000 : ℤ) : ℚ))⌉ * (intervalMinutes * 60000))
              ((z.getMinutes (⌈fl ((now : ℚ) / ((intervalMinutes * 60000 : ℤ) : ℚ))⌉
                * (intervalMinutes * 60000)) : ℤ) + 15)
            + (i : ℤ) * intervalMinutes * 60000 + intervalMinutes * 60000,
          calculateRushIntensity z
            (z.setMinutes
              (⌈fl ((now : ℚ) / ((intervalMinutes * 60000 : ℤ) : ℚ))⌉ * (intervalMinutes * 60000))
              ((z.getMinutes (⌈fl ((now : ℚ) / ((intervalMinutes * 60000 : ℤ) : ℚ))⌉
                * (intervalMinutes * 60000)) : ℤ) + 15)
              + (i : ℤ) * intervalMinutes * 60000)⟩) := by
  unfold generateTimeSlots
  rw [if_neg h0]

/-- In the UTC zone the wall-clock step is the same number of elapsed minutes. -/
theorem utc_setMinutes (t : Instant) (m : ℤ) :
    utc.setMinutes t ((utc.getMinutes t : ℤ) + m) = t + m * 60000 := by
  show t - t / 60000 % 60 * 60000 + (((t / 60000 % 60).toNat : ℤ) + m) * 60000 = t + m * 60000
  rw [Int.toNat_of_nonneg (Int.emod_nonneg _ (by norm_num))]
  ring

/-- The number of loop iterations when the interval divides the horizon. -/
theorem slotCount_of_dvd (hours intervalMinutes : ℤ) (hi : intervalMinutes ≠ 0)
    (hdvd : intervalMinutes ∣ hours * 60) (hq : 0 ≤ hours * 60 / intervalMinutes)
    (hb : |hours * 60| < 2 ^ 53) :
    (⌈fl (((hours * 60 : ℤ) : ℚ) / (intervalMinutes : ℚ))⌉.toNat : ℤ)
      = hours * 60 / intervalMinutes := by
  obtain ⟨k, hk⟩ := hdvd
  have hiq : (intervalMinutes : ℚ) ≠ 0 := by exact_mod_cast hi
  rw [hk, Int.mul_ediv_cancel_left _ hi] at hq
  have hkb : |k| < 2 ^ 53 := by
    have h1 : 1 ≤ |intervalMinutes| := Int.one_le_abs hi
    have h2 : |k| ≤ |intervalMinutes| * |k| := le_mul_of_one_le_left (abs_nonneg k) h1
    rw [hk, abs_mul] at hb
    omega
  have e : ((hours * 60 : ℤ) : ℚ) / (intervalMinutes : ℚ) = (k : ℚ) := by
    rw [hk]; push_cast; field_simp
  rw [e, fl_intCast k hkb, Int.ceil_intCast, hk, Int.mul_ediv_cancel_left _ hi,
    Int.toNat_of_nonneg hq]

end TimeSlots

/-- C11: `generateTimeSlots` with `hours = 4` and `intervalMinutes = 10` returns exactly 24
slots for every `now`, and in general `hours * 60 / intervalMinutes` slots when that quotient is
a non-negative integer; every slot ends `intervalMinutes` after its start and each slot starts
where the previous one ends, so for a positive interval the starts are strictly increasing and
the slots do not overlap. -/
theorem generateTimeSlots_consecutive (z : Zone) (now : Instant) (hours intervalMinutes : ℤ) :
    (∃ slots, AIScheduler.generateTimeSlots z now 4 10 = some slots ∧ slots.length = 24)
      ∧ (intervalMinutes ≠ 0 → intervalMinutes ∣ hours * 60 →
          0 ≤ hours * 60 / intervalMinutes → |hours * 60| < 2 ^ 53 →
          ∃ slots, AIScheduler.generateTimeSlots z now hours intervalMinutes = some slots
            ∧ (slots.length : ℤ) = hours * 60 / intervalMinutes)
      ∧ (∀ slots, AIScheduler.generateTimeSlots z now hours intervalMinutes = some slots →
          (∀ s ∈ slots, s.end_ = s.start + intervalMinutes * 60000)
            ∧ List.Chain' (fun a b : TimeSlot => b.start = a.end_) slots
            ∧ (0 < intervalMinutes →
              List.Pairwise (fun a b : TimeSlot => a.start < b.start ∧ a.end_ ≤ b.start)
                slots)) := by
  have hgen : ∀ (hours intervalMinutes : ℤ), intervalMinutes ≠ 0 →
      intervalMinutes ∣ hours * 60 → 0 ≤ hours * 60 / intervalMinutes →
      |hours * 60| < 2 ^ 53 →
      ∃ slots, AIScheduler.generateTimeSlots z now hours intervalMinutes = some slots
        ∧ (slots.length : ℤ) = hours * 60 / intervalMinutes := by
    intro hours intervalMinutes hi hdvd hq hb
    refine ⟨_, generateTimeSlots_of_ne_zero z now hours intervalMinutes hi, ?_⟩
    rw [List.length_map, List.length_range]
    exact slotCount_of_dvd hours intervalMinutes hi hdvd hq hb
  refine ⟨?_, hgen hours intervalMinutes, ?_⟩
  · obtain ⟨slots, h1, h2⟩ := hgen 4 10 (by norm_num) (by norm_num) (by norm_num) (by norm_num)
    refine ⟨slots, h1, ?_⟩
    have : (slots.length : ℤ) = 24 := by rw [h2]; norm_num
    exact_mod_cast this
  · intro slots hs
    by_cases h0 : intervalMinutes = 0
    · have : slots = [] := by
        unfold AIScheduler.generateTimeSlots at hs
        rw [if_pos h0] at hs
        split_ifs at hs
        exact (Option.some.inj hs).symm
      subst this
      exact ⟨by simp, List.chain'_nil, fun _ => List.Pairwise.nil⟩
    · rw [generateTimeSlots_of_ne_zero z now hours intervalMinutes h0] at hs
      have hs2 := (Option.some.inj hs).symm
      subst hs2
      refine ⟨?_, ?_, ?_⟩
      · intro s hs
        obtain ⟨i, _, rfl⟩ := List.mem_map.1 hs
        rfl
      · rw [List.chain'_map]
        cases ⌈fl (((hours * 60 : ℤ) : ℚ) / (intervalMinutes : ℚ))⌉.toNat with
        | zero => exact List.chain'_nil
        | succ n =>
          rw [List.chain'_range_succ]
          intro m _
          show _ + ((m + 1 : ℕ) : ℤ) * intervalMinutes * 60000 = _
          push_cast
          ring
      · intro hi
        rw [List.pairwise_map]
        refine List.Pairwise.imp ?_ (List.pairwise_lt_range _)
        intro a b hab
        have hab1 : (a : ℤ) + 1 ≤ b := by exact_mod_cast hab
        have hstep : (a : ℤ) * intervalMinutes + intervalMinutes ≤ b * intervalMinutes := by
          nlinarith
        constructor
        · show _ + (a : ℤ) * intervalMinutes * 60000 < _ + (b : ℤ) * intervalMinutes * 60000
          nlinarith
        · show _ + (a : ℤ) * intervalMinutes * 60000 + intervalMinutes * 60000
            ≤ _ + (b : ℤ) * intervalMinutes * 60000
          nlinarith

/-- A two-hour horizon in steps of 30 minutes gives four consecutive slots. -/
theorem generateTimeSlots_consecutive_witness :
    ∃ slots, AIScheduler.generateTimeSlots utc 1000 2 30 = some slots
      ∧ (slots.length : ℤ) = 2 * 60 / 30
      ∧ List.Chain' (fun a b : TimeSlot => b.start = a.end_) slots
      ∧ List.Pairwise (fun a b : TimeSlot => a.start < b.start ∧ a.end_ ≤ b.start) slots := by
  obtain ⟨slots, h1, h2⟩ := (generateTimeSlots_consecutive utc 1000 2 30).2.1 (by decide)
    (by decide) (by decide) (by decide)
  obtain ⟨_, h3, h4⟩ := (generateTimeSlots_consecutive utc 1000 2 30).2.2 slots h1
  exact ⟨slots, h1, h2, h3, h4 (by decide)⟩


/-- Whenever the wall-clock step from the rounded instant is 15 minutes of elapsed time, as it
is when the UTC offset of the zone is the same at both ends of the step: for a `now` in the
range of `Date` and `intervalMinutes > 0`, the first slot of `generateTimeSlots` starts
15 minutes after `now` rounded up to the next multiple of the interval (`now` itself when it is
a multiple), hence `now + 15 min ≤ start < now + 15 min + interval`.  In every zone a first slot
exists when `hours > 0`, every slot has the rush intensity `calculateRushIntensity(slot.start)`,
and two calls with the same `now`, `hours` and `intervalMinutes` return identical sequences. -/
theorem generateTimeSlots_plain_step (z : Zone) (now : Instant) (hours intervalMinutes : ℤ)
    (hnow : |now| ≤ 8640000000000000) (hi : 0 < intervalMinutes) :
    (z.setMinutes
          (⌈(now : ℚ) / ((intervalMinutes * 60000 : ℤ) : ℚ)⌉ * (intervalMinutes * 60000))
          ((z.getMinutes (⌈(now : ℚ) / ((intervalMinutes * 60000 : ℤ) : ℚ)⌉
            * (intervalMinutes * 60000)) : ℤ) + 15)
        = ⌈(now : ℚ) / ((intervalMinutes * 60000 : ℤ) : ℚ)⌉ * (intervalMinutes * 60000)
          + 15 * 60000 →
      ∀ (s : TimeSlot) (rest : List TimeSlot),
        AIScheduler.generateTimeSlots z now hours intervalMinutes = some (s :: rest) →
          s.start = ⌈(now : ℚ) / ((intervalMinutes * 60000 : ℤ) : ℚ)⌉ * (intervalMinutes * 60000)
              + 15 * 60000
            ∧ intervalMinutes * 60000 ∣ s.start - 15 * 60000
            ∧ now + 15 * 60000 ≤ s.start
            ∧ s.start < now + 15 * 60000 + intervalMinutes * 60000
            ∧ (intervalMinutes * 60000 ∣ now → s.start = now + 15 * 60000))
      ∧ (∀ (s : TimeSlot) (rest : List TimeSlot),
          AIScheduler.generateTimeSlots z now hours intervalMinutes = some (s :: rest) →
            s.start = z.setMinutes
              (⌈(now : ℚ) / ((intervalMinutes * 60000 : ℤ) : ℚ)⌉ * (intervalMinutes * 60000))
              ((z.getMinutes (⌈(now : ℚ) / ((intervalMinutes * 60000 : ℤ) : ℚ)⌉
                * (intervalMinutes * 60000)) : ℤ) + 15))
      ∧ (0 < hours → ∃ (s : TimeSlot) (rest : List TimeSlot),
          AIScheduler.generateTimeSlots z now hours intervalMinutes = some (s :: rest))
      ∧ (∀ slots, AIScheduler.generateTimeSlots z now hours intervalMinutes = some slots →
          ∀ s ∈ slots, s.rushIntensity = AIScheduler.calculateRushIntensity z s.start)
      ∧ (∀ (now2 : Instant) (hours2 intervalMinutes2 : ℤ), now2 = now → hours2 = hours →
          intervalMinutes2 = intervalMinutes →
          AIScheduler.generateTimeSlots z now2 hours2 intervalMinutes2
            = AIScheduler.generateTimeSlots z now hours intervalMinutes) := by
  have hd : 0 < intervalMinutes * 60000 := by positivity
  have hceil := ceil_fl_div now (intervalMinutes * 60000) hd
    (lt_of_le_of_lt hnow (by norm_num))
  have hgen := generateTimeSlots_of_ne_zero z now hours intervalMinutes hi.ne'
  rw [hceil] at hgen
  obtain ⟨b1, b2⟩ := ceil_mul_bounds now (intervalMinutes * 60000) hd
  have hfirst : ∀ (s : TimeSlot) (rest : List TimeSlot),
      AIScheduler.generateTimeSlots z now hours intervalMinutes = some (s :: rest) →
        s.start = z.setMinutes
          (⌈(now : ℚ) / ((intervalMinutes * 60000 : ℤ) : ℚ)⌉ * (intervalMinutes * 60000))
          ((z.getMinutes (⌈(now : ℚ) / ((intervalMinutes * 60000 : ℤ) : ℚ)⌉
            * (intervalMinutes * 60000)) : ℤ) + 15) := by
    intro s rest hs
    rw [hgen] at hs
    have hs2 := Option.some.inj hs
    cases hc : ⌈fl (((hours * 60 : ℤ) : ℚ) / (intervalMinutes : ℚ))⌉.toNat with
    | zero => rw [hc] at hs2; simp at hs2
    | succ n =>
      rw [hc, List.range_succ_eq_map, List.map_cons] at hs2
      have := (List.cons.inj hs2).1
      rw [← this]
      simp
  refine ⟨?_, hfirst, ?_, ?_, ?_⟩
  · intro hstep s rest hs
    have hstart : s.start = ⌈(now : ℚ) / ((intervalMinutes * 60000 : ℤ) : ℚ)⌉
        * (intervalMinutes * 60000) + 15 * 60000 := by
      rw [hfirst s rest hs, hstep]
    refine ⟨hstart, ?_, ?_, ?_, ?_⟩
    · rw [hstart]
      exact ⟨⌈(now : ℚ) / ((intervalMinutes * 60000 : ℤ) : ℚ)⌉, by ring⟩
    · rw [hstart]; linarith
    · rw [hstart]; linarith
    · rintro ⟨k, hk⟩
      rw [hstart]
      have hdq : ((intervalMinutes * 60000 : ℤ) : ℚ) ≠ 0 := by exact_mod_cast hd.ne'
      have : (now : ℚ) / ((intervalMinutes * 60000 : ℤ) : ℚ) = (k : ℚ) := by
        rw [hk]; push_cast; field_simp
      rw [this, Int.ceil_intCast, hk]; ring
  · intro hh
    have hpos : 0 < fl (((hours * 60 : ℤ) : ℚ) / (intervalMinutes : ℚ)) := by
      have hx : (0 : ℚ) < ((hours * 60 : ℤ) : ℚ) / (intervalMinutes : ℚ) := by
        apply div_pos
        · exact_mod_cast (by positivity : 0 < hours * 60)
        · exact_mod_cast hi
      exact lt_of_lt_of_le (by positivity) (fl_pos_bounds hx).1
    have hc : 0 < ⌈fl (((hours * 60 : ℤ) : ℚ) / (intervalMinutes : ℚ))⌉.toNat := by
      have := Int.ceil_pos.2 hpos
      omega
    obtain ⟨n, hn⟩ : ∃ n, ⌈fl (((hours * 60 : ℤ) : ℚ) / (intervalMinutes : ℚ))⌉.toNat = n + 1 :=
      ⟨_, (Nat.succ_pred_eq_of_pos hc).symm⟩
    rw [hgen, hn, List.range_succ_eq_map, List.map_cons]
    exact ⟨_, _, rfl⟩
  · intro slots hs s hmem
    rw [hgen] at hs
    rw [← Option.some.inj hs] at hmem
    obtain ⟨i, _, rfl⟩ := List.mem_map.1 hmem
    rfl
  · intro now2 hours2 intervalMinutes2 h1 h2 h3
    rw [h1, h2, h3]

/-- The wall-clock step of America/New_York from 2024-11-03T06:20Z, which is 01:20 standard
time inside the repeated hour: minute 35 of that local hour is read as its first occurrence,
05:35Z. -/
theorem newYork_setMinutes_repeated_hour :
    newYork.getMinutes 1730614800000 = 20
      ∧ newYork.getHours 1730614800000 = 1
      ∧ newYork.setMinutes 1730614800000 ((newYork.getMinutes 1730614800000 : ℤ) + 15)
        = 1730612100000 := by
  refine ⟨by decide, by decide, by decide⟩

/-- C12: in the zone America/New_York with the clock at 2024-11-03T06:20Z, which is 01:20
standard time inside the repeated hour, `generateTimeSlots(1, 10)` returns six slots and the
first one starts at 05:35Z, 45 minutes before `now`: it does not start at `now` rounded up to
a multiple of the interval plus 15 minutes, which is 06:35Z, and the bound
`now + 15 min ≤ first start` fails there. -/
theorem generateTimeSlots_repeated_hour :
    ∃ (s : TimeSlot) (rest : List TimeSlot),
      AIScheduler.generateTimeSlots newYork 1730614800000 1 10 = some (s :: rest)
        ∧ rest.length = 5
        ∧ s.start = 1730612100000
        ∧ s.start = 1730614800000 - 45 * 60000
        ∧ ⌈((1730614800000 : ℤ) : ℚ) / ((10 * 60000 : ℤ) : ℚ)⌉ * (10 * 60000) + 15 * 60000
          = 1730615700000
        ∧ ¬ (1730614800000 + 15 * 60000 ≤ s.start) := by
  have hceil : ⌈fl (((1730614800000 : ℤ) : ℚ) / ((10 * 60000 : ℤ) : ℚ))⌉ = 2884358 := by
    rw [ceil_fl_div 1730614800000 (10 * 60000) (by norm_num) (by norm_num)]
    rw [show ((1730614800000 : ℤ) : ℚ) / ((10 * 60000 : ℤ) : ℚ) = ((2884358 : ℤ) : ℚ) from by
      norm_num, Int.ceil_intCast]
  have hceil2 : ⌈((1730614800000 : ℤ) : ℚ) / ((10 * 60000 : ℤ) : ℚ)⌉ = 2884358 := by
    rw [show ((1730614800000 : ℤ) : ℚ) / ((10 * 60000 : ℤ) : ℚ) = ((2884358 : ℤ) : ℚ) from by
      norm_num, Int.ceil_intCast]
  have hcount : ⌈fl (((1 * 60 : ℤ) : ℚ) / ((10 : ℤ) : ℚ))⌉.toNat = 5 + 1 := by
    have := slotCount_of_dvd 1 10 (by norm_num) (by norm_num) (by norm_num) (by norm_num)
    omega
  have hb : (2884358 : ℤ) * (10 * 60000) = 1730614800000 := by norm_num
  obtain ⟨_, _, hstep⟩ := newYork_setMinutes_repeated_hour
  have hgen := generateTimeSlots_of_ne_zero newYork 1730614800000 1 10 (by norm_num)
  rw [hceil, hcount, hb, hstep, List.range_succ_eq_map, List.map_cons] at hgen
  refine ⟨_, _, hgen, ?_, ?_, ?_, ?_, ?_⟩
  · simp
  · simp
  · simp
  · rw [hceil2]; norm_num
  · simp

section QueueDelay

open AIScheduler

/-- The ceiling of the binary64 mean divided by the capacity is the ceiling of the exact
quotient, for a sum below `2 ^ 51`. -/
theorem ceil_fl_fl_div (s n k : ℤ) (hn : 0 < n) (hk : 0 < k) (hs : |s| < 2 ^ 51) :
    ⌈fl (fl ((s : ℚ) / (n : ℚ)) / (k : ℚ))⌉ = ⌈(s : ℚ) / (n : ℚ) / (k : ℚ)⌉ := by
  have hnq : (0 : ℚ) < n := by exact_mod_cast hn
  have hkq : (0 : ℚ) < k := by exact_mod_cast hk
  have hn1 : (1 : ℚ) ≤ n := by exact_mod_cast hn
  have hk1 : (1 : ℚ) ≤ k := by exact_mod_cast hk
  have hNq : (0 : ℚ) < n * k := mul_pos hnq hkq
  have hsq : |(s : ℚ)| < 2 ^ 51 := by
    have : ((|s| : ℤ) : ℚ) < ((2 ^ 51 : ℤ) : ℚ) := by exact_mod_cast hs
    simpa using this
  have hxabs : |(s : ℚ) / n| ≤ |(s : ℚ)| := by
    rw [abs_div, abs_of_pos hnq]; exact div_le_self (abs_nonneg _) hn1
  have hvabs : |(s : ℚ) / n / k| ≤ |(s : ℚ) / n| := by
    rw [abs_div _ (k : ℚ), abs_of_pos hkq]; exact div_le_self (abs_nonneg _) hk1
  have hvs : |(s : ℚ) / n / k| = |(s : ℚ)| / (n * k) := by
    rw [div_div, abs_div, abs_of_pos hNq]
  have hvN : (s : ℚ) / n / k * (n * k) = s := by field_simp
  have key : ∀ m : ℤ, (s : ℚ) / n / k ≤ m → (m : ℚ) < (s : ℚ) / n / k + 1 →
      ⌈fl (fl ((s : ℚ) / (n : ℚ)) / (k : ℚ))⌉ = m := by
    intro m hq1 hq2
    rcases eq_or_ne (m : ℚ) ((s : ℚ) / n / k) with hex | hne
    · -- the exact quotient is an integer: both divisions are exact
      have hx : (s : ℚ) / n = ((m * k : ℤ) : ℚ) := by
        push_cast; rw [hex]; field_simp; ring
      have hxb : |m * k| < 2 ^ 53 := by
        have : |((m * k : ℤ) : ℚ)| < 2 ^ 53 := by
          rw [← hx]; exact lt_of_le_of_lt hxabs (lt_trans hsq (by norm_num))
        exact_mod_cast this
      have hmb : |m| < 2 ^ 53 := by
        have : |((m : ℤ) : ℚ)| < 2 ^ 53 := by
          rw [hex]
          exact lt_of_le_of_lt (le_trans hvabs hxabs) (lt_trans hsq (by norm_num))
        exact_mod_cast this
      have hdiv : ((m * k : ℤ) : ℚ) / k = ((m : ℤ) : ℚ) := by
        push_cast; field_simp
      rw [hx, fl_intCast _ hxb, hdiv, fl_intCast _ hmb, Int.ceil_intCast]
    · -- otherwise the quotient keeps a distance `1 / (n k)` from the integers
      have hq1s : (s : ℚ) / n / k < m := lt_of_le_of_ne hq1 (Ne.symm hne)
      have hone : (1 : ℚ) / (n * k) * (n * k) = 1 := by field_simp
      have hup : (s : ℚ) / n / k ≤ (m : ℚ) - 1 / (n * k) := by
        have h1 : (s : ℚ) < m * (n * k) := by
          have := mul_lt_mul_of_pos_right hq1s hNq
          rw [hvN] at this; exact this
        have h2 : s < m * (n * k) := by exact_mod_cast h1
        have h3 : ((s + 1 : ℤ) : ℚ) ≤ ((m * (n * k) : ℤ) : ℚ) := by
          exact_mod_cast (by omega : s + 1 ≤ m * (n * k))
        push_cast at h3
        have : (s : ℚ) / n / k * (n * k) ≤ ((m : ℚ) - 1 / (n * k)) * (n * k) := by
          rw [hvN, sub_mul, hone]; linarith
        exact le_of_mul_le_mul_right this hNq
      have hlo : (m : ℚ) - 1 + 1 / (n * k) ≤ (s : ℚ) / n / k := by
        have h1 : ((m : ℚ) - 1) * (n * k) < s := by
          have := mul_lt_mul_of_pos_right (by linarith : (m : ℚ) - 1 < (s : ℚ) / n / k) hNq
          rw [hvN] at this; exact this
        have h2 : (m - 1) * (n * k) < s := by exact_mod_cast h1
        have h3 : (((m - 1) * (n * k) + 1 : ℤ) : ℚ) ≤ (s : ℚ) := by
          exact_mod_cast (by omega : (m - 1) * (n * k) + 1 ≤ s)
        push_cast at h3
        have : ((m : ℚ) - 1 + 1 / (n * k)) * (n * k) ≤ (s : ℚ) / n / k * (n * k) := by
          rw [hvN, add_mul, hone]; linarith
        exact le_of_mul_le_mul_right this hNq
      -- the two rounding errors
      have e1 := fl_abs_sub_le ((s : ℚ) / n)
      have e2 := fl_abs_sub_le (fl ((s : ℚ) / n) / k)
      have d1 : |fl ((s : ℚ) / n) / k - (s : ℚ) / n / k| ≤ |(s : ℚ)| / (n * k) / 2 ^ 53 := by
        rw [← sub_div, abs_div, abs_of_pos hkq]
        calc |fl ((s : ℚ) / n) - (s : ℚ) / n| / k ≤ |(s : ℚ) / n| / 2 ^ 53 / k :=
              div_le_div_of_nonneg_right e1 hkq.le
          _ = |(s : ℚ)| / (n * k) / 2 ^ 53 := by
              rw [abs_div, abs_of_pos hnq]; ring
      have hpos : (0 : ℚ) ≤ |(s : ℚ)| / (n * k) := by positivity
      have d2 : |fl ((s : ℚ) / n) / k| ≤ 2 * (|(s : ℚ)| / (n * k)) := by
        have h := abs_sub_abs_le_abs_sub (fl ((s : ℚ) / n) / k) ((s : ℚ) / n / k)
        rw [hvs] at h
        have : |(s : ℚ)| / (n * k) / 2 ^ 53 ≤ |(s : ℚ)| / (n * k) :=
          div_le_self hpos (by norm_num)
        linarith
      have d3 : |fl (fl ((s : ℚ) / n) / k) - (s : ℚ) / n / k|
          ≤ 3 * (|(s : ℚ)| / (n * k)) / 2 ^ 53 := by
        have h := abs_sub_le (fl (fl ((s : ℚ) / n) / k)) (fl ((s : ℚ) / n) / k)
          ((s : ℚ) / n / k)
        have e2b : |fl ((s : ℚ) / n) / k| / 2 ^ 53 ≤ 2 * (|(s : ℚ)| / (n * k)) / 2 ^ 53 :=
          div_le_div_of_nonneg_right d2 (by positivity)
        have : 3 * (|(s : ℚ)| / (n * k)) / 2 ^ 53
            = 2 * (|(s : ℚ)| / (n * k)) / 2 ^ 53 + |(s : ℚ)| / (n * k) / 2 ^ 53 := by ring
        linarith
      have d4 : 3 * (|(s : ℚ)| / (n * k)) / 2 ^ 53 < 1 / (n * k) := by
        have : 3 * (|(s : ℚ)| / (n * k)) / 2 ^ 53 = (3 * |(s : ℚ)| / 2 ^ 53) / (n * k) := by
          ring
        rw [this]
        apply div_lt_div_of_pos_right _ hNq
        rw [div_lt_one (by positivity)]
        calc 3 * |(s : ℚ)| < 3 * 2 ^ 51 := by linarith
          _ < 2 ^ 53 := by norm_num
      obtain ⟨l1, l2⟩ := abs_le.1 d3
      rw [Int.ceil_eq_iff]
      constructor <;> linarith
  exact key _ (Int.le_ceil _) (Int.ceil_lt_add_one _)

end QueueDelay


section QueueDelayModel

open AIScheduler

theorem predictQueueDelay_eq (this : AIScheduler) (activeOrders : List Order)
    (canteenId : String) :
    predictQueueDelay this activeOrders canteenId =
      if queueOrders activeOrders canteenId = [] then JSNumber.finite 0
      else jsCeil (jsDiv
        (fl ((((queueOrders activeOrders canteenId).map fun o => getMaxPrepTime o.items).sum : ℤ)
          / ((queueOrders activeOrders canteenId).length : ℚ)))
        (this.kitchenCapacity : ℚ)) := by
  have hf : (activeOrders.filter fun order =>
      decide (order.canteenId = canteenId) && ["preparing", "confirmed"].contains order.status)
      = queueOrders activeOrders canteenId := by
    unfold queueOrders
    apply List.filter_congr
    intro o _
    rw [Bool.eq_iff_iff]
    simp
  unfold predictQueueDelay
  simp only [hf, List.length_eq_zero]
  rw [foldl_add_eq_sum (fun o : Order => getMaxPrepTime o.items)]
  simp

theorem jsCeil_finite (v : ℚ) : jsCeil (JSNumber.finite v) = JSNumber.finite ⌈v⌉ := rfl

theorem jsDiv_of_ne_zero (a b : ℚ) (hb : b ≠ 0) : jsDiv a b = JSNumber.finite (fl (a / b)) := by
  unfold jsDiv
  rw [if_neg hb]

theorem foldl_max_spec (ps : List ℤ) (p : ℤ) :
    (∀ x ∈ p :: ps, x ≤ ps.foldl max p) ∧ ps.foldl max p ∈ p :: ps := by
  induction ps generalizing p with
  | nil => simp
  | cons q qs ih =>
    obtain ⟨h1, h2⟩ := ih (max p q)
    simp only [List.foldl_cons]
    constructor
    · intro x hx
      rcases List.mem_cons.1 hx with rfl | hx
      · exact le_trans (le_max_left _ _) (h1 _ (List.mem_cons_self _ _))
      · rcases List.mem_cons.1 hx with rfl | hx
        · exact le_trans (le_max_right _ _) (h1 _ (List.mem_cons_self _ _))
        · exact h1 x (List.mem_cons_of_mem _ hx)
    · rcases List.mem_cons.1 h2 with h | h
      · rcases max_choice p q with hm | hm
        · rw [h, hm]; exact List.mem_cons_self _ _
        · rw [h, hm]; exact List.mem_cons_of_mem _ (List.mem_cons_self _ _)
      · exact List.mem_cons_of_mem _ (List.mem_cons_of_mem _ h)

/-- For a non-empty list the result bounds every defaulted prep time and is one of them. -/
theorem getMaxPrepTime_bounds_of_ne_nil (items : List Item) (h : items ≠ []) :
    (∀ i ∈ items, prepTimeOr10 i ≤ getMaxPrepTime items)
      ∧ ∃ i ∈ items, getMaxPrepTime items = prepTimeOr10 i := by
  cases items with
  | nil => exact absurd rfl h
  | cons a l =>
    obtain ⟨h1, h2⟩ := foldl_max_spec (l.map prepTimeOr10) (prepTimeOr10 a)
    have e : getMaxPrepTime (a :: l) = (l.map prepTimeOr10).foldl max (prepTimeOr10 a) := rfl
    rw [e]
    constructor
    · intro i hi
      apply h1
      rw [← List.map_cons]
      exact List.mem_map_of_mem _ hi
    · rw [← List.map_cons] at h2
      obtain ⟨i, hi, hie⟩ := List.mem_map.1 h2
      exact ⟨i, hi, hie.symm⟩

theorem prepTimeOr10_nonneg (i : Item) (h : ∀ p, i.prepTime = some p → 0 ≤ p) :
    0 ≤ prepTimeOr10 i := by
  unfold prepTimeOr10
  cases hp : i.prepTime with
  | none => norm_num
  | some p =>
    have := h p hp
    simp only
    split_ifs <;> omega

theorem getMaxPrepTime_nonneg (items : List Item)
    (h : ∀ i ∈ items, ∀ p, i.prepTime = some p → 0 ≤ p) : 0 ≤ getMaxPrepTime items := by
  rcases eq_or_ne items [] with h0 | h0
  · rw [h0]; exact le_refl 0
  · obtain ⟨i, hi, hie⟩ := (getMaxPrepTime_bounds_of_ne_nil items h0).2
    rw [hie]
    exact prepTimeOr10_nonneg i (h i hi)

end QueueDelayModel


/-- C13: `predictQueueDelay` looks only at the orders of the canteen whose status is
`preparing` or `confirmed`: it returns 0 when there are none and otherwise the ceiling of the
mean of their `getMaxPrepTime` divided by `kitchenCapacity` (two binary64 divisions, which for
a capacity of at least 1 and a sum below `2 ^ 51` give the ceiling of the exact quotient);
any other order list with the same matching orders gives the same result, and one matching
order with max prep time 20 and capacity 5 gives 4. -/
theorem predictQueueDelay_spec (k : ℤ) (activeOrders : List Order) (canteenId : String) :
    (queueOrders activeOrders canteenId = [] →
        AIScheduler.predictQueueDelay (AIScheduler.constructor (some k)) activeOrders canteenId
          = JSNumber.finite 0)
      ∧ (queueOrders activeOrders canteenId ≠ [] →
        AIScheduler.predictQueueDelay (AIScheduler.constructor (some k)) activeOrders canteenId
          = jsCeil (jsDiv
            (fl ((((queueOrders activeOrders canteenId).map
                fun o => AIScheduler.getMaxPrepTime o.items).sum : ℤ)
              / ((queueOrders activeOrders canteenId).length : ℚ))) (k : ℚ)))
      ∧ (queueOrders activeOrders canteenId ≠ [] → 1 ≤ k →
        |((queueOrders activeOrders canteenId).map
            fun o => AIScheduler.getMaxPrepTime o.items).sum| < 2 ^ 51 →
        AIScheduler.predictQueueDelay (AIScheduler.constructor (some k)) activeOrders canteenId
          = JSNumber.finite ⌈((((queueOrders activeOrders canteenId).map
                fun o => AIScheduler.getMaxPrepTime o.items).sum : ℤ) : ℚ)
              / ((queueOrders activeOrders canteenId).length : ℚ) / (k : ℚ)⌉)
      ∧ (∀ orders2 : List Order,
        queueOrders orders2 canteenId = queueOrders activeOrders canteenId →
        AIScheduler.predictQueueDelay (AIScheduler.constructor (some k)) orders2 canteenId
          = AIScheduler.predictQueueDelay (AIScheduler.constructor (some k)) activeOrders
            canteenId)
      ∧ (∀ o : Order, o.canteenId = canteenId →
        o.status = "preparing" ∨ o.status = "confirmed" →
        AIScheduler.getMaxPrepTime o.items = 20 →
        AIScheduler.predictQueueDelay (AIScheduler.constructor (some 5)) [o] canteenId
          = JSNumber.finite 4) := by
  have hk : ∀ k : ℤ, (AIScheduler.constructor (some k)).kitchenCapacity = k := fun _ => rfl
  have hexact : ∀ (k : ℤ) (orders : List Order), queueOrders orders canteenId ≠ [] → 1 ≤ k →
      |((queueOrders orders canteenId).map
          fun o => AIScheduler.getMaxPrepTime o.items).sum| < 2 ^ 51 →
      AIScheduler.predictQueueDelay (AIScheduler.constructor (some k)) orders canteenId
        = JSNumber.finite ⌈((((queueOrders orders canteenId).map
              fun o => AIScheduler.getMaxPrepTime o.items).sum : ℤ) : ℚ)
            / ((queueOrders orders canteenId).length : ℚ) / (k : ℚ)⌉ := by
    intro k orders hne hk1 hs
    have hkq : (k : ℚ) ≠ 0 := by exact_mod_cast (by omega : k ≠ 0)
    have hlen : 0 < ((queueOrders orders canteenId).length : ℤ) := by
      have := List.length_pos.2 hne
      exact_mod_cast this
    rw [predictQueueDelay_eq, if_neg hne, hk, jsDiv_of_ne_zero _ _ hkq, jsCeil_finite]
    have := ceil_fl_fl_div _ ((queueOrders orders canteenId).length : ℤ) k hlen (by omega) hs
    simp only [Int.cast_natCast] at this
    rw [this]
  refine ⟨?_, ?_, hexact k activeOrders, ?_, ?_⟩
  · intro h
    rw [predictQueueDelay_eq, if_pos h]
  · intro h
    rw [predictQueueDelay_eq, if_neg h, hk]
  · intro orders2 h
    rw [predictQueueDelay_eq, predictQueueDelay_eq, h]
  · intro o h1 h2 h3
    have hq : queueOrders [o] canteenId = [o] := by
      unfold queueOrders
      simp [h1, h2]
    have := hexact 5 [o] (by rw [hq]; simp) (by norm_num) (by rw [hq]; simp [h3])
    rw [this, hq]
    simp only [List.map_cons, List.map_nil, List.sum_cons, List.sum_nil, h3, List.length_cons,
      List.length_nil]
    norm_num

/-- One preparing order of canteen `c` with a 20 minute dish, next to an order of another
canteen and a collected one: the delay at capacity 5 is 4 minutes. -/
theorem predictQueueDelay_spec_witness :
    AIScheduler.predictQueueDelay (AIScheduler.constructor (some 5))
        [⟨"c", [⟨1, some 20⟩, ⟨2, some 5⟩], "preparing", ⟨0, 600000⟩, some 0⟩] "c"
        = JSNumber.finite 4
      ∧ AIScheduler.predictQueueDelay (AIScheduler.constructor (some 5))
        [⟨"d", [⟨1, some 50⟩], "preparing", ⟨0, 600000⟩, some 0⟩,
          ⟨"c", [⟨1, some 20⟩, ⟨2, some 5⟩], "preparing", ⟨0, 600000⟩, some 0⟩,
          ⟨"c", [⟨1, some 60⟩], "collected", ⟨0, 600000⟩, some 0⟩] "c"
        = AIScheduler.predictQueueDelay (AIScheduler.constructor (some 5))
          [⟨"c", [⟨1, some 20⟩, ⟨2, some 5⟩], "preparing", ⟨0, 600000⟩, some 0⟩] "c" :=
  ⟨(predictQueueDelay_spec 5 [] "c").2.2.2.2
      ⟨"c", [⟨1, some 20⟩, ⟨2, some 5⟩], "preparing", ⟨0, 600000⟩, some 0⟩ rfl
      (Or.inl rfl) (by decide),
    (predictQueueDelay_spec 5
      [⟨"c", [⟨1, some 20⟩, ⟨2, some 5⟩], "preparing", ⟨0, 600000⟩, some 0⟩] "c").2.2.2.1
      _ (by decide)⟩

/-- The claim C19 fails outside the canteen schema: with kitchen capacity 0 the delay is
infinite, or `NaN` when the mean is 0; with a negative capacity or a negative prep time it is
negative.  So the delay is not a finite non-negative integer for every capacity. -/
theorem predictQueueDelay_not_always_finite :
    AIScheduler.predictQueueDelay (AIScheduler.constructor (some 0))
        [⟨"c", [⟨1, some 20⟩], "confirmed", ⟨0, 600000⟩, some 0⟩] "c" = JSNumber.infinity
      ∧ AIScheduler.predictQueueDelay (AIScheduler.constructor (some 0))
        [⟨"c", [], "confirmed", ⟨0, 600000⟩, some 0⟩] "c" = JSNumber.nan
      ∧ AIScheduler.predictQueueDelay (AIScheduler.constructor (some (-5)))
        [⟨"c", [⟨1, some 20⟩], "confirmed", ⟨0, 600000⟩, some 0⟩] "c" = JSNumber.finite (-4)
      ∧ AIScheduler.predictQueueDelay (AIScheduler.constructor (some 5))
        [⟨"c", [⟨1, some (-30)⟩], "confirmed", ⟨0, 600000⟩, some 0⟩] "c" = JSNumber.finite (-6)
      ∧ ¬ ∀ (k : ℤ) (activeOrders : List Order) (canteenId : String), ∃ n : ℕ,
        AIScheduler.predictQueueDelay (AIScheduler.constructor (some k)) activeOrders canteenId
          = JSNumber.finite n := by
  have h20 : fl ((20 : ℚ)) = 20 := by
    have := fl_intCast 20 (by norm_num); simpa using this
  have hm30 : fl ((-30 : ℚ)) = -30 := by
    have := fl_intCast (-30) (by norm_num); simpa using this
  have hm4 : fl ((-4 : ℚ)) = -4 := by
    have := fl_intCast (-4) (by norm_num); simpa using this
  have hm6 : fl ((-6 : ℚ)) = -6 := by
    have := fl_intCast (-6) (by norm_num); simpa using this
  have hq : ∀ items : List Item,
      queueOrders [⟨"c", items, "confirmed", ⟨0, 600000⟩, some 0⟩] "c"
        = [⟨"c", items, "confirmed", ⟨0, 600000⟩, some 0⟩] := by
    intro items; unfold queueOrders; simp
  have hk : ∀ k : ℤ, (AIScheduler.constructor (some k)).kitchenCapacity = k := fun _ => rfl
  have g20 : AIScheduler.getMaxPrepTime [⟨1, some 20⟩] = 20 := by decide
  have gm30 : AIScheduler.getMaxPrepTime [⟨1, some (-30)⟩] = -30 := by decide
  have g0 : AIScheduler.getMaxPrepTime [] = 0 := rfl
  have c1 : AIScheduler.predictQueueDelay (AIScheduler.constructor (some 0))
      [⟨"c", [⟨1, some 20⟩], "confirmed", ⟨0, 600000⟩, some 0⟩] "c" = JSNumber.infinity := by
    rw [predictQueueDelay_eq, hq, if_neg (by simp), hk]
    simp only [List.map_cons, List.map_nil, List.sum_cons, List.sum_nil, g20, List.length_cons,
      List.length_nil]
    norm_num [h20, jsDiv, jsCeil]
  refine ⟨c1, ?_, ?_, ?_, ?_⟩
  · rw [predictQueueDelay_eq, hq, if_neg (by simp), hk]
    simp only [List.map_cons, List.map_nil, List.sum_cons, List.sum_nil, g0, List.length_cons,
      List.length_nil]
    norm_num [fl_zero, jsDiv, jsCeil]
  · rw [predictQueueDelay_eq, hq, if_neg (by simp), hk]
    simp only [List.map_cons, List.map_nil, List.sum_cons, List.sum_nil, g20, List.length_cons,
      List.length_nil]
    norm_num [h20, hm4, jsDiv, jsCeil]
    rw [show ⌈(-4 : ℚ)⌉ = -4 from by rw [Int.ceil_eq_iff]; norm_num]
    norm_num
  · rw [predictQueueDelay_eq, hq, if_neg (by simp), hk]
    simp only [List.map_cons, List.map_nil, List.sum_cons, List.sum_nil, gm30, List.length_cons,
      List.length_nil]
    norm_num [hm30, hm6, jsDiv, jsCeil]
    rw [show ⌈(-6 : ℚ)⌉ = -6 from by rw [Int.ceil_eq_iff]; norm_num]
    norm_num
  · intro h
    obtain ⟨n, hn⟩ := h 0 [⟨"c", [⟨1, some 20⟩], "confirmed", ⟨0, 600000⟩, some 0⟩] "c"
    rw [c1] at hn
    exact JSNumber.noConfusion hn

/-- C19 (amended): for every kitchen capacity of at least 1 and every active-order list whose
item prep times are not negative, `predictQueueDelay` returns a finite non-negative integer
number of minutes, for every canteenId. -/
theorem predictQueueDelay_finite (k : ℤ) (activeOrders : List Order) (canteenId : String)
    (hk : 1 ≤ k)
    (hp : ∀ o ∈ activeOrders, ∀ i ∈ o.items, ∀ p, i.prepTime = some p → 0 ≤ p) :
    ∃ n : ℕ,
      AIScheduler.predictQueueDelay (AIScheduler.constructor (some k)) activeOrders canteenId
        = JSNumber.finite n := by
  rw [predictQueueDelay_eq]
  by_cases h : queueOrders activeOrders canteenId = []
  · rw [if_pos h]
    exact ⟨0, by norm_num⟩
  · rw [if_neg h]
    have hkc : (AIScheduler.constructor (some k)).kitchenCapacity = k := rfl
    have hkq : (0 : ℚ) < k := by exact_mod_cast (by omega : 0 < k)
    have hsum : 0 ≤ ((queueOrders activeOrders canteenId).map
        fun o => AIScheduler.getMaxPrepTime o.items).sum := by
      apply List.sum_nonneg
      intro x hx
      obtain ⟨o, ho, rfl⟩ := List.mem_map.1 hx
      exact getMaxPrepTime_nonneg o.items (hp o (List.mem_of_mem_filter ho))
    have hmean : 0 ≤ fl ((((queueOrders activeOrders canteenId).map
        fun o => AIScheduler.getMaxPrepTime o.items).sum : ℤ)
          / ((queueOrders activeOrders canteenId).length : ℚ)) := by
      apply fl_nonneg
      apply div_nonneg
      · exact_mod_cast hsum
      · positivity
    rw [hkc, jsDiv_of_ne_zero _ _ hkq.ne', jsCeil_finite]
    have hq : 0 ≤ fl (fl ((((queueOrders activeOrders canteenId).map
        fun o => AIScheduler.getMaxPrepTime o.items).sum : ℤ)
          / ((queueOrders activeOrders canteenId).length : ℚ)) / (k : ℚ)) :=
      fl_nonneg (div_nonneg hmean hkq.le)
    have hc := Int.ceil_nonneg hq
    obtain ⟨n, hn⟩ := Int.eq_ofNat_of_zero_le hc
    exact ⟨n, by rw [hn, Int.cast_natCast]⟩

/-- Two confirmed orders with 20 and 15 minute dishes at capacity 5. -/
theorem predictQueueDelay_finite_witness :
    ∃ n : ℕ,
      AIScheduler.predictQueueDelay (AIScheduler.constructor (some 5))
          [⟨"c", [⟨1, some 20⟩], "confirmed", ⟨0, 600000⟩, some 0⟩,
            ⟨"c", [⟨1, some 15⟩], "confirmed", ⟨0, 600000⟩, some 0⟩] "c"
        = JSNumber.finite n :=
  predictQueueDelay_finite 5 _ "c" (by decide) (by decide)

/-- The claim C18 fails for a prep time that is present and 0: the expression
`item.prepTime || 10` replaces it by 10 as well, so the result 10 is not the prep time of any
item of the list. -/
theorem getMaxPrepTime_zero_prep_time :
    AIScheduler.getMaxPrepTime [⟨1, some 0⟩] = 10
      ∧ (([⟨1, some 0⟩] : List Item).map fun i => i.prepTime.getD 10) = [0]
      ∧ ¬ ∃ i ∈ ([⟨1, some 0⟩] : List Item),
          AIScheduler.getMaxPrepTime [⟨1, some 0⟩] = i.prepTime.getD 10 := by
  refine ⟨by decide, by decide, ?_⟩
  rintro ⟨i, hi, h⟩
  rw [List.mem_singleton] at hi
  subst hi
  revert h
  decide

/-- C18 (amended): `getMaxPrepTime` returns 0 for an empty or absent item list and otherwise the
maximum over the items of the item's prep time, with 10 substituted for a prep time that is
missing or 0: for a non-empty list the result is at least every item's defaulted prep time and
equals the defaulted prep time of some item; when no prep time is 0 the default only replaces
missing prep times. -/
theorem getMaxPrepTime_spec (items : List Item) :
    AIScheduler.getMaxPrepTime [] = 0
      ∧ AIScheduler.getMaxPrepTimeOf none = 0
      ∧ AIScheduler.getMaxPrepTimeOf (some items) = AIScheduler.getMaxPrepTime items
      ∧ (∀ i : Item, AIScheduler.prepTimeOr10 i
          = if i.prepTime = none ∨ i.prepTime = some 0 then 10 else i.prepTime.getD 10)
      ∧ (items ≠ [] →
          (∀ i ∈ items, AIScheduler.prepTimeOr10 i ≤ AIScheduler.getMaxPrepTime items)
            ∧ ∃ i ∈ items, AIScheduler.getMaxPrepTime items = AIScheduler.prepTimeOr10 i)
      ∧ (items ≠ [] → (∀ i ∈ items, i.prepTime ≠ some 0) →
          (∀ i ∈ items, i.prepTime.getD 10 ≤ AIScheduler.getMaxPrepTime items)
            ∧ ∃ i ∈ items, AIScheduler.getMaxPrepTime items = i.prepTime.getD 10) := by
  have hdef : ∀ i : Item, AIScheduler.prepTimeOr10 i
      = if i.prepTime = none ∨ i.prepTime = some 0 then 10 else i.prepTime.getD 10 := by
    intro i
    unfold AIScheduler.prepTimeOr10
    cases hp : i.prepTime with
    | none => simp
    | some p =>
      by_cases h0 : p = 0
      · simp [h0]
      · simp [h0]
  have hnz : ∀ i : Item, i.prepTime ≠ some 0 →
      AIScheduler.prepTimeOr10 i = i.prepTime.getD 10 := by
    intro i hi
    rw [hdef]
    cases hp : i.prepTime with
    | none => simp
    | some p =>
      have : p ≠ 0 := fun h => hi (by rw [hp, h])
      simp [this]
  refine ⟨rfl, rfl, rfl, hdef, getMaxPrepTime_bounds_of_ne_nil items, ?_⟩
  intro hne hz
  obtain ⟨h1, i, hi, hie⟩ := getMaxPrepTime_bounds_of_ne_nil items hne
  constructor
  · intro j hj
    rw [← hnz j (hz j hj)]
    exact h1 j hj
  · exact ⟨i, hi, by rw [hie, hnz i (hz i hi)]⟩

/-- Three items with prep times 5, missing and 25: the maximum is 25 and it bounds the
default 10. -/
theorem getMaxPrepTime_spec_witness :
    ((∀ i ∈ ([⟨1, some 5⟩, ⟨2, none⟩, ⟨1, some 25⟩] : List Item),
        i.prepTime.getD 10 ≤ AIScheduler.getMaxPrepTime [⟨1, some 5⟩, ⟨2, none⟩, ⟨1, some 25⟩])
      ∧ ∃ i ∈ ([⟨1, some 5⟩, ⟨2, none⟩, ⟨1, some 25⟩] : List Item),
        AIScheduler.getMaxPrepTime [⟨1, some 5⟩, ⟨2, none⟩, ⟨1, some 25⟩]
          = i.prepTime.getD 10)
      ∧ AIScheduler.getMaxPrepTime [⟨1, some 5⟩, ⟨2, none⟩, ⟨1, some 25⟩] = 25 :=
  ⟨(getMaxPrepTime_spec [⟨1, some 5⟩, ⟨2, none⟩, ⟨1, some 25⟩]).2.2.2.2.2 (by decide)
    (by decide), by decide⟩

/-- The claim C15 fails when the kitchen is already above the threshold: at noon, capacity 5,
four one-item orders overlap the two minutes before pickup, the load 4 exceeds
`max(3, 2)` and the empty order is rejected although `pickupTime ≥ now + 2 min`. -/
theorem checkSlotFeasibility_empty_items_rejected :
    (0 : Instant) + 2 * 60000 ≤ 43200000
      ∧ (AIScheduler.checkSlotFeasibility (AIScheduler.constructor (some 5)) utc 0 43200000 []
          busyNoonOrders none).feasible = false
      ∧ (AIScheduler.checkSlotFeasibility (AIScheduler.constructor (some 5)) utc 0 43200000 []
          busyNoonOrders none).currentLoad = some 4
      ∧ (AIScheduler.checkSlotFeasibility (AIScheduler.constructor (some 5)) utc 0 43200000 []
          busyNoonOrders none).effectiveCapacity = some 3 := by
  have hnoon := calculateRushIntensity_of_noon utc 43200000 (by decide) (by decide)
  have hload : AIScheduler.calculateKitchenLoad (AIScheduler.getOrdersInWindow busyNoonOrders
      (43200000 - (AIScheduler.getMaxPrepTime [] + 2) * 60000) 43200000) = 4 := by decide
  have hcount : AIScheduler.totalItemCount [] = 0 := rfl
  rw [checkSlotFeasibility_cases, if_neg (by decide), hload, hcount, hnoon,
    effectiveCapacity_five_peak, if_neg (by decide)]
  exact ⟨by decide, rfl, rfl, rfl⟩

/-- C15 (amended): for an empty candidate item list `checkSlotFeasibility` returns a result
with `maxPrepTime = 0` and `totalItemCount = 0`, and for every `pickupTime ≥ now + 2 min` the
empty order is admitted if and only if the load of the active orders overlapping
`[pickupTime - 2 min, pickupTime)` is at most `max(effectiveCapacity, 2)`; in particular it is
admitted whenever that load is at most 2, for every kitchen capacity. -/
theorem checkSlotFeasibility_empty_items (k : ℤ) (z : Zone) (now pickupTime : Instant)
    (activeOrders : List Order) (ht : now + 2 * 60000 ≤ pickupTime) :
    AIScheduler.getMaxPrepTime [] = 0
      ∧ AIScheduler.totalItemCount [] = 0
      ∧ ((AIScheduler.checkSlotFeasibility (AIScheduler.constructor (some k)) z now pickupTime
            [] activeOrders none).feasible = true
          ↔ ((activeOrders.filter fun o =>
                decide (o.occupies (pickupTime - 2 * 60000) pickupTime)).map
              fun o => (o.items.map Item.quantity).sum).sum
            ≤ max (AIScheduler.effectiveCapacity k
              (AIScheduler.calculateRushIntensity z pickupTime)) 2)
      ∧ (((activeOrders.filter fun o =>
                decide (o.occupies (pickupTime - 2 * 60000) pickupTime)).map
              fun o => (o.items.map Item.quantity).sum).sum ≤ 2 →
          (AIScheduler.checkSlotFeasibility (AIScheduler.constructor (some k)) z now pickupTime
            [] activeOrders none).feasible = true) := by
  have hmax : AIScheduler.getMaxPrepTime [] = 0 := rfl
  have hcount : AIScheduler.totalItemCount [] = 0 := rfl
  have hiff : (AIScheduler.checkSlotFeasibility (AIScheduler.constructor (some k)) z now
        pickupTime [] activeOrders none).feasible = true
      ↔ ((activeOrders.filter fun o =>
            decide (o.occupies (pickupTime - 2 * 60000) pickupTime)).map
          fun o => (o.items.map Item.quantity).sum).sum
        ≤ max (AIScheduler.effectiveCapacity k
          (AIScheduler.calculateRushIntensity z pickupTime)) 2 := by
    rw [checkSlotFeasibility_cases, hmax, hcount, if_neg (by linarith),
      calculateKitchenLoad_eq_sum, getOrdersInWindow_eq_filter]
    have e : pickupTime - (0 + 2) * 60000 = pickupTime - 2 * 60000 := by ring
    rw [e, add_zero]
    split_ifs with h
    · simpa using h
    · simpa using h
  exact ⟨hmax, hcount, hiff, fun h => hiff.2 (le_trans h (le_max_right _ _))⟩

/-- An empty order on an idle kitchen is admitted. -/
theorem checkSlotFeasibility_empty_items_witness :
    (AIScheduler.checkSlotFeasibility (AIScheduler.constructor (some 5)) utc 0 120000 [] []
      none).feasible = true :=
  (checkSlotFeasibility_empty_items 5 utc 0 120000 [] (by decide)).2.2.2 (by decide)


section Dependence

open AIScheduler

/-- Orders that agree on `scheduledPrepTime`, `pickupSlot.end` and the item quantities. -/
theorem load_in_window_congr (orders1 orders2 : List Order)
    (h : List.Forall₂ (fun a b : Order => a.scheduledPrepTime = b.scheduledPrepTime
      ∧ a.pickupSlot.end_ = b.pickupSlot.end_
      ∧ a.items.map Item.quantity = b.items.map Item.quantity) orders1 orders2)
    (startTime endTime : Instant) :
    calculateKitchenLoad (getOrdersInWindow orders1 startTime endTime)
      = calculateKitchenLoad (getOrdersInWindow orders2 startTime endTime) := by
  rw [calculateKitchenLoad_eq_sum, calculateKitchenLoad_eq_sum]
  induction h with
  | nil => rfl
  | cons hab _ ih =>
    obtain ⟨h1, h2, h3⟩ := hab
    unfold getOrdersInWindow at ih ⊢
    simp only [List.filter_cons, h1, h2]
    split_ifs
    · simp only [List.map_cons, List.sum_cons, h3, ih]
    · exact ih

theorem findSlotLoop_congr (orders1 orders2 : List Order)
    (h : ∀ startTime endTime : Instant,
      calculateKitchenLoad (getOrdersInWindow orders1 startTime endTime)
        = calculateKitchenLoad (getOrdersInWindow orders2 startTime endTime))
    (itemCount capacity : ℤ) (n : ℕ) (t : Instant) :
    findSlotLoop itemCount orders1 capacity n t = findSlotLoop itemCount orders2 capacity n t := by
  induction n generalizing t with
  | zero => rfl
  | succ n ih =>
    simp only [findSlotLoop, h, ih]

end Dependence

/-- C14: `checkSlotFeasibility` is deterministic: two calls with identical `pickupTime`,
`items`, `activeOrders`, capacities and `now` return identical results; and the result depends
on the active orders only through their `scheduledPrepTime`, `pickupSlot.end` and item
quantities: two order lists that agree on these, order by order, give the same result whatever
their `status`, `canteenId`, `pickupSlot.start` and item prep times are. -/
theorem checkSlotFeasibility_deterministic (this : AIScheduler) (z : Zone)
    (now pickupTime : Instant) (items : List Item) (activeOrders : List Order)
    (customCapacity : Option ℤ) :
    (∀ (this2 : AIScheduler) (now2 pickupTime2 : Instant) (items2 : List Item)
        (activeOrders2 : List Order) (customCapacity2 : Option ℤ),
        this2 = this → now2 = now → pickupTime2 = pickupTime → items2 = items →
        activeOrders2 = activeOrders → customCapacity2 = customCapacity →
        AIScheduler.checkSlotFeasibility this2 z now2 pickupTime2 items2 activeOrders2
            customCapacity2
          = AIScheduler.checkSlotFeasibility this z now pickupTime items activeOrders
            customCapacity)
      ∧ (∀ activeOrders2 : List Order,
        List.Forall₂ (fun a b : Order => a.scheduledPrepTime = b.scheduledPrepTime
          ∧ a.pickupSlot.end_ = b.pickupSlot.end_
          ∧ a.items.map Item.quantity = b.items.map Item.quantity) activeOrders activeOrders2 →
        AIScheduler.checkSlotFeasibility this z now pickupTime items activeOrders2
            customCapacity
          = AIScheduler.checkSlotFeasibility this z now pickupTime items activeOrders
            customCapacity) := by
  constructor
  · intro this2 now2 pickupTime2 items2 activeOrders2 customCapacity2 h1 h2 h3 h4 h5 h6
    rw [h1, h2, h3, h4, h5, h6]
  · intro activeOrders2 h
    have hload := load_in_window_congr activeOrders activeOrders2 h
    have hloop := findSlotLoop_congr activeOrders activeOrders2 hload
    unfold AIScheduler.checkSlotFeasibility AIScheduler.findNextAvailableSlot
    simp only [hload, hloop]

/-- The same kitchen seen through two order lists that differ in status, canteen, slot start
and prep times only. -/
theorem checkSlotFeasibility_deterministic_witness :
    AIScheduler.checkSlotFeasibility (AIScheduler.constructor (some 5)) utc 0 43200000
        [⟨2, some 10⟩]
        [⟨"b", [⟨3, none⟩, ⟨1, some 7⟩], "ready", ⟨0, 43800000⟩, some 42480000⟩] none
      = AIScheduler.checkSlotFeasibility (AIScheduler.constructor (some 5)) utc 0 43200000
        [⟨2, some 10⟩]
        [⟨"a", [⟨3, some 10⟩, ⟨1, some 10⟩], "confirmed", ⟨43200000, 43800000⟩,
          some 42480000⟩] none :=
  (checkSlotFeasibility_deterministic (AIScheduler.constructor (some 5)) utc 0 43200000
    [⟨2, some 10⟩]
    [⟨"a", [⟨3, some 10⟩, ⟨1, some 10⟩], "confirmed", ⟨43200000, 43800000⟩, some 42480000⟩]
    none).2 _ (List.Forall₂.cons ⟨rfl, rfl, rfl⟩ List.Forall₂.nil)

/-- C16: for every kitchen capacity `≤ 0` the effective capacity is `≤ 0` and the admission
threshold `max(effectiveCapacity, 2)` is exactly 2: a request that passes the timing check is
feasible if and only if `currentLoad + totalItemCount ≤ 2`, so such a canteen still admits up
to 2 concurrent items.  The same holds for a negative `customCapacity`. -/
theorem checkSlotFeasibility_nonpositive_capacity (k : ℤ) (z : Zone) (now pickupTime : Instant)
    (items : List Item) (activeOrders : List Order) (hk : k ≤ 0) :
    ⌊fl ((k : ℚ) * fl (1 - fl (AIScheduler.calculateRushIntensity z pickupTime * dbl 0.3)))⌋ ≤ 0
      ∧ max ⌊fl ((k : ℚ)
          * fl (1 - fl (AIScheduler.calculateRushIntensity z pickupTime * dbl 0.3)))⌋ 2 = 2
      ∧ (now ≤ pickupTime - (AIScheduler.getMaxPrepTime items + 2) * 60000 →
          ((AIScheduler.checkSlotFeasibility (AIScheduler.constructor (some k)) z now pickupTime
              items activeOrders none).feasible = true
            ↔ ((activeOrders.filter fun o => decide (o.occupies
                    (pickupTime - (AIScheduler.getMaxPrepTime items + 2) * 60000)
                    pickupTime)).map
                  fun o => (o.items.map Item.quantity).sum).sum
                + AIScheduler.totalItemCount items ≤ 2))
      ∧ (∀ c : Option ℤ, k < 0 →
          now ≤ pickupTime - (AIScheduler.getMaxPrepTime items + 2) * 60000 →
          ((AIScheduler.checkSlotFeasibility (AIScheduler.constructor c) z now pickupTime
              items activeOrders (some k)).feasible = true
            ↔ ((activeOrders.filter fun o => decide (o.occupies
                    (pickupTime - (AIScheduler.getMaxPrepTime items + 2) * 60000)
                    pickupTime)).map
                  fun o => (o.items.map Item.quantity).sum).sum
                + AIScheduler.totalItemCount items ≤ 2)) := by
  obtain ⟨r0, r1⟩ := rushIntensityAt_range (z.getHours pickupTime) (z.getMinutes pickupTime)
  have hfac := factor_nonneg (r := AIScheduler.calculateRushIntensity z pickupTime) r0 r1
  have heff : AIScheduler.effectiveCapacity k (AIScheduler.calculateRushIntensity z pickupTime)
      ≤ 0 := by
    unfold AIScheduler.effectiveCapacity
    have hprod : (k : ℚ)
        * fl (1 - fl (AIScheduler.calculateRushIntensity z pickupTime * dbl 0.3)) ≤ 0 :=
      mul_nonpos_of_nonpos_of_nonneg (by exact_mod_cast hk) hfac
    have := fl_mono hprod
    rw [fl_zero] at this
    have h2 := Int.floor_mono this
    rw [Int.floor_zero] at h2
    exact h2
  have hmax : max (AIScheduler.effectiveCapacity k
      (AIScheduler.calculateRushIntensity z pickupTime)) 2 = 2 := max_eq_right (by omega)
  have hiff : ∀ c u : Option ℤ, AIScheduler.resolveCapacity (AIScheduler.constructor c) u = k →
      now ≤ pickupTime - (AIScheduler.getMaxPrepTime items + 2) * 60000 →
      ((AIScheduler.checkSlotFeasibility (AIScheduler.constructor c) z now pickupTime
          items activeOrders u).feasible = true
        ↔ ((activeOrders.filter fun o => decide (o.occupies
                (pickupTime - (AIScheduler.getMaxPrepTime items + 2) * 60000)
                pickupTime)).map
              fun o => (o.items.map Item.quantity).sum).sum
            + AIScheduler.totalItemCount items ≤ 2) := by
    intro c u hres ht
    rw [checkSlotFeasibility_cases_of, if_neg (not_lt.2 ht), hres, hmax,
      calculateKitchenLoad_eq_sum, getOrdersInWindow_eq_filter]
    split_ifs with h
    · simpa using h
    · simpa using h
  refine ⟨heff, hmax, hiff (some k) none rfl, ?_⟩
  intro c hneg
  apply hiff c (some k)
  simp only [AIScheduler.resolveCapacity, if_neg hneg.ne]

/-- A canteen of capacity 0 admits two items on an idle kitchen. -/
theorem checkSlotFeasibility_nonpositive_capacity_witness :
    (AIScheduler.checkSlotFeasibility (AIScheduler.constructor (some 0)) utc 0 1200000
        [⟨2, some 10⟩] [] none).feasible = true :=
  ((checkSlotFeasibility_nonpositive_capacity 0 utc 0 1200000 [⟨2, some 10⟩] []
    (by decide)).2.2.1 (by decide)).2 (by decide)

/-- C17: every result of `checkSlotFeasibility` populates exactly one of `scheduledPrepTime`
and `suggestedSlot`: `scheduledPrepTime` and `estimatedWait` are present and `suggestedSlot`
absent if and only if `feasible = true`; `suggestedSlot` is present and `scheduledPrepTime`
absent if and only if `feasible = false`. -/
theorem checkSlotFeasibility_exactly_one (this : AIScheduler) (z : Zone)
    (now pickupTime : Instant) (items : List Item) (activeOrders : List Order)
    (customCapacity : Option ℤ) :
    ((AIScheduler.checkSlotFeasibility this z now pickupTime items activeOrders
          customCapacity).feasible = true
        ↔ (AIScheduler.checkSlotFeasibility this z now pickupTime items activeOrders
            customCapacity).scheduledPrepTime.isSome = true
          ∧ (AIScheduler.checkSlotFeasibility this z now pickupTime items activeOrders
            customCapacity).estimatedWait.isSome = true
          ∧ (AIScheduler.checkSlotFeasibility this z now pickupTime items activeOrders
            customCapacity).suggestedSlot = none)
      ∧ ((AIScheduler.checkSlotFeasibility this z now pickupTime items activeOrders
          customCapacity).feasible = false
        ↔ (AIScheduler.checkSlotFeasibility this z now pickupTime items activeOrders
            customCapacity).suggestedSlot.isSome = true
          ∧ (AIScheduler.checkSlotFeasibility this z now pickupTime items activeOrders
            customCapacity).scheduledPrepTime = none)
      ∧ ((AIScheduler.checkSlotFeasibility this z now pickupTime items activeOrders
          customCapacity).scheduledPrepTime.isSome
        ≠ (AIScheduler.checkSlotFeasibility this z now pickupTime items activeOrders
          customCapacity).suggestedSlot.isSome) := by
  unfold AIScheduler.checkSlotFeasibility
  simp only
  split_ifs <;> simp


/-! ## Token validation -/

section Tokens

open QRService

theorem startsWith_iff (s p : String) : startsWith s p = true ↔ ∃ rest : String, s = p ++ rest := by
  unfold startsWith
  rw [List.isPrefixOf_iff_prefix]
  constructor
  · rintro ⟨t, ht⟩
    refine ⟨⟨t⟩, ?_⟩
    apply String.ext
    rw [String.data_append]
    exact ht.symm
  · rintro ⟨rest, rfl⟩
    exact ⟨rest.data, (String.data_append _ _).symm⟩

theorem validateToken_some (s : String) :
    validateToken (some s) =
      if s = "" then ⟨false, none⟩
      else if startsWith s "ORD-" then ⟨true, some "order"⟩
      else if startsWith s "CLM-" then ⟨true, some "claim"⟩
      else ⟨false, none⟩ := rfl

theorem startsWith_ne_empty (s p : String) (hp : p ≠ "") (h : startsWith s p = true) :
    s ≠ "" := by
  obtain ⟨rest, rfl⟩ := (startsWith_iff s p).1 h
  intro he
  have := congrArg String.data he
  rw [String.data_append] at this
  have hnil : p.data = [] := (List.append_eq_nil.1 this).1
  exact hp (String.ext hnil)

theorem not_startsWith_both (s : String) (h1 : startsWith s "ORD-" = true)
    (h2 : startsWith s "CLM-" = true) : False := by
  obtain ⟨r1, rfl⟩ := (startsWith_iff s "ORD-").1 h1
  obtain ⟨r2, h⟩ := (startsWith_iff _ "CLM-").1 h2
  have := congrArg (fun t : String => t.data.head?) h
  have e1 : ("ORD-" : String).data = ['O', 'R', 'D', '-'] := by decide
  have e2 : ("CLM-" : String).data = ['C', 'L', 'M', '-'] := by decide
  simp only [String.data_append, e1, e2, List.cons_append, List.head?_cons] at this
  exact absurd (Option.some.inj this) (by decide)

end Tokens

/-- C20: `QRService.validateToken` returns `{valid: true, type: 'order'}` exactly for the
strings that start with `ORD-`, `{valid: true, type: 'claim'}` exactly for the strings that
start with `CLM-`, and `{valid: false, type: null}` for every other input (the empty string, a
value that is not a string, any other beginning); `valid` is true if and only if `type` is not
null. -/
theorem validateToken_spec (token : Option String) :
    (QRService.validateToken token = ⟨true, some "order"⟩
        ↔ ∃ rest : String, token = some ("ORD-" ++ rest))
      ∧ (QRService.validateToken token = ⟨true, some "claim"⟩
        ↔ ∃ rest : String, token = some ("CLM-" ++ rest))
      ∧ ((¬ ∃ rest : String, token = some ("ORD-" ++ rest)) →
          (¬ ∃ rest : String, token = some ("CLM-" ++ rest)) →
          QRService.validateToken token = ⟨false, none⟩)
      ∧ QRService.validateToken none = ⟨false, none⟩
      ∧ QRService.validateToken (some "") = ⟨false, none⟩
      ∧ ((QRService.validateToken token).valid = true
        ↔ (QRService.validateToken token).type ≠ none) := by
  have hO : ("ORD-" : String) ≠ "" := by decide
  have hC : ("CLM-" : String) ≠ "" := by decide
  cases token with
  | none =>
    refine ⟨?_, ?_, fun _ _ => rfl, rfl, rfl, ?_⟩
    · constructor
      · intro h; exact absurd h (by decide)
      · rintro ⟨_, h⟩; exact absurd h (by simp)
    · constructor
      · intro h; exact absurd h (by decide)
      · rintro ⟨_, h⟩; exact absurd h (by simp)
    · decide
  | some s =>
    have hord : (∃ rest : String, some s = some ("ORD-" ++ rest))
        ↔ QRService.startsWith s "ORD-" = true := by
      rw [startsWith_iff]; simp
    have hclm : (∃ rest : String, some s = some ("CLM-" ++ rest))
        ↔ QRService.startsWith s "CLM-" = true := by
      rw [startsWith_iff]; simp
    rw [hord, hclm, validateToken_some]
    by_cases h1 : QRService.startsWith s "ORD-" = true
    · have hne := startsWith_ne_empty s _ hO h1
      have h2 : ¬ QRService.startsWith s "CLM-" = true := fun h => not_startsWith_both s h1 h
      simp [hne, h1, h2]
      decide
    · by_cases h2 : QRService.startsWith s "CLM-" = true
      · have hne := startsWith_ne_empty s _ hC h2
        simp [hne, h1, h2]
        decide
      · by_cases he : s = ""
        · simp [he, h1, h2]
          decide
        · simp [he, h1, h2]
          decide

/-- A claim token is recognised and a lower-case one is not. -/
theorem validateToken_spec_witness :
    QRService.validateToken (some "ord-1") = ⟨false, none⟩
      ∧ QRService.validateToken (some "CLM-K3") = ⟨true, some "claim"⟩ :=
  ⟨(validateToken_spec (some "ord-1")).2.2.1
      (fun ⟨r, h⟩ =>
        absurd ((startsWith_iff "ord-1" "ORD-").2 ⟨r, Option.some.inj h⟩) (by decide))
      (fun ⟨r, h⟩ =>
        absurd ((startsWith_iff "ord-1" "CLM-").2 ⟨r, Option.some.inj h⟩) (by decide)),
    (validateToken_spec (some "CLM-K3")).2.1.2 ⟨"K3", rfl⟩⟩

/-! ## Suggested slots -/

section Suggested

open AIScheduler

/-- The two outcomes of the slot search loop. -/
theorem findSlotLoop_cases (itemCount : ℤ) (activeOrders : List Order) (capacity : ℤ) (n : ℕ)
    (t0 : Instant) :
    (∃ k : ℕ, 1 ≤ k ∧ k ≤ n ∧ candidateFits t0 itemCount activeOrders capacity k
        ∧ (∀ j : ℕ, 1 ≤ j → j < k → ¬ candidateFits t0 itemCount activeOrders capacity j)
        ∧ findSlotLoop itemCount activeOrders capacity n t0
          = some ⟨candidateTime t0 k, candidateTime t0 k + 10 * 60000⟩)
      ∨ ((∀ j : ℕ, 1 ≤ j → j ≤ n → ¬ candidateFits t0 itemCount activeOrders capacity j)
        ∧ findSlotLoop itemCount activeOrders capacity n t0 = none) := by
  classical
  by_cases hex : ∃ k : ℕ, 1 ≤ k ∧ k ≤ n ∧ candidateFits t0 itemCount activeOrders capacity k
  · left
    have hmin : ∀ j : ℕ, 1 ≤ j → j < Nat.find hex →
        ¬ candidateFits t0 itemCount activeOrders capacity j := by
      intro j hj1 hjk hfit
      exact Nat.find_min hex hjk
        ⟨hj1, le_trans (le_of_lt hjk) (Nat.find_spec hex).2.1, hfit⟩
    exact ⟨Nat.find hex, (Nat.find_spec hex).1, (Nat.find_spec hex).2.1,
      (Nat.find_spec hex).2.2, hmin,
      findSlotLoop_first itemCount activeOrders capacity n t0 (Nat.find hex)
        (Nat.find_spec hex).1 (Nat.find_spec hex).2.1 (Nat.find_spec hex).2.2 hmin⟩
  · right
    have hall : ∀ j : ℕ, 1 ≤ j → j ≤ n →
        ¬ candidateFits t0 itemCount activeOrders capacity j :=
      fun j h1 h2 hfit => hex ⟨j, h1, h2, hfit⟩
    exact ⟨hall, findSlotLoop_none itemCount activeOrders capacity n t0 hall⟩

/-- The slot returned by the search: a candidate that passes the test, or the fallback after
twelve failures. -/
theorem findNextAvailableSlot_cases (requestedTime : Instant) (itemCount : ℤ)
    (activeOrders : List Order) (capacity : ℤ) :
    (∃ k : ℕ, 1 ≤ k ∧ k ≤ 12
        ∧ candidateFits requestedTime itemCount activeOrders capacity k
        ∧ findNextAvailableSlot requestedTime itemCount activeOrders capacity
          = ⟨candidateTime requestedTime k, candidateTime requestedTime k + 10 * 60000⟩)
      ∨ ((∀ j : ℕ, 1 ≤ j → j ≤ 12 →
          ¬ candidateFits requestedTime itemCount activeOrders capacity j)
        ∧ findNextAvailableSlot requestedTime itemCount activeOrders capacity
          = ⟨requestedTime + 120 * 60000, requestedTime + 130 * 60000⟩) := by
  unfold findNextAvailableSlot
  rcases findSlotLoop_cases itemCount activeOrders capacity 12 requestedTime with
    ⟨k, h1, h2, h3, _, h5⟩ | ⟨h1, h2⟩
  · left
    exact ⟨k, h1, h2, h3, by rw [h5]⟩
  · right
    exact ⟨h1, by rw [h2]⟩

theorem items_sum_nonneg (o : Order) (h : ∀ i ∈ o.items, 0 ≤ i.quantity) :
    0 ≤ (o.items.map Item.quantity).sum := by
  apply List.sum_nonneg
  intro x hx
  obtain ⟨i, hi, rfl⟩ := List.mem_map.1 hx
  exact h i hi

/-- With quantities that are not negative every load is not negative. -/
theorem calculateKitchenLoad_nonneg (orders : List Order)
    (h : ∀ o ∈ orders, ∀ i ∈ o.items, 0 ≤ i.quantity) : 0 ≤ calculateKitchenLoad orders := by
  rw [calculateKitchenLoad_eq_sum]
  apply List.sum_nonneg
  intro x hx
  obtain ⟨o, ho, rfl⟩ := List.mem_map.1 hx
  exact items_sum_nonneg o (h o ho)

theorem window_load_nonneg (orders : List Order)
    (h : ∀ o ∈ orders, ∀ i ∈ o.items, 0 ≤ i.quantity) (startTime endTime : Instant) :
    0 ≤ calculateKitchenLoad (getOrdersInWindow orders startTime endTime) := by
  apply calculateKitchenLoad_nonneg
  intro o ho
  rw [getOrdersInWindow_eq_filter] at ho
  exact h o (List.mem_of_mem_filter ho)

/-- A window that starts later, with the same end, holds no more load. -/
theorem window_load_mono (orders : List Order)
    (h : ∀ o ∈ orders, ∀ i ∈ o.items, 0 ≤ i.quantity) (s1 s2 endTime : Instant)
    (hs : s1 ≤ s2) :
    calculateKitchenLoad (getOrdersInWindow orders s2 endTime)
      ≤ calculateKitchenLoad (getOrdersInWindow orders s1 endTime) := by
  rw [calculateKitchenLoad_eq_sum, calculateKitchenLoad_eq_sum, getOrdersInWindow_eq_filter,
    getOrdersInWindow_eq_filter]
  induction orders with
  | nil => simp
  | cons o l ih =>
    have ih2 := ih (fun o2 ho2 => h o2 (List.mem_cons_of_mem _ ho2))
    have hnn := items_sum_nonneg o (h o (List.mem_cons_self _ _))
    have himp : o.occupies s2 endTime → o.occupies s1 endTime := by
      rintro ⟨p, hp, h1, h2⟩
      exact ⟨p, hp, h1, lt_of_le_of_lt hs h2⟩
    simp only [List.filter_cons]
    by_cases h2 : o.occupies s2 endTime
    · have h1 := himp h2
      simp only [h1, h2, decide_True, if_true, List.map_cons, List.sum_cons]
      linarith
    · by_cases h1 : o.occupies s1 endTime
      · simp only [h1, h2, decide_True, decide_False, if_true, List.map_cons, List.sum_cons]
        simp only [Bool.false_eq_true, if_false]
        linarith
      · simp only [h1, h2, decide_False, Bool.false_eq_true, if_false]
        exact ih2

/-- The binary64 factor `1 - r * 0.3` does not grow with the intensity. -/
theorem factor_antitone {r1 r2 : ℚ} (h : r1 ≤ r2) :
    fl (1 - fl (r2 * dbl 0.3)) ≤ fl (1 - fl (r1 * dbl 0.3)) := by
  have hd : 0 ≤ dbl 0.3 := (dbl_unit_range (q := 0.3) (by norm_num) (by norm_num)).1
  have := fl_mono (mul_le_mul_of_nonneg_right h hd)
  exact fl_mono (by linarith)

theorem effectiveCapacity_antitone {c : ℤ} {r1 r2 : ℚ} (hc : 0 ≤ c) (h : r1 ≤ r2) :
    effectiveCapacity c r2 ≤ effectiveCapacity c r1 := by
  unfold effectiveCapacity
  apply Int.floor_mono
  apply fl_mono
  exact mul_le_mul_of_nonneg_left (factor_antitone h) (by exact_mod_cast hc)

end Suggested

/-- C22: for every input the slot returned by `findNextAvailableSlot` starts at
`requestedTime + 10 k min` for some `k` with `1 ≤ k ≤ 12` and ends 10 minutes after its start,
so the requested time itself is never returned; and when the loop finds nothing, the fallback
slot starts at the 12th candidate, which has failed the load test. -/
theorem findNextAvailableSlot_shape (requestedTime : Instant) (itemCount : ℤ)
    (activeOrders : List Order) (capacity : ℤ) :
    (∃ k : ℕ, 1 ≤ k ∧ k ≤ 12
        ∧ (AIScheduler.findNextAvailableSlot requestedTime itemCount activeOrders capacity).start
          = requestedTime + k * (10 * 60000))
      ∧ (AIScheduler.findNextAvailableSlot requestedTime itemCount activeOrders capacity).end_
        = (AIScheduler.findNextAvailableSlot requestedTime itemCount activeOrders capacity).start
          + 10 * 60000
      ∧ requestedTime
        < (AIScheduler.findNextAvailableSlot requestedTime itemCount activeOrders capacity).start
      ∧ (AIScheduler.findSlotLoop itemCount activeOrders capacity 12 requestedTime = none →
          (AIScheduler.findNextAvailableSlot requestedTime itemCount activeOrders capacity).start
              = requestedTime + 12 * (10 * 60000)
            ∧ ¬ candidateFits requestedTime itemCount activeOrders capacity 12) := by
  have hshape : ∃ k : ℕ, 1 ≤ k ∧ k ≤ 12
      ∧ (AIScheduler.findNextAvailableSlot requestedTime itemCount activeOrders capacity).start
        = requestedTime + k * (10 * 60000)
      ∧ (AIScheduler.findNextAvailableSlot requestedTime itemCount activeOrders capacity).end_
        = (AIScheduler.findNextAvailableSlot requestedTime itemCount activeOrders capacity).start
          + 10 * 60000 := by
    rcases findNextAvailableSlot_cases requestedTime itemCount activeOrders capacity with
      ⟨k, h1, h2, _, h4⟩ | ⟨_, h2⟩
    · exact ⟨k, h1, h2, by rw [h4]; rfl, by rw [h4]⟩
    · refine ⟨12, by norm_num, by norm_num, by rw [h2]; norm_num, ?_⟩
      rw [h2]
      show requestedTime + 130 * 60000 = requestedTime + 120 * 60000 + 10 * 60000
      ring
  obtain ⟨k, h1, h2, h3, h4⟩ := hshape
  refine ⟨⟨k, h1, h2, h3⟩, h4, ?_, ?_⟩
  · rw [h3]
    have : (1 : ℤ) ≤ k := by exact_mod_cast h1
    linarith
  · intro hnone
    rcases findSlotLoop_cases itemCount activeOrders capacity 12 requestedTime with
      ⟨k, _, _, _, _, h5⟩ | ⟨hall, _⟩
    · rw [hnone] at h5; exact absurd h5 (by simp)
    · refine ⟨?_, hall 12 (by norm_num) (le_refl 12)⟩
      unfold AIScheduler.findNextAvailableSlot
      rw [hnone]
      show requestedTime + 120 * 60000 = requestedTime + 12 * (10 * 60000)
      ring

/-- A request of three items against a capacity of two runs out of candidates: the fallback
starts at the 12th candidate. -/
theorem findNextAvailableSlot_shape_witness :
    (AIScheduler.findNextAvailableSlot 0 3 [] 2).start = 0 + 12 * (10 * 60000)
      ∧ ¬ candidateFits 0 3 [] 2 12 :=
  (findNextAvailableSlot_shape 0 3 [] 2).2.2.2 (by decide)


section Fallback

open AIScheduler

theorem effectiveCapacity_nonpos {k : ℤ} {r : ℚ} (hk : k ≤ 0) (h0 : 0 ≤ r) (h1 : r ≤ 1) :
    effectiveCapacity k r ≤ 0 := by
  unfold effectiveCapacity
  have hprod : (k : ℚ) * fl (1 - fl (r * dbl 0.3)) ≤ 0 :=
    mul_nonpos_of_nonpos_of_nonneg (by exact_mod_cast hk) (factor_nonneg h0 h1)
  have := fl_mono hprod
  rw [fl_zero] at this
  have h2 := Int.floor_mono this
  rw [Int.floor_zero] at h2
  exact h2

theorem effectiveCapacity_zero (r : ℚ) : effectiveCapacity 0 r = 0 := by
  unfold effectiveCapacity
  simp [fl_zero]

/-- An item count above the capacity fails at every candidate. -/
theorem fallback_of_lt (requestedTime : Instant) (itemCount capacity : ℤ)
    (activeOrders : List Order) (hq : ∀ o ∈ activeOrders, ∀ i ∈ o.items, 0 ≤ i.quantity)
    (h : capacity < itemCount) :
    findNextAvailableSlot requestedTime itemCount activeOrders capacity
      = ⟨requestedTime + 120 * 60000, requestedTime + 130 * 60000⟩ := by
  rcases findNextAvailableSlot_cases requestedTime itemCount activeOrders capacity with
    ⟨k, _, _, h3, _⟩ | ⟨_, h2⟩
  · exfalso
    unfold candidateFits at h3
    have := window_load_nonneg activeOrders hq (candidateTime requestedTime k - 15 * 60000)
      (candidateTime requestedTime k)
    linarith
  · exact h2

/-- The suggested slot of a capacity rejection. -/
theorem suggestedSlot_of_rejected (k : ℤ) (z : Zone) (now pickupTime : Instant)
    (items : List Item) (activeOrders : List Order)
    (ht : now ≤ pickupTime - (getMaxPrepTime items + 2) * 60000)
    (hrej : (checkSlotFeasibility (AIScheduler.constructor (some k)) z now pickupTime items
      activeOrders none).feasible = false) :
    (checkSlotFeasibility (AIScheduler.constructor (some k)) z now pickupTime items
        activeOrders none).suggestedSlot
      = some (findNextAvailableSlot pickupTime (totalItemCount items) activeOrders
        (effectiveCapacity k (calculateRushIntensity z pickupTime))) := by
  rw [checkSlotFeasibility_cases, if_neg (not_lt.2 ht)] at hrej ⊢
  split_ifs at hrej ⊢ with h
  rfl

end Fallback

/-- C23: with active-order quantities that are not negative, an item count above the capacity
makes `findNextAvailableSlot` return the fallback `[requestedTime + 120 min, requestedTime +
130 min)`; so a capacity-rejected order whose `totalItemCount` exceeds the effective capacity,
in particular one with `kitchenCapacity ≤ 0` and `totalItemCount ≥ 1`, is suggested the 2-hour
fallback, even where the threshold floor of 2 would admit it: with capacity 0, two items are
rejected at minute 20 behind a one-item order, are sent to minute 140, and would be feasible at
minute 30. -/
theorem findNextAvailableSlot_over_capacity (requestedTime : Instant) (itemCount capacity : ℤ)
    (activeOrders : List Order) (hq : ∀ o ∈ activeOrders, ∀ i ∈ o.items, 0 ≤ i.quantity) :
    (capacity < itemCount →
        AIScheduler.findNextAvailableSlot requestedTime itemCount activeOrders capacity
          = ⟨requestedTime + 120 * 60000, requestedTime + 130 * 60000⟩)
      ∧ (∀ (k : ℤ) (z : Zone) (now pickupTime : Instant) (items : List Item),
          now ≤ pickupTime - (AIScheduler.getMaxPrepTime items + 2) * 60000 →
          (AIScheduler.checkSlotFeasibility (AIScheduler.constructor (some k)) z now pickupTime
            items activeOrders none).feasible = false →
          ⌊fl ((k : ℚ) * fl (1 - fl (AIScheduler.calculateRushIntensity z pickupTime
            * dbl 0.3)))⌋ < AIScheduler.totalItemCount items →
          (AIScheduler.checkSlotFeasibility (AIScheduler.constructor (some k)) z now pickupTime
            items activeOrders none).suggestedSlot
            = some ⟨pickupTime + 120 * 60000, pickupTime + 130 * 60000⟩)
      ∧ (∀ (k : ℤ) (z : Zone) (now pickupTime : Instant) (items : List Item),
          now ≤ pickupTime - (AIScheduler.getMaxPrepTime items + 2) * 60000 →
          (AIScheduler.checkSlotFeasibility (AIScheduler.constructor (some k)) z now pickupTime
            items activeOrders none).feasible = false →
          k ≤ 0 → 1 ≤ AIScheduler.totalItemCount items →
          (AIScheduler.checkSlotFeasibility (AIScheduler.constructor (some k)) z now pickupTime
            items activeOrders none).suggestedSlot
            = some ⟨pickupTime + 120 * 60000, pickupTime + 130 * 60000⟩)
      ∧ (∀ z : Zone,
          (AIScheduler.checkSlotFeasibility (AIScheduler.constructor (some 0)) z 0 1200000
              [⟨2, some 10⟩] [⟨"a", [⟨1, some 10⟩], "confirmed", ⟨0, 600000⟩, some 0⟩]
              none).feasible = false
            ∧ (AIScheduler.checkSlotFeasibility (AIScheduler.constructor (some 0)) z 0 1200000
              [⟨2, some 10⟩] [⟨"a", [⟨1, some 10⟩], "confirmed", ⟨0, 600000⟩, some 0⟩]
              none).suggestedSlot = some ⟨8400000, 9000000⟩
            ∧ (AIScheduler.checkSlotFeasibility (AIScheduler.constructor (some 0)) z 0 1800000
              [⟨2, some 10⟩] [⟨"a", [⟨1, some 10⟩], "confirmed", ⟨0, 600000⟩, some 0⟩]
              none).feasible = true) := by
  have hgen : ∀ (orders : List Order), (∀ o ∈ orders, ∀ i ∈ o.items, 0 ≤ i.quantity) →
      ∀ (k : ℤ) (z : Zone) (now pickupTime : Instant) (items : List Item),
      now ≤ pickupTime - (AIScheduler.getMaxPrepTime items + 2) * 60000 →
      (AIScheduler.checkSlotFeasibility (AIScheduler.constructor (some k)) z now pickupTime
        items orders none).feasible = false →
      AIScheduler.effectiveCapacity k (AIScheduler.calculateRushIntensity z pickupTime)
        < AIScheduler.totalItemCount items →
      (AIScheduler.checkSlotFeasibility (AIScheduler.constructor (some k)) z now pickupTime
        items orders none).suggestedSlot
        = some ⟨pickupTime + 120 * 60000, pickupTime + 130 * 60000⟩ := by
    intro orders hq2 k z now pickupTime items ht hrej hlt
    rw [suggestedSlot_of_rejected k z now pickupTime items orders ht hrej,
      fallback_of_lt pickupTime _ _ orders hq2 hlt]
  refine ⟨fallback_of_lt requestedTime itemCount capacity activeOrders hq,
    fun k z now pickupTime items ht hrej hlt =>
      hgen activeOrders hq k z now pickupTime items ht hrej hlt, ?_, ?_⟩
  · intro k z now pickupTime items ht hrej hk hcount
    obtain ⟨r0, r1⟩ := rushIntensityAt_range (z.getHours pickupTime) (z.getMinutes pickupTime)
    have heff := effectiveCapacity_nonpos (r := AIScheduler.calculateRushIntensity z pickupTime)
      hk r0 r1
    exact hgen activeOrders hq k z now pickupTime items ht hrej (by omega)
  · intro z
    have hrej : (AIScheduler.checkSlotFeasibility (AIScheduler.constructor (some 0)) z 0 1200000
        [⟨2, some 10⟩] [⟨"a", [⟨1, some 10⟩], "confirmed", ⟨0, 600000⟩, some 0⟩]
        none).feasible = false := by
      rw [checkSlotFeasibility_cases, if_neg (by decide), effectiveCapacity_zero,
        if_neg (by decide)]
    have hsug := hgen [⟨"a", [⟨1, some 10⟩], "confirmed", ⟨0, 600000⟩, some 0⟩] (by decide)
      0 z 0 1200000 [⟨2, some 10⟩] (by decide) hrej
      (by rw [effectiveCapacity_zero]; decide)
    refine ⟨hrej, ?_, ?_⟩
    · rw [hsug]; rfl
    · rw [checkSlotFeasibility_cases, if_neg (by decide), effectiveCapacity_zero,
        if_pos (by decide)]

/-- Five items never fit a search capacity of three: the fallback two hours later. -/
theorem findNextAvailableSlot_over_capacity_witness :
    AIScheduler.findNextAvailableSlot 43200000 5 busyNoonOrders 3
      = ⟨43200000 + 120 * 60000, 43200000 + 130 * 60000⟩ :=
  (findNextAvailableSlot_over_capacity 43200000 5 3 busyNoonOrders (by decide)).1 (by decide)

/-- C21: when a request is rejected for capacity and the start `t` of its suggested slot
passes the load test of `findNextAvailableSlot`, then, if `maxPrepTime ≤ 13`, the active-order
quantities are not negative, `kitchenCapacity ≥ 0` and the rush intensity at `t` is at most the
one at `pickupTime`, `checkSlotFeasibility` called with `pickupTime = t` and the same items,
active orders, capacity and `now` returns `feasible = true`. -/
theorem checkSlotFeasibility_resubmit_suggested (k : ℤ) (z : Zone) (now pickupTime : Instant)
    (items : List Item) (activeOrders : List Order) (s : Slot)
    (ht : now ≤ pickupTime - (AIScheduler.getMaxPrepTime items + 2) * 60000)
    (hrej : (AIScheduler.checkSlotFeasibility (AIScheduler.constructor (some k)) z now
      pickupTime items activeOrders none).feasible = false)
    (hs : (AIScheduler.checkSlotFeasibility (AIScheduler.constructor (some k)) z now
      pickupTime items activeOrders none).suggestedSlot = some s)
    (hfit : AIScheduler.calculateKitchenLoad
        (AIScheduler.getOrdersInWindow activeOrders (s.start - 15 * 60000) s.start)
      + AIScheduler.totalItemCount items
      ≤ ⌊fl ((k : ℚ) * fl (1 - fl (AIScheduler.calculateRushIntensity z pickupTime
        * dbl 0.3)))⌋)
    (hmp : AIScheduler.getMaxPrepTime items ≤ 13)
    (hq : ∀ o ∈ activeOrders, ∀ i ∈ o.items, 0 ≤ i.quantity)
    (hk : 0 ≤ k)
    (hr : AIScheduler.calculateRushIntensity z s.start
      ≤ AIScheduler.calculateRushIntensity z pickupTime) :
    (AIScheduler.checkSlotFeasibility (AIScheduler.constructor (some k)) z now s.start items
      activeOrders none).feasible = true := by
  have hslot := suggestedSlot_of_rejected k z now pickupTime items activeOrders ht hrej
  rw [hs] at hslot
  have hse := Option.some.inj hslot
  have hstart : pickupTime ≤ s.start := by
    rw [hse]
    rcases findNextAvailableSlot_cases pickupTime (AIScheduler.totalItemCount items) activeOrders
      (AIScheduler.effectiveCapacity k (AIScheduler.calculateRushIntensity z pickupTime)) with
      ⟨j, _, _, _, h4⟩ | ⟨_, h2⟩
    · rw [h4]
      show pickupTime ≤ pickupTime + (j : ℤ) * (10 * 60000)
      have : (0 : ℤ) ≤ j := by positivity
      nlinarith
    · rw [h2]
      show pickupTime ≤ pickupTime + 120 * 60000
      linarith
  have hwin := window_load_mono activeOrders hq (s.start - 15 * 60000)
    (s.start - (AIScheduler.getMaxPrepTime items + 2) * 60000) s.start (by linarith)
  have heff := effectiveCapacity_antitone (c := k) hk hr
  have hfit2 : AIScheduler.calculateKitchenLoad
        (AIScheduler.getOrdersInWindow activeOrders (s.start - 15 * 60000) s.start)
      + AIScheduler.totalItemCount items
      ≤ AIScheduler.effectiveCapacity k (AIScheduler.calculateRushIntensity z pickupTime) :=
    hfit
  rw [checkSlotFeasibility_cases, if_neg (by linarith),
    if_pos (le_trans (by linarith) (le_max_left _ _))]

/-- At noon with capacity 5, two items behind four one-item orders are sent to 12:30, and
resubmitted at 12:30 they are admitted. -/
theorem checkSlotFeasibility_resubmit_suggested_witness :
    (AIScheduler.checkSlotFeasibility (AIScheduler.constructor (some 5)) utc 0 45000000
      [⟨2, some 10⟩] busyNoonOrders none).feasible = true := by
  have hnoon := calculateRushIntensity_of_noon utc 43200000 (by decide) (by decide)
  have heff := effectiveCapacity_five_peak
  have hc := checkSlotFeasibility_cases 5 utc 0 43200000 [⟨2, some 10⟩] busyNoonOrders
  have hload : AIScheduler.calculateKitchenLoad (AIScheduler.getOrdersInWindow busyNoonOrders
      (43200000 - (AIScheduler.getMaxPrepTime [⟨2, some 10⟩] + 2) * 60000) 43200000) = 4 := by
    decide
  have hcount : AIScheduler.totalItemCount [⟨2, some 10⟩] = 2 := by decide
  have hfind : AIScheduler.findNextAvailableSlot 43200000 2 busyNoonOrders 3
      = ⟨45000000, 45600000⟩ := by decide
  rw [if_neg (by decide), hload, hcount, hnoon, heff, if_neg (by decide), hfind] at hc
  have hint : AIScheduler.calculateRushIntensity utc 45000000 = 1 := by
    unfold AIScheduler.calculateRushIntensity
    have hH : utc.getHours 45000000 = 12 := by decide
    have hM : utc.getMinutes 45000000 = 30 := by decide
    rw [hH, hM, rushIntensityAt_exact 12 30 (by norm_num) (by norm_num)]
    norm_num
  have heff2 : ⌊fl (((5 : ℤ) : ℚ) * fl (1 - fl (1 * dbl 0.3)))⌋ = 3 := heff
  exact checkSlotFeasibility_resubmit_suggested 5 utc 0 43200000 [⟨2, some 10⟩] busyNoonOrders
    ⟨45000000, 45600000⟩ (by decide) (by rw [hc]) (by rw [hc])
    (by rw [hnoon, heff2]; decide) (by decide) (by decide) (by decide)
    (by rw [hint, hnoon])

/-- C24: in `checkSlotFeasibility` a `customCapacity` of 0, like an absent one, is ignored and
the constructor's `kitchenCapacity` is used: for a scheduler constructed with capacity `k` the
call with `customCapacity = 0` returns the same result as the call with `customCapacity = k`
and as the call without a custom capacity; every non-zero `customCapacity` overrides the
constructor value. -/
theorem checkSlotFeasibility_custom_zero (k : ℤ) (z : Zone) (now pickupTime : Instant)
    (items : List Item) (activeOrders : List Order) :
    AIScheduler.resolveCapacity (AIScheduler.constructor (some k)) (some 0) = k
      ∧ AIScheduler.checkSlotFeasibility (AIScheduler.constructor (some k)) z now pickupTime
          items activeOrders (some 0)
        = AIScheduler.checkSlotFeasibility (AIScheduler.constructor (some k)) z now pickupTime
          items activeOrders (some k)
      ∧ AIScheduler.checkSlotFeasibility (AIScheduler.constructor (some k)) z now pickupTime
          items activeOrders (some 0)
        = AIScheduler.checkSlotFeasibility (AIScheduler.constructor (some k)) z now pickupTime
          items activeOrders none
      ∧ (∀ (k2 : Option ℤ) (c : ℤ), c ≠ 0 →
          AIScheduler.resolveCapacity (AIScheduler.constructor k2) (some c) = c
            ∧ AIScheduler.checkSlotFeasibility (AIScheduler.constructor k2) z now pickupTime
                items activeOrders (some c)
              = AIScheduler.checkSlotFeasibility (AIScheduler.constructor (some c)) z now
                pickupTime items activeOrders none) := by
  have h0 : AIScheduler.resolveCapacity (AIScheduler.constructor (some k)) (some 0) = k := rfl
  have hk : AIScheduler.resolveCapacity (AIScheduler.constructor (some k)) (some k) = k := by
    simp [AIScheduler.resolveCapacity, AIScheduler.constructor]
  have hn : ∀ c : ℤ, AIScheduler.resolveCapacity (AIScheduler.constructor (some c)) none = c :=
    fun _ => rfl
  refine ⟨h0, ?_, ?_, ?_⟩
  · rw [checkSlotFeasibility_cases_of, checkSlotFeasibility_cases_of, h0, hk]
  · rw [checkSlotFeasibility_cases_of, checkSlotFeasibility_cases_of, h0, hn]
  · intro k2 c hc
    have hc2 : AIScheduler.resolveCapacity (AIScheduler.constructor k2) (some c) = c := by
      simp [AIScheduler.resolveCapacity, hc]
    refine ⟨hc2, ?_⟩
    rw [checkSlotFeasibility_cases_of, checkSlotFeasibility_cases_of, hc2, hn]

/-- A scheduler built for capacity 5 and called with the custom capacity 20 answers as a
scheduler built for capacity 20. -/
theorem checkSlotFeasibility_custom_zero_witness :
    AIScheduler.checkSlotFeasibility (AIScheduler.constructor (some 5)) utc 0 43200000
        [⟨2, some 10⟩] busyNoonOrders (some 20)
      = AIScheduler.checkSlotFeasibility (AIScheduler.constructor (some 20)) utc 0 43200000
        [⟨2, some 10⟩] busyNoonOrders none :=
  ((checkSlotFeasibility_custom_zero 5 utc 0 43200000 [⟨2, some 10⟩] busyNoonOrders).2.2.2
    (some 5) 20 (by decide)).2

/-- C25: after a too-soon rejection, the suggested slot start `now + (maxPrepTime + 2) min`
resubmitted as `pickupTime` with the same items and the same `now` has the required start time
`now`, which is not before `now`: the capacity check is made; with no overlapping active
orders and `totalItemCount ≤ 2` the resubmission is feasible. -/
theorem checkSlotFeasibility_resubmit_too_soon (k customCapacity : Option ℤ) (z : Zone)
    (now pickupTime : Instant) (items : List Item) (activeOrders : List Order)
    (hsoon : pickupTime - (AIScheduler.getMaxPrepTime items + 2) * 60000 < now) :
    (∃ s : Slot,
        (AIScheduler.checkSlotFeasibility (AIScheduler.constructor k) z now pickupTime items
          activeOrders customCapacity).suggestedSlot = some s
        ∧ s.start = now + (AIScheduler.getMaxPrepTime items + 2) * 60000
        ∧ AIScheduler.calculatePrepStartTime (AIScheduler.constructor k) s.start
            (AIScheduler.getMaxPrepTime items) = now
        ∧ ¬ (AIScheduler.calculatePrepStartTime (AIScheduler.constructor k) s.start
            (AIScheduler.getMaxPrepTime items) < now)
        ∧ (AIScheduler.checkSlotFeasibility (AIScheduler.constructor k) z now s.start items
            activeOrders customCapacity).currentLoad
          = some (AIScheduler.calculateKitchenLoad
            (AIScheduler.getOrdersInWindow activeOrders now s.start))
        ∧ (AIScheduler.getOrdersInWindow activeOrders now s.start = [] →
            AIScheduler.totalItemCount items ≤ 2 →
            (AIScheduler.checkSlotFeasibility (AIScheduler.constructor k) z now s.start items
              activeOrders customCapacity).feasible = true)) := by
  refine ⟨⟨now + (AIScheduler.getMaxPrepTime items + 2) * 60000,
    now + (AIScheduler.getMaxPrepTime items + 2) * 60000 + 10 * 60000⟩, ?_, rfl, ?_, ?_, ?_⟩
  · rw [checkSlotFeasibility_cases_of, if_pos hsoon]
  · show now + (AIScheduler.getMaxPrepTime items + 2) * 60000
      - (AIScheduler.getMaxPrepTime items + 2) * 60000 = now
    ring
  · show ¬ (now + (AIScheduler.getMaxPrepTime items + 2) * 60000
      - (AIScheduler.getMaxPrepTime items + 2) * 60000 < now)
    intro h
    linarith
  · have hreq : now + (AIScheduler.getMaxPrepTime items + 2) * 60000
        - (AIScheduler.getMaxPrepTime items + 2) * 60000 = now := by ring
    show (AIScheduler.checkSlotFeasibility (AIScheduler.constructor k) z now
        (now + (AIScheduler.getMaxPrepTime items + 2) * 60000) items activeOrders
        customCapacity).currentLoad = _ ∧ _
    rw [checkSlotFeasibility_cases_of, hreq, if_neg (lt_irrefl now)]
    refine ⟨?_, ?_⟩
    · split_ifs <;> rfl
    · intro hnone hcount
      rw [hnone]
      have : AIScheduler.calculateKitchenLoad [] = 0 := rfl
      rw [this, if_pos (le_trans (by linarith) (le_max_right _ _))]

/-- The too-soon request of scenario B, resubmitted at the suggested minute 12. -/
theorem checkSlotFeasibility_resubmit_too_soon_witness :
    ∃ s : Slot,
      (AIScheduler.checkSlotFeasibility (AIScheduler.constructor (some 5)) utc 0 300000
          [⟨1, some 10⟩] [] none).suggestedSlot = some s
        ∧ s.start = 720000
        ∧ (AIScheduler.checkSlotFeasibility (AIScheduler.constructor (some 5)) utc 0 s.start
            [⟨1, some 10⟩] [] none).feasible = true := by
  obtain ⟨s, h1, h2, _, _, _, h6⟩ := checkSlotFeasibility_resubmit_too_soon (some 5) none utc 0
    300000 [⟨1, some 10⟩] [] (by decide)
  exact ⟨s, h1, by rw [h2]; decide, h6 rfl (by decide)⟩

/-- C27: for `intervalMinutes = 10` and every `now`, `generateTimeSlots` returns and every slot
start it produces is congruent to 5 minutes modulo 10 minutes, counted from the epoch: no
slot starts on a 10-minute boundary, as the 15 minute buffer is added after rounding up to
one. -/
theorem generateTimeSlots_start_mod (z : Zone) (now : Instant) (hours : ℤ) :
    ∃ slots, AIScheduler.generateTimeSlots z now hours 10 = some slots
      ∧ ∀ s ∈ slots, s.start % (10 * 60000) = 5 * 60000 ∧ ¬ (10 * 60000 ∣ s.start) := by
  refine ⟨_, generateTimeSlots_of_ne_zero z now hours 10 (by norm_num), ?_⟩
  intro s hs
  obtain ⟨i, _, rfl⟩ := List.mem_map.1 hs
  obtain ⟨k, hk⟩ := z.setMinutes_shift
    (⌈fl ((now : ℚ) / ((10 * 60000 : ℤ) : ℚ))⌉ * (10 * 60000))
    ((z.getMinutes (⌈fl ((now : ℚ) / ((10 * 60000 : ℤ) : ℚ))⌉ * (10 * 60000)) : ℤ) + 15)
  have e : z.setMinutes (⌈fl ((now : ℚ) / ((10 * 60000 : ℤ) : ℚ))⌉ * (10 * 60000))
        ((z.getMinutes (⌈fl ((now : ℚ) / ((10 * 60000 : ℤ) : ℚ))⌉ * (10 * 60000)) : ℤ) + 15)
      + (i : ℤ) * 10 * 60000
      = 5 * 60000
        + (10 * 60000) * (⌈fl ((now : ℚ) / ((10 * 60000 : ℤ) : ℚ))⌉ + 1 + k + i) := by
    linarith
  have hmod : (z.setMinutes (⌈fl ((now : ℚ) / ((10 * 60000 : ℤ) : ℚ))⌉ * (10 * 60000))
        ((z.getMinutes (⌈fl ((now : ℚ) / ((10 * 60000 : ℤ) : ℚ))⌉ * (10 * 60000)) : ℤ) + 15)
      + (i : ℤ) * 10 * 60000) % (10 * 60000) = 5 * 60000 := by
    rw [e, Int.add_mul_emod_self_left]
    norm_num
  refine ⟨hmod, ?_⟩
  intro hdvd
  have h2 : (z.setMinutes (⌈fl ((now : ℚ) / ((10 * 60000 : ℤ) : ℚ))⌉ * (10 * 60000))
        ((z.getMinutes (⌈fl ((now : ℚ) / ((10 * 60000 : ℤ) : ℚ))⌉ * (10 * 60000)) : ℤ) + 15)
      + (i : ℤ) * 10 * 60000) % (10 * 60000) = 0 := Int.emod_eq_zero_of_dvd hdvd
  rw [hmod] at h2
  norm_num at h2

/-- The 24 default slots generated one second after the epoch all start 5 minutes past a
10-minute boundary. -/
theorem generateTimeSlots_start_mod_witness :
    ∃ slots, AIScheduler.generateTimeSlots utc 1000 4 10 = some slots
      ∧ ∀ s ∈ slots, s.start % (10 * 60000) = 5 * 60000 ∧ ¬ (10 * 60000 ∣ s.start) :=
  generateTimeSlots_start_mod utc 1000 4

/-! ## Bounds on the effective capacity -/

section CapacityBounds

open AIScheduler

theorem roundNE_tie_odd (k : ℤ) (hk : k % 2 = 1) : roundNE ((k : ℚ) + 1 / 2) = k + 1 := by
  have hf : ⌊(k : ℚ) + 1 / 2⌋ = k := by
    rw [Int.floor_eq_iff]; constructor <;> linarith
  unfold roundNE
  simp only [hf]
  rw [if_neg (by norm_num), if_neg (by norm_num), if_neg (by omega)]

theorem fl_eval (x : ℚ) (e k : ℤ) (v : ℚ) (h1 : (2 : ℚ) ^ e ≤ |x|)
    (h2 : |x| < (2 : ℚ) ^ (e + 1)) (hk : roundNE (x / 2 ^ (e - 52)) = k)
    (hv : (k : ℚ) * 2 ^ (e - 52) = v) : fl x = v := by
  rw [fl_eq e k h1 h2 hk, hv]

/-- The binary64 products `10 j * (1 - 1.0 * 0.3)` for `j = 1, ..., 8` round to `7 j`. -/
theorem fl_ten_multiples (j : ℤ) (h1 : 1 ≤ j) (h8 : j ≤ 8) :
    fl ((j : ℚ) * 10 * (6305039478318694 / 2 ^ 53)) = 7 * (j : ℚ) := by
  interval_cases j
  · exact fl_eval _ 2 7881299347898368 _ (by norm_num [abs_of_pos]) (by norm_num [abs_of_pos])
      (by
      have e : ((((1 : ℤ) : ℚ) * 10 * (6305039478318694 / 2 ^ 53)) / 2 ^ ((2 : ℤ) - 52))
          = (((7881299347898367 : ℤ) : ℤ) : ℚ) + 1 / 2 := by norm_num
      rw [e]
      exact roundNE_tie_odd _ (by norm_num))
      (by norm_num)
  · exact fl_eval _ 3 7881299347898368 _ (by norm_num [abs_of_pos]) (by norm_num [abs_of_pos])
      (by
      have e : ((((2 : ℤ) : ℚ) * 10 * (6305039478318694 / 2 ^ 53)) / 2 ^ ((3 : ℤ) - 52))
          = (((7881299347898367 : ℤ) : ℤ) : ℚ) + 1 / 2 := by norm_num
      rw [e]
      exact roundNE_tie_odd _ (by norm_num))
      (by norm_num)
  · exact fl_eval _ 4 5910974510923776 _ (by norm_num [abs_of_pos]) (by norm_num [abs_of_pos])
      (roundNE_eq_of_lt _ _ (by norm_num) (by norm_num))
      (by norm_num)
  · exact fl_eval _ 4 7881299347898368 _ (by norm_num [abs_of_pos]) (by norm_num [abs_of_pos])
      (by
      have e : ((((4 : ℤ) : ℚ) * 10 * (6305039478318694 / 2 ^ 53)) / 2 ^ ((4 : ℤ) - 52))
          = (((7881299347898367 : ℤ) : ℤ) : ℚ) + 1 / 2 := by norm_num
      rw [e]
      exact roundNE_tie_odd _ (by norm_num))
      (by norm_num)
  · exact fl_eval _ 5 4925812092436480 _ (by norm_num [abs_of_pos]) (by norm_num [abs_of_pos])
      (roundNE_eq_of_lt _ _ (by norm_num) (by norm_num))
      (by norm_num)
  · exact fl_eval _ 5 5910974510923776 _ (by norm_num [abs_of_pos]) (by norm_num [abs_of_pos])
      (roundNE_eq_of_lt _ _ (by norm_num) (by norm_num))
      (by norm_num)
  · exact fl_eval _ 5 6896136929411072 _ (by norm_num [abs_of_pos]) (by norm_num [abs_of_pos])
      (roundNE_eq_of_lt _ _ (by norm_num) (by norm_num))
      (by norm_num)
  · exact fl_eval _ 5 7881299347898368 _ (by norm_num [abs_of_pos]) (by norm_num [abs_of_pos])
      (by
      have e : ((((8 : ℤ) : ℚ) * 10 * (6305039478318694 / 2 ^ 53)) / 2 ^ ((5 : ℤ) - 52))
          = (((7881299347898367 : ℤ) : ℤ) : ℚ) + 1 / 2 := by norm_num
      rw [e]
      exact roundNE_tie_odd _ (by norm_num))
      (by norm_num)

/-- The double written `0.2`. -/
theorem dbl_0_2_eq : dbl 0.2 = 3602879701896397 / 2 ^ 54 := by
  unfold dbl
  exact fl_eval _ (-3) 7205759403792794 _ (by norm_num [abs_of_pos]) (by norm_num [abs_of_pos])
    (roundNE_eq_of_lt _ _ (by norm_num) (by norm_num)) (by norm_num)

/-- The binary64 factor `1 - 0.2 * 0.3` of the off-peak hours, just below `0.94`. -/
theorem factor_offpeak_eq :
    fl (1 - fl (dbl 0.2 * dbl 0.3)) = 2116691824864133 / 2 ^ 51 := by
  have hp : fl (dbl 0.2 * dbl 0.3) = 1080863910568919 / 2 ^ 54 := by
    rw [dbl_0_2_eq, dbl_0_3_eq]
    exact fl_eval _ (-5) 8646911284551352 _ (by norm_num [abs_of_pos])
      (by norm_num [abs_of_pos]) (roundNE_eq_of_lt _ _ (by norm_num) (by norm_num))
      (by norm_num)
  rw [hp]
  exact fl_eval _ (-1) 8466767299456532 _ (by norm_num [abs_of_pos])
    (by norm_num [abs_of_pos])
    (by
      have e : ((1 : ℚ) - 1080863910568919 / 2 ^ 54) / 2 ^ ((-1 : ℤ) - 52)
          = ((8466767299456532 : ℤ) : ℚ) + 1 / 2 := by norm_num
      rw [e]
      exact roundNE_tie_even _ (by norm_num))
    (by norm_num)

end CapacityBounds


section CapacityBoundsCode

open AIScheduler

/-- Every intensity the code returns is the double of one of its four literals. -/
theorem calculateRushIntensity_literal (z : Zone) (t : Instant) :
    ∃ q : ℚ, calculateRushIntensity z t = dbl q
      ∧ (q = 9 / 10 ∨ q = 1 ∨ q = 7 / 10 ∨ q = 2 / 10) := by
  unfold calculateRushIntensity
  rw [rushIntensityAt_exact _ _ (z.getHours_lt t) (z.getMinutes_lt t)]
  split_ifs
  · exact ⟨9 / 10, by norm_num, Or.inl rfl⟩
  · exact ⟨1, by unfold dbl; rw [fl_one], Or.inr (Or.inl rfl)⟩
  · exact ⟨7 / 10, by norm_num, Or.inr (Or.inr (Or.inl rfl))⟩
  · exact ⟨2 / 10, by norm_num, Or.inr (Or.inr (Or.inr rfl))⟩

/-- No intensity the code returns is below the off-peak double `0.2` or above 1. -/
theorem calculateRushIntensity_range (z : Zone) (t : Instant) :
    dbl 0.2 ≤ calculateRushIntensity z t ∧ calculateRushIntensity z t ≤ 1 := by
  refine ⟨?_, (rushIntensityAt_range _ _).2⟩
  obtain ⟨q, hq, h⟩ := calculateRushIntensity_literal z t
  rw [hq]
  unfold dbl
  apply fl_mono
  rcases h with h | h | h | h <;> rw [h] <;> norm_num

/-- Over exact rational arithmetic an intensity in `[0.2, 1]` keeps the effective capacity
between `floor(0.7 c)` and `floor(0.94 c)`, which is below `c` for `c ≥ 1`. -/
theorem effectiveCapacityExact_bounds (c : ℤ) (hc : 1 ≤ c) (q : ℚ) (h0 : 2 / 10 ≤ q)
    (h1 : q ≤ 1) :
    ⌊(7 / 10 : ℚ) * c⌋ ≤ effectiveCapacityExact c q
      ∧ effectiveCapacityExact c q ≤ ⌊(94 / 100 : ℚ) * c⌋
      ∧ ⌊(94 / 100 : ℚ) * c⌋ ≤ c - 1 := by
  have hc0 : (1 : ℚ) ≤ c := by exact_mod_cast hc
  refine ⟨Int.floor_mono ?_, Int.floor_mono ?_, ?_⟩
  · nlinarith
  · nlinarith
  · have : ⌊(94 / 100 : ℚ) * c⌋ < c := by
      rw [Int.floor_lt]; linarith
    omega

/-- In binary64 the effective capacity is at most `floor(0.94 c)` for `1 ≤ c < 2 ^ 40`. -/
theorem effectiveCapacity_le_offpeak (c : ℤ) (hc : 1 ≤ c) (hc2 : c < 2 ^ 40) (z : Zone)
    (t : Instant) :
    effectiveCapacity c (calculateRushIntensity z t) ≤ ⌊(94 / 100 : ℚ) * c⌋ := by
  refine le_trans (effectiveCapacity_antitone (by omega) (calculateRushIntensity_range z t).1) ?_
  unfold effectiveCapacity
  rw [factor_offpeak_eq]
  have hN1 : (⌊(94 / 100 : ℚ) * c⌋ : ℚ) ≤ 94 / 100 * c := Int.floor_le _
  have hN2 : (94 / 100 : ℚ) * c < ⌊(94 / 100 : ℚ) * c⌋ + 1 := Int.lt_floor_add_one _
  generalize ⌊(94 / 100 : ℚ) * c⌋ = N at hN1 hN2 ⊢
  have i1 : 100 * N ≤ 94 * c := by
    have : ((100 * N : ℤ) : ℚ) ≤ ((94 * c : ℤ) : ℚ) := by push_cast; linarith
    exact_mod_cast this
  have i2 : 94 * c < 100 * N + 100 := by
    have : ((94 * c : ℤ) : ℚ) < ((100 * N + 100 : ℤ) : ℚ) := by push_cast; linarith
    exact_mod_cast this
  have i3 : ((94 * c : ℤ) : ℚ) ≤ ((100 * N + 99 : ℤ) : ℚ) := by
    exact_mod_cast (by omega : 94 * c ≤ 100 * N + 99)
  push_cast at i3
  have hc0 : (1 : ℚ) ≤ c := by exact_mod_cast hc
  have hr : fl (((128 * N + 127 : ℤ) : ℚ) / 2 ^ 7) = ((128 * N + 127 : ℤ) : ℚ) / 2 ^ 7 :=
    fl_dyadic _ 7 (by rw [abs_lt]; constructor <;> omega)
  have hx : (c : ℚ) * (2116691824864133 / 2 ^ 51) ≤ ((128 * N + 127 : ℤ) : ℚ) / 2 ^ 7 := by
    push_cast
    have : (c : ℚ) * (2116691824864133 / 2 ^ 51) ≤ 94 / 100 * c := by nlinarith
    norm_num at this ⊢
    linarith
  have hf := fl_mono hx
  rw [hr] at hf
  have : ⌊fl ((c : ℚ) * (2116691824864133 / 2 ^ 51))⌋ < N + 1 := by
    rw [Int.floor_lt]
    push_cast at hf ⊢
    norm_num at hf ⊢
    linarith
  omega

/-- In binary64 the effective capacity is at least `floor(0.7 c)` for `1 ≤ c ≤ 89`. -/
theorem effectiveCapacity_ge_peak (c : ℤ) (hc : 1 ≤ c) (hc2 : c ≤ 89) (z : Zone)
    (t : Instant) :
    ⌊(7 / 10 : ℚ) * c⌋ ≤ effectiveCapacity c (calculateRushIntensity z t) := by
  refine le_trans ?_ (effectiveCapacity_antitone (by omega) (calculateRushIntensity_range z t).2)
  unfold effectiveCapacity
  rw [factor_peak_eq]
  by_cases hd : (10 : ℤ) ∣ c
  · obtain ⟨j, rfl⟩ := hd
    have e := fl_ten_multiples j (by omega) (by omega)
    have e2 : (((10 * j : ℤ) : ℚ) * (6305039478318694 / 2 ^ 53))
        = (j : ℚ) * 10 * (6305039478318694 / 2 ^ 53) := by push_cast; ring
    rw [e2, e]
    apply Int.floor_mono
    push_cast
    linarith
  · have hN1 : (⌊(7 / 10 : ℚ) * c⌋ : ℚ) ≤ 7 / 10 * c := Int.floor_le _
    have hN0 : 0 ≤ ⌊(7 / 10 : ℚ) * c⌋ :=
      Int.floor_nonneg.mpr (mul_nonneg (by norm_num) (by exact_mod_cast (by omega : 0 ≤ c)))
    generalize ⌊(7 / 10 : ℚ) * c⌋ = N at hN1 hN0 ⊢
    have i1 : 10 * N ≤ 7 * c := by
      have : ((10 * N : ℤ) : ℚ) ≤ ((7 * c : ℤ) : ℚ) := by push_cast; linarith
      exact_mod_cast this
    have i3 : ((10 * N + 1 : ℤ) : ℚ) ≤ ((7 * c : ℤ) : ℚ) := by
      exact_mod_cast (by omega : 10 * N + 1 ≤ 7 * c)
    push_cast at i3
    have hcq : (c : ℚ) ≤ 89 := by exact_mod_cast hc2
    have hr : fl ((N : ℤ) : ℚ) = N := fl_intCast N (by rw [abs_lt]; constructor <;> omega)
    have hx : (N : ℚ) ≤ (c : ℚ) * (6305039478318694 / 2 ^ 53) := by
      norm_num
      linarith
    have hf := fl_mono hx
    rw [hr] at hf
    exact Int.le_floor.mpr hf

end CapacityBoundsCode


/-- C26: for every kitchen capacity `c ≥ 1` and every pickup time the intensity is the double of
one of the literals 0.9, 1.0, 0.7 and 0.2, so never below 0.2, and over exact rational
arithmetic `0.7 c ≤ c (1 - 0.3 q) ≤ 0.94 c` and
`floor(0.7 c) ≤ effectiveCapacity ≤ floor(0.94 c) ≤ c - 1`; the binary64 value the code
computes obeys the same bounds for `c ≤ 89`; for `c = 1` the admission threshold
`max(effectiveCapacity, 2)` is 2, above the kitchen capacity. -/
theorem effectiveCapacity_bounds (c : ℤ) (hc : 1 ≤ c) (z : Zone) (pickupTime : Instant) :
    (∃ q : ℚ, AIScheduler.calculateRushIntensity z pickupTime = dbl q
        ∧ (q = 9 / 10 ∨ q = 1 ∨ q = 7 / 10 ∨ q = 2 / 10)
        ∧ 2 / 10 ≤ q
        ∧ (7 / 10 : ℚ) * c ≤ (c : ℚ) * (1 - q * (3 / 10))
        ∧ (c : ℚ) * (1 - q * (3 / 10)) ≤ (94 / 100 : ℚ) * c
        ∧ ⌊(7 / 10 : ℚ) * c⌋ ≤ AIScheduler.effectiveCapacityExact c q
        ∧ AIScheduler.effectiveCapacityExact c q ≤ ⌊(94 / 100 : ℚ) * c⌋
        ∧ AIScheduler.effectiveCapacityExact c q ≤ c - 1
        ∧ max (AIScheduler.effectiveCapacityExact 1 q) 2 = 2)
      ∧ ⌊(94 / 100 : ℚ) * c⌋ ≤ c - 1
      ∧ (c ≤ 89 →
          ⌊(7 / 10 : ℚ) * c⌋
              ≤ AIScheduler.effectiveCapacity c (AIScheduler.calculateRushIntensity z pickupTime)
            ∧ AIScheduler.effectiveCapacity c (AIScheduler.calculateRushIntensity z pickupTime)
              ≤ ⌊(94 / 100 : ℚ) * c⌋)
      ∧ max (AIScheduler.effectiveCapacity 1 (AIScheduler.calculateRushIntensity z pickupTime)) 2
          = 2
      ∧ (AIScheduler.constructor (some 1)).kitchenCapacity
          < max (AIScheduler.effectiveCapacity 1
              (AIScheduler.calculateRushIntensity z pickupTime)) 2 := by
  have hc0 : (1 : ℚ) ≤ c := by exact_mod_cast hc
  have hone : AIScheduler.effectiveCapacity 1 (AIScheduler.calculateRushIntensity z pickupTime)
      ≤ 0 := by
    have h := effectiveCapacity_le_offpeak 1 le_rfl (by norm_num) z pickupTime
    have e : ⌊(94 / 100 : ℚ) * ((1 : ℤ) : ℚ)⌋ = 0 := by
      rw [Int.floor_eq_iff]; constructor <;> norm_num
    rw [e] at h
    exact h
  have hmax : max (AIScheduler.effectiveCapacity 1
      (AIScheduler.calculateRushIntensity z pickupTime)) 2 = 2 := max_eq_right (by omega)
  refine ⟨?_, ?_, ?_, hmax, ?_⟩
  · obtain ⟨q, hq, hlit⟩ := calculateRushIntensity_literal z pickupTime
    have h0 : 2 / 10 ≤ q := by rcases hlit with h | h | h | h <;> rw [h] <;> norm_num
    have h1 : q ≤ 1 := by rcases hlit with h | h | h | h <;> rw [h] <;> norm_num
    obtain ⟨b1, b2, b3⟩ := effectiveCapacityExact_bounds c hc q h0 h1
    obtain ⟨_, o2, _⟩ := effectiveCapacityExact_bounds 1 le_rfl q h0 h1
    have e : ⌊(94 / 100 : ℚ) * ((1 : ℤ) : ℚ)⌋ = 0 := by
      rw [Int.floor_eq_iff]; constructor <;> norm_num
    rw [e] at o2
    refine ⟨q, hq, hlit, h0, by nlinarith, by nlinarith, b1, b2, le_trans b2 b3,
      max_eq_right (by omega)⟩
  · exact (effectiveCapacityExact_bounds c hc 1 (by norm_num) le_rfl).2.2
  · intro h89
    exact ⟨effectiveCapacity_ge_peak c hc h89 z pickupTime,
      effectiveCapacity_le_offpeak c hc (by omega) z pickupTime⟩
  · rw [hmax]
    show (1 : ℤ) < 2
    norm_num

/-- Capacity 5 at noon UTC: the effective capacity lies between `floor(3.5)` and `floor(4.7)`. -/
theorem effectiveCapacity_bounds_witness :
    (1 : ℤ) ≤ 5
      ∧ ⌊(7 / 10 : ℚ) * ((5 : ℤ) : ℚ)⌋
          ≤ AIScheduler.effectiveCapacity 5 (AIScheduler.calculateRushIntensity utc 43200000)
      ∧ AIScheduler.effectiveCapacity 5 (AIScheduler.calculateRushIntensity utc 43200000)
          ≤ ⌊(94 / 100 : ℚ) * ((5 : ℤ) : ℚ)⌋ :=
  ⟨by decide,
    (effectiveCapacity_bounds 5 (by decide) utc 43200000).2.2.1 (by decide)⟩


/-! ## Properties of the vendor order workflow -/

section Workflow

open VendorController

/-- The table as a relation on pairs of a current and a requested status. -/
theorem validTransitions_own_iff (current s : String) :
    (∃ allowed, validTransitions current = TransitionLookup.own allowed ∧ s ∈ allowed) ↔
      specTransition current s := by
  unfold validTransitions specTransition
  by_cases h1 : current = "confirmed"
  · subst h1; simp
  by_cases h2 : current = "preparing"
  · subst h2; simp
  by_cases h3 : current = "ready"
  · subst h3; simp
  simp only [h1, h2, h3, if_false, false_and, or_false]
  split_ifs <;> simp

/-- The three cases of the handler on a found order. -/
theorem updateOrderStatus_cases (doc : OrderDocument) (status : Option String) (now : Instant) :
    (∃ allowed s, validTransitions doc.order.status = TransitionLookup.own allowed
        ∧ status = some s ∧ s ∈ allowed
        ∧ updateOrderStatus (some doc) status now =
          (StatusResponse.json 200 true,
            some ⟨⟨doc.order.canteenId, doc.order.items, s, doc.order.pickupSlot,
                doc.order.scheduledPrepTime⟩,
              if s = "preparing" then some now else doc.preparedAt,
              if s = "preparing" then doc.collectedAt
              else if s = "collected" then some now else doc.collectedAt⟩))
      ∨ ((¬ ∃ allowed s, validTransitions doc.order.status = TransitionLookup.own allowed
            ∧ status = some s ∧ s ∈ allowed)
          ∧ validTransitions doc.order.status ≠ TransitionLookup.inherited
          ∧ updateOrderStatus (some doc) status now = (StatusResponse.json 400 false, some doc))
      ∨ (validTransitions doc.order.status = TransitionLookup.inherited
          ∧ updateOrderStatus (some doc) status now = (StatusResponse.error, some doc)) := by
  unfold updateOrderStatus
  dsimp only
  cases validTransitions doc.order.status with
  | inherited => right; right; simp
  | undefined => right; left; simp
  | own allowed =>
    cases status with
    | none => right; left; simp
    | some s =>
      by_cases hs : s ∈ allowed
      · left; exact ⟨allowed, s, rfl, rfl, hs, by simp [hs]⟩
      · right; left; simp [hs]

/-- A collected, cancelled or pending order has no entry in the table. -/
theorem validTransitions_terminal (current : String)
    (h : current = "collected" ∨ current = "cancelled" ∨ current = "pending") :
    validTransitions current = TransitionLookup.undefined := by
  rcases h with h | h | h <;> subst h <;> decide

/-- A request on a collected, cancelled or pending order is answered 400 and changes nothing. -/
theorem updateOrderStatus_terminal (doc : OrderDocument) (status : Option String)
    (now : Instant)
    (h : doc.order.status = "collected" ∨ doc.order.status = "cancelled"
      ∨ doc.order.status = "pending") :
    updateOrderStatus (some doc) status now = (StatusResponse.json 400 false, some doc) := by
  unfold updateOrderStatus
  simp only [validTransitions_terminal _ h]

theorem applyUpdates_terminal (doc : OrderDocument)
    (h : doc.order.status = "collected" ∨ doc.order.status = "cancelled"
      ∨ doc.order.status = "pending")
    (requests : List (Option String × Instant)) : applyUpdates doc requests = doc := by
  induction requests with
  | nil => rfl
  | cons request rest ih =>
    unfold applyUpdates
    rw [updateOrderStatus_terminal doc _ _ h]
    exact ih

end Workflow

/-- C28: `updateOrderStatus` accepts a request on a found order exactly when the pair of the
current and the requested status is in the table confirmed -> {preparing, cancelled},
preparing -> {ready, cancelled}, ready -> {collected}; an accepted request stores the requested
status and leaves the other order fields as they were, every other request leaves the stored
order unchanged, so a status only ever changes along the table; a collected, cancelled or
pending order is answered 400 and no sequence of requests changes it. -/
theorem updateOrderStatus_transitions (doc : OrderDocument) (status : Option String)
    (now : Instant) :
    ((VendorController.updateOrderStatus (some doc) status now).1 = StatusResponse.json 200 true
        ↔ ∃ s, status = some s ∧ specTransition doc.order.status s)
      ∧ (∀ s, status = some s → specTransition doc.order.status s →
          ∃ d, (VendorController.updateOrderStatus (some doc) status now).2 = some d
            ∧ d.order = ⟨doc.order.canteenId, doc.order.items, s, doc.order.pickupSlot,
                doc.order.scheduledPrepTime⟩)
      ∧ ((VendorController.updateOrderStatus (some doc) status now).1
            ≠ StatusResponse.json 200 true →
          (VendorController.updateOrderStatus (some doc) status now).2 = some doc)
      ∧ (∀ d, (VendorController.updateOrderStatus (some doc) status now).2 = some d →
          d.order.status ≠ doc.order.status →
            status = some d.order.status ∧ specTransition doc.order.status d.order.status)
      ∧ ((doc.order.status = "collected" ∨ doc.order.status = "cancelled"
            ∨ doc.order.status = "pending") →
          VendorController.updateOrderStatus (some doc) status now
              = (StatusResponse.json 400 false, some doc)
            ∧ ∀ requests, VendorController.applyUpdates doc requests = doc) := by
  have key : ∀ allowed s, VendorController.validTransitions doc.order.status
      = TransitionLookup.own allowed → s ∈ allowed → specTransition doc.order.status s :=
    fun allowed s h1 h2 => (validTransitions_own_iff _ _).mp ⟨allowed, h1, h2⟩
  rcases updateOrderStatus_cases doc status now with
    ⟨allowed, s, hv, hs, hmem, heq⟩ | ⟨hno, _, heq⟩ | ⟨hinh, heq⟩
  · refine ⟨?_, ?_, ?_, ?_, ?_⟩
    · rw [heq]
      exact ⟨fun _ => ⟨s, hs, key allowed s hv hmem⟩, fun _ => rfl⟩
    · intro s2 hs2 _
      have : s2 = s := by rw [hs] at hs2; exact (Option.some.inj hs2).symm
      subst this
      rw [heq]
      exact ⟨_, rfl, rfl⟩
    · intro hne
      rw [heq] at hne
      exact absurd rfl hne
    · intro d hd _
      rw [heq] at hd
      have hd2 := Option.some.inj hd
      subst hd2
      exact ⟨hs, key allowed s hv hmem⟩
    · intro hterm
      rw [validTransitions_terminal _ hterm] at hv
      exact absurd hv (by simp)
  · have hnot : ¬ ∃ s, status = some s ∧ specTransition doc.order.status s := by
      rintro ⟨s, hs, ht⟩
      obtain ⟨allowed, h1, h2⟩ := (validTransitions_own_iff _ _).mpr ht
      exact hno ⟨allowed, s, h1, hs, h2⟩
    refine ⟨?_, ?_, ?_, ?_, ?_⟩
    · rw [heq]
      exact ⟨fun h => absurd h (by simp), fun h => absurd h hnot⟩
    · intro s hs ht
      exact absurd ⟨s, hs, ht⟩ hnot
    · intro _
      rw [heq]
    · intro d hd hne
      rw [heq] at hd
      have hd2 := Option.some.inj hd
      subst hd2
      exact absurd rfl hne
    · intro hterm
      exact ⟨heq, applyUpdates_terminal doc hterm⟩
  · have hnot : ¬ ∃ s, status = some s ∧ specTransition doc.order.status s := by
      rintro ⟨s, _, ht⟩
      obtain ⟨allowed, h1, _⟩ := (validTransitions_own_iff _ _).mpr ht
      rw [hinh] at h1
      exact absurd h1 (by simp)
    refine ⟨?_, ?_, ?_, ?_, ?_⟩
    · rw [heq]
      exact ⟨fun h => absurd h (by simp), fun h => absurd h hnot⟩
    · intro s hs ht
      exact absurd ⟨s, hs, ht⟩ hnot
    · intro _
      rw [heq]
    · intro d hd hne
      rw [heq] at hd
      have hd2 := Option.some.inj hd
      subst hd2
      exact absurd rfl hne
    · intro hterm
      rw [validTransitions_terminal _ hterm] at hinh
      exact absurd hinh (by simp)

/-- A confirmed order accepts the request for `preparing`; a collected order stays as it is
under a request for `preparing` followed by one for `cancelled`. -/
theorem updateOrderStatus_transitions_witness :
    (VendorController.updateOrderStatus
        (some ⟨⟨"a", [⟨1, some 10⟩], "confirmed", ⟨43200000, 43800000⟩, some 42480000⟩,
          none, none⟩) (some "preparing") 42480000).1 = StatusResponse.json 200 true
      ∧ VendorController.applyUpdates
          ⟨⟨"a", [⟨1, some 10⟩], "collected", ⟨43200000, 43800000⟩, some 42480000⟩,
            some 42480000, some 43200000⟩
          [(some "preparing", 43260000), (some "cancelled", 43320000)]
        = ⟨⟨"a", [⟨1, some 10⟩], "collected", ⟨43200000, 43800000⟩, some 42480000⟩,
            some 42480000, some 43200000⟩ :=
  ⟨(updateOrderStatus_transitions
      ⟨⟨"a", [⟨1, some 10⟩], "confirmed", ⟨43200000, 43800000⟩, some 42480000⟩,
        none, none⟩ (some "preparing") 42480000).1.mpr
      ⟨"preparing", rfl, Or.inl ⟨rfl, Or.inl rfl⟩⟩,
    ((updateOrderStatus_transitions
        ⟨⟨"a", [⟨1, some 10⟩], "collected", ⟨43200000, 43800000⟩, some 42480000⟩,
          some 42480000, some 43200000⟩ (some "preparing") 43260000).2.2.2.2
      (Or.inl rfl)).2 _⟩

end CanteenAI
